import Mathlib

/-!
# Phits: a FITS file-format plug-in

A shallow embedding of `common/Phits.cpp` (class `PhitsPlugin`) and the
properties of its decode (`readStart`, `readContinue`) and encode
(`writeStart`) pipelines.

Conventions of the embedding.

* The host's `FormatRecord` and the plug-in's `*m_result` are explicit state.
* What the plug-in asks of its collaborators (the host callbacks `advanceState` and
  `progressProc`, the CCfits calls `FITS(...)`, `addKey`, `read`, `write`) is recorded
  in the returned state, one list per kind of call, each in call order.  The answers
  of the collaborators (the seek result, whether the file opens, whether a buffer is
  allocated, what `advanceState` returns on its k-th call) are inputs.
* Pixel samples are exact rationals, and the arithmetic on them is exact.  A value
  that is not a finite number (the outcome of a division by zero) is `none`.  The
  source computes in binary32: there, too, comparing, copying and negating a sample
  is exact and a division by zero gives no finite number, but sums, products and
  quotients are rounded and can overflow.  The rounding is not part of the embedding,
  so the theorems state what is delivered only where no rounded operation is involved
  (samples passed through, a division by zero) or, where said so, in exact arithmetic.
* Image sizes, plane counts and counters are natural numbers.  Where the source
  computes them in `int` or `uint32_t`, the embedding records whether a computation
  has left the range of its type (`intOverflow` for `writeStart`, `counterOverflow`
  for `readContinue`); a theorem that depends on the counters carries the size bounds
  under which neither is set.
* C++ `std::string` is `String`, one `Char` per byte.
* A byte buffer is a list of its bytes.  A store at a position past the end of the
  list leaves the list as it is; the positions `setErrorString` stores to are kept
  apart, in `setErrorStringStores`.
* The numeric values of the cfitsio and host constants are those of the headers the
  plug-in is compiled against; the proofs use only that they differ from each other.
* Log lines are kept for `readStart`, `optionsStart`, `filterFile` and
  `setErrorString`; the timing and progress lines of `readContinue` and `writeStart`
  have no effect on them and are left out.
-/

namespace Phits

/-! ## Constants of the libraries the plug-in is compiled against -/

/-- The cfitsio image type code `BYTE_IMG` (8-bit unsigned integer). -/
def BYTE_IMG : Int := 8
/-- The cfitsio image type code `SHORT_IMG` (16-bit signed integer). -/
def SHORT_IMG : Int := 16
/-- The cfitsio image type code `LONG_IMG` (32-bit signed integer). -/
def LONG_IMG : Int := 32
/-- The cfitsio image type code `LONGLONG_IMG` (64-bit signed integer). -/
def LONGLONG_IMG : Int := 64
/-- The cfitsio image type code `FLOAT_IMG` (32-bit floating point). -/
def FLOAT_IMG : Int := -32
/-- The cfitsio image type code `DOUBLE_IMG` (64-bit floating point). -/
def DOUBLE_IMG : Int := -64
/-- The cfitsio image type code `USHORT_IMG` (16-bit unsigned integer). -/
def USHORT_IMG : Int := 20

/-- The host result code `noErr`. -/
def noErr : Int := 0
/-- The host result code `errReportString`. -/
def errReportString : Int := -30904
/-- The host result code `writErr`. -/
def writErr : Int := -20
/-- The host result code `memFullErr`. -/
def memFullErr : Int := -108
/-- The host result code `userCanceledErr`. -/
def userCanceledErr : Int := -128
/-- The host result code `formatCannotRead`. -/
def formatCannotRead : Int := -30501
/-- The host image mode `plugInModeGrayScale`. -/
def plugInModeGrayScale : Int := 1
/-- The host image mode `plugInModeRGBColor`. -/
def plugInModeRGBColor : Int := 3

/-- The largest value of an `int` (32 bits on every platform the plug-in is built
for). -/
def INT_MAX : Nat := 2147483647

/-- The largest value of a `uint32_t`. -/
def UINT32_MAX : Nat := 4294967295

/-- The value of `std::numeric_limits<float>::max()`. -/
def FLT_MAX : ℚ := 340282346638528859811704183484516925440

/-! ## Control flow -/

/-- The loop `for (i = 0; i < n; ++i) body(i)` acting on a state. -/
def forLoop {σ : Type} (body : Nat → σ → σ) : Nat → σ → σ
  | 0, s => s
  | n + 1, s => body n (forLoop body n s)

/-! ## Header keywords and stored metadata -/

/-- The CCfits value types a header keyword can have. -/
inductive ValueType where
  | Tlogical
  | Tint
  | Tfloat
  | Tstring
  deriving DecidableEq, Repr

/-- A CCfits `Keyword`, seen through the accessors the plug-in calls:
`name()`, `comment()`, `keytype()`, `value(bool&)` and `value(string&)`. -/
structure Keyword where
  name : String
  comment : String
  keytype : ValueType
  boolValue : Bool
  stringValue : String
  deriving DecidableEq, Repr

/-- The call `std::map::insert`: the entry is placed in key order, and a key that is
already present keeps its old value. -/
def mapInsert (k : String) (v : Keyword) : List (String × Keyword) → List (String × Keyword)
  | [] => [(k, v)]
  | (k', v') :: rest =>
    if k < k' then (k, v) :: (k', v') :: rest
    else if k = k' then (k', v') :: rest
    else (k', v') :: mapInsert k v rest

/-- The struct `PhitsMetadata` with its default member initialisers. -/
structure PhitsMetadata where
  keywordMap : List (String × Keyword) := []
  bitpix : Int := 0
  extensionNames : List String := []
  bzero : ℚ := 0
  bscale : ℚ := 1
  inputDepth : Nat := 0
  isNormalized : Bool := false
  isConverted : Bool := false

/-! ## The FITS primitive -/

/-- The primary header of an open FITS file, as CCfits presents it. -/
structure PHDU where
  axes : Int
  axis : List Nat
  bitpix : Int
  zero : ℚ
  scale : ℚ
  keyWord : List (String × Keyword)

/-- An open FITS file: primary header, the names of its extensions, the primary
array (`pixels i` is the sample of 0-based element `i`, as `PHDU::read` returns it),
and the reads that make the library throw (keyed by first element, with the
exception text). -/
structure FITS where
  pHDU : PHDU
  extensionNames : List String
  pixels : Nat → ℚ
  readFault : Nat → Option String

/-- The call `PHDU::axis(i)`. -/
def PHDU.axisLen (h : PHDU) (i : Nat) : Nat := h.axis.getD i 0

/-- The call `PHDU::read(buf, first, nElements)`: the library throws, or fills the
buffer with elements `first .. first + nElements - 1` (1-based). -/
def FITS.read (f : FITS) (first nElements : Nat) : Except String (List ℚ) :=
  match f.readFault first with
  | some msg => .error msg
  | none => .ok ((List.range nElements).map (fun i => f.pixels (first - 1 + i)))

/-- What opening the file in `readStart` can come to. -/
inductive OpenResult where
  | badHandle
  | stdException (what : String)
  | fitsException (message : String) (errmsgs : List String)
  | opened (f : FITS)

/-! ## Plug-in state -/

/-- The fields of the host's `FormatRecord` the plug-in writes in `readStart`,
and the `errorString` slot (a `Str255`, when the host provides one).  The host SDK
declares `imageSize32.h` and `.v` as `int32` and `depth`, `planes`, `loPlane` and
`hiPlane` as `int16`; they are kept as unbounded numbers here, and a theorem about a
stored plane count carries the bound 32767. -/
structure FormatRecord where
  imageRsrcSize : Int := 0
  imageSizeH : Nat := 0
  imageSizeV : Nat := 0
  imageMode : Int := 0
  depth : Int := 0
  planes : Nat := 0
  transparencyMatting : Int := 0
  loPlane : Int := 0
  hiPlane : Int := 0
  errorString : Option (List Char) := none

/-- The plug-in between two selector calls: the format record, `*m_result`,
the open file `m_pFits` and what went to the logger. -/
structure Plugin where
  formatRecord : FormatRecord := {}
  result : Int := 0
  pFits : Option FITS := none
  logged : List String := []

/-- The function `log`. -/
def log (p : Plugin) (str : String) : Plugin :=
  { p with logged := p.logged ++ [str] }

/-- The C string of a `std::string`: its characters and the terminator. -/
def c_str (str : String) : List Char := str.data ++ [Char.ofNat 0]

/-- The call `std::copy(first, last, dst)`: element `i` of the source goes to
position `dst + i` of the buffer. -/
def copy : List Char → Nat → List Char → List Char
  | [], _, mem => mem
  | c :: cs, dst, mem => copy cs (dst + 1) (mem.set dst c)

/-- The method `PhitsPlugin::setErrorString`. -/
def setErrorString (p : Plugin) (str : String) : Plugin :=
  match p.formatRecord.errorString with
  | none => p
  | some errStr =>
    if str.length > 255 then p
    else
      let strLen := str.length % 256
      let errStr := errStr.set 0 (Char.ofNat strLen)
      let errStr := copy ((c_str str).take (strLen + 1)) 1 errStr
      log { p with formatRecord := { p.formatRecord with errorString := some errStr } } str

/-- The number of bytes of a `Str255` (`unsigned char[256]`). -/
def Str255Size : Nat := 256

/-- The stores of `std::copy(first, last, dst)`, in order, as (position, byte): element
`i` of the source is stored at `dst + i`. -/
def copyStores : List Char → Nat → List (Nat × Char)
  | [], _ => []
  | c :: cs, dst => (dst, c) :: copyStores cs (dst + 1)

/-- The stores `setErrorString` makes through `errStr`, in order, as (index into
`errStr`, byte): `errStr[0] = strLen`, then what `copy` stores from `errStr + 1` on.
`slot` tells whether `m_formatRecord->errorString` is non-null. -/
def setErrorStringStores (slot : Bool) (str : String) : List (Nat × Char) :=
  if !slot || decide (str.length > 255) then []
  else
    let strLen := str.length % 256
    (0, Char.ofNat strLen) :: copyStores ((c_str str).take (strLen + 1)) 1

/-- The text of a length-prefixed string buffer. -/
def pstring : List Char → String
  | [] => ""
  | n :: rest => String.mk (rest.take n.toNat)

/-- The method `PhitsPlugin::getFormatName`. -/
def getFormatName (fmt : Int) : String :=
  if fmt = BYTE_IMG then "BYTE_IMG"
  else if fmt = SHORT_IMG then "SHORT_IMG"
  else if fmt = FLOAT_IMG then "FLOAT_IMG"
  else if fmt = LONG_IMG then "LONG_IMG"
  else if fmt = LONGLONG_IMG then "LONGLONG_IMG"
  else if fmt = DOUBLE_IMG then "DOUBLE_IMG"
  else "unknown"

/-! ## Reading: `readStart` -/

/-- The locals `inDepth` and `depth` of `readStart`. -/
structure Depths where
  inDepth : Int := 0
  depth : Int := 0
  deriving DecidableEq, Repr

/-- The statements under `case BYTE_IMG:`. -/
def caseByte (isScaled : Bool) (d : Depths) : Depths :=
  { d with inDepth := 8, depth := if isScaled then 32 else 8 }

/-- The statements under `case SHORT_IMG:`. -/
def caseShort (d : Depths) : Depths :=
  { d with inDepth := 16, depth := 32 }

/-- The statements under `case FLOAT_IMG: case LONG_IMG:`, which end without a
`break`. -/
def caseFloatLong (d : Depths) : Depths :=
  { d with inDepth := 32, depth := 32 }

/-- The statements under `case LONGLONG_IMG: case DOUBLE_IMG:`. -/
def caseLongLongDouble (d : Depths) : Depths :=
  { d with inDepth := 64, depth := 32 }

/-- The `switch (fmt)` of `readStart`: the locals after it, or `none` in the
`default` case.  Control entering at `FLOAT_IMG`/`LONG_IMG` runs on through the
`LONGLONG_IMG`/`DOUBLE_IMG` statements. -/
def classifyDepth (fmt : Int) (isScaled : Bool) : Option Depths :=
  let d : Depths := {}
  if fmt = BYTE_IMG then
    some (caseByte isScaled d)
  else if fmt = SHORT_IMG then
    some (caseShort d)
  else if fmt = FLOAT_IMG ∨ fmt = LONG_IMG then
    some (caseLongLongDouble (caseFloatLong d))
  else if fmt = LONGLONG_IMG ∨ fmt = DOUBLE_IMG then
    some (caseLongLongDouble d)
  else
    none

/-- The axis-count check of `readStart`: the error text when the count is
neither 2 nor 3. -/
def axesError (axes : Int) : Option String :=
  if axes ≠ 2 ∧ axes ≠ 3 then
    if axes = 0 then
      some "the FITS file does not contain a primary image"
    else
      some ("the primary FITS image has " ++ toString axes ++ " axes, which is not supported")
  else
    none

/-- The plane count `pHDU.axes() > 2 ? pHDU.axis(2) : 1`. -/
def planeCount (h : PHDU) : Nat := if h.axes > 2 then h.axisLen 2 else 1

/-- The method `PhitsPlugin::readStart`, from the result `seek` of `PSSDKSetFPos`
and the outcome of opening the file. -/
def readStart (p : Plugin) (seek : Int) (o : OpenResult) : Plugin :=
  let p := { p with formatRecord := { p.formatRecord with imageRsrcSize := 0 } }
  let p := { p with result := seek }
  match o with
  | .badHandle =>
    let p := setErrorString p
      "Could not open FITS file: Failed to convert file handle to file descriptor."
    { p with result := errReportString, pFits := none }
  | .stdException what =>
    let p := log p "readStart"
    let p := setErrorString p ("could not open FITS file : " ++ what)
    { p with result := errReportString, pFits := none }
  | .fitsException message errmsgs =>
    let p := log p "readStart"
    let p := setErrorString p ("could not open FITS file : " ++ message)
    let p := log p "Error messages:"
    let p := log p "---"
    let p := errmsgs.foldl log p
    let p := log p "---"
    { p with result := errReportString, pFits := none }
  | .opened f =>
    let p := log p "readStart"
    let p := { p with pFits := some f }
    let pHDU := f.pHDU
    match axesError pHDU.axes with
    | some errorStr =>
      let p := setErrorString p errorStr
      { p with result := errReportString, pFits := none }
    | none =>
      let xres := pHDU.axisLen 0
      let yres := pHDU.axisLen 1
      let planes := planeCount pHDU
      let isScaled : Bool := pHDU.zero ≠ 0 ∨ pHDU.scale ≠ 1
      let p := log p ("Resolution: " ++ toString xres ++ "x" ++ toString yres ++ "x"
        ++ toString planes ++ ", " ++ toString pHDU.axes ++ " axes")
      let p := { p with formatRecord :=
        { p.formatRecord with imageSizeH := xres, imageSizeV := yres } }
      let fmt := pHDU.bitpix
      match classifyDepth fmt isScaled with
      | none =>
        let errorStr := "FITS image is of type " ++ getFormatName fmt
          ++ ", which is not supported"
        let p := setErrorString p errorStr
        let p := log p errorStr
        { p with result := errReportString }
      | some d =>
        let depth := d.depth
        let p := log p ("Input depth: " ++ toString d.inDepth
          ++ " bits per channel, editing depth: " ++ toString depth ++ " bits per channel.")
        if p.result ≠ 0 then p
        else if planes = 1 then
          let p := { p with formatRecord :=
            { p.formatRecord with imageMode := plugInModeGrayScale } }
          let p := { p with formatRecord := { p.formatRecord with
            depth := depth, planes := planes, transparencyMatting := 0,
            loPlane := 0, hiPlane := (planes : Int) - 1 } }
          log p "readStart end."
        else if planes ≥ 3 then
          let p := { p with formatRecord :=
            { p.formatRecord with imageMode := plugInModeRGBColor } }
          let p := { p with formatRecord := { p.formatRecord with
            depth := depth, planes := planes, transparencyMatting := 0,
            loPlane := 0, hiPlane := (planes : Int) - 1 } }
          log p "readStart end."
        else
          let p := setErrorString p
            ("FITS image has " ++ toString planes ++ " planes, which is not supported")
          { p with result := errReportString }

/-! ## Reading: `readContinue` -/

/-- One call of `advanceState` in the copy pass of `readContinue`: the host is handed
the scanline buffer for row `row` (`theRect32.top`) of plane `plane`
(`loPlane = hiPlane`).  A sample that is not a finite number is `none`. -/
structure Delivery where
  plane : Nat
  row : Nat
  scanline : List (Option ℚ)

/-- The quotient `a / b` of two samples; not a finite number when `b` is zero. -/
def fdiv (a b : ℚ) : Option ℚ := if b = 0 then none else some (a / b)

/-- The product `x * k` of a sample and a factor that may fail to be finite. -/
def scaleBy (x : ℚ) (k : Option ℚ) : Option ℚ := k.map (fun k => x * k)

/-- The locals and the call history of a running `readContinue`.  The source declares
`done` and `fcIdx` as `uint32_t`; the state keeps the numbers unbounded and records in
`counterOverflow` whether one of them has passed `UINT32_MAX`.  Once
`counterOverflow` is set the state no longer tells what the code does. -/
structure ReadState where
  result : Int
  calls : Nat := 0
  done : Nat := 0
  progress : List (Nat × Nat) := []
  deliveries : List Delivery := []
  contents : Nat → ℚ := fun _ => 0
  fcIdx : Nat := 0
  srcIdx : Nat := 0
  thrown : Option String := none
  assertFailed : Bool := false
  counterOverflow : Bool := false

/-- The metadata block of `readContinue`: keywords cloned into the owned map, bitpix,
bscale, bzero, the input depth and the extension names. -/
def captureMetadata (f : FITS) : PhitsMetadata :=
  let pMeta : PhitsMetadata := {}
  let pMeta := f.pHDU.keyWord.foldl
    (fun m entry => { m with keywordMap := mapInsert entry.1 entry.2 m.keywordMap }) pMeta
  let pMeta := { pMeta with bitpix := f.pHDU.bitpix }
  let pMeta := { pMeta with bscale := f.pHDU.scale }
  let pMeta := { pMeta with bzero := f.pHDU.zero }
  let pMeta := { pMeta with inputDepth := pMeta.bitpix.natAbs }
  f.extensionNames.foldl
    (fun m name => { m with extensionNames := m.extensionNames ++ [name] }) pMeta

/-- The body of the scanline read loop of `readContinue` (32-bit path): read one
scanline at `fcIdx + 1`, copy it to `float_contents[fcIdx ..]`, report progress, call
`advanceState`; the loop increment then moves `fcIdx` on by one scanline.  Nothing
runs once the library has thrown.  `++done` and `fcIdx += imageSize.h` are made in
`uint32_t`: a sum above `UINT32_MAX` sets `counterOverflow`. -/
def readScanline (f : FITS) (width total : Nat) (adv : Nat → Int) (s : ReadState) :
    ReadState :=
  match s.thrown with
  | some _ => s
  | none =>
    match f.read (s.fcIdx + 1) width with
    | .error msg => { s with thrown := some msg }
    | .ok floatScanline =>
      let float_contents : Nat → ℚ := fun j =>
        if s.fcIdx ≤ j ∧ j < s.fcIdx + width then floatScanline.getD (j - s.fcIdx) 0
        else s.contents j
      let s := { s with contents := float_contents }
      let s := { s with counterOverflow := s.counterOverflow || decide (UINT32_MAX < s.done + 1),
                        done := s.done + 1 }
      let s := { s with progress := s.progress ++ [(s.done, total)] }
      let s := { s with result := adv s.calls, calls := s.calls + 1 }
      { s with counterOverflow := s.counterOverflow || decide (UINT32_MAX < s.fcIdx + width),
               fcIdx := s.fcIdx + width }

/-- The scanline read pass of `readContinue`:
`for (plane < planes) for (v < imageSize.v; ++v, fcIdx += imageSize.h)`. -/
def readPass (f : FITS) (width height planes total : Nat) (adv : Nat → Int)
    (s : ReadState) : ReadState :=
  forLoop (fun _plane => forLoop (fun _v => readScanline f width total adv) height) planes s

/-- The locals of the min/max analysis of `readContinue`. -/
structure MinMax where
  idx : Nat := 0
  minFloatVal : ℚ := FLT_MAX
  maxFloatVal : ℚ := -FLT_MAX

/-- The innermost statement of the min/max analysis, with the `++idx` of its loop.
The comparisons of `min` and `max` are exact in binary32 as well; samples that are not
finite numbers have no counterpart here. -/
def minMaxStep (contents : Nat → ℚ) (m : MinMax) : MinMax :=
  { idx := m.idx + 1,
    minFloatVal := min m.minFloatVal (contents m.idx),
    maxFloatVal := max m.maxFloatVal (contents m.idx) }

/-- The min/max analysis of `readContinue`:
`for (plane < planes) for (row < imageSize.v) for (col < imageSize.h; ++col, ++idx)`. -/
def minMaxPass (contents : Nat → ℚ) (width height planes : Nat) : MinMax :=
  forLoop (fun _plane => forLoop (fun _row => forLoop (fun _col => minMaxStep contents)
    width) height) planes {}

/-- The normalisation decided by `readContinue` after the analysis. -/
structure Normalization where
  isNormalized : Bool := false
  normOffset : ℚ := 0
  normScale : Option ℚ := some 1

/-- The block `if (minFloatVal < 0.f || maxFloatVal > 1.f) { ... }`, in exact
arithmetic: the test and the offset `-minFloatVal` are as in the source, the scale is
the exact quotient where the source has the binary32 one (no finite number, in both,
when `maxFloatVal = minFloatVal`). -/
def chooseNormalization (m : MinMax) : Normalization :=
  if m.minFloatVal < 0 ∨ m.maxFloatVal > 1 then
    { isNormalized := true,
      normOffset := -m.minFloatVal,
      normScale := fdiv 1 (m.maxFloatVal - m.minFloatVal) }
  else
    {}

/-- The scanline put into `pixelData` by the `switch (m_formatRecord->depth)` of the
copy pass, read from `sourceData`, which is `srcIdx` samples into the source array;
`none` in the `default` case.  The samples of the two `memcpy` branches are the source
samples as they are; those of the normalising branch are `(normOffset + fp[i]) *
normScale` in exact arithmetic, where the source rounds in binary32. -/
def copyScanline (depth : Int) (width : Nat) (norm : Normalization) (contents : Nat → ℚ)
    (srcIdx : Nat) : Option (List (Option ℚ)) :=
  if depth = 8 then
    some ((List.range width).map (fun i => some (contents (srcIdx + i))))
  else if depth = 32 then
    if norm.isNormalized then
      some ((List.range width).map
        (fun i => scaleBy (norm.normOffset + contents (srcIdx + i)) norm.normScale))
    else
      some ((List.range width).map (fun i => some (contents (srcIdx + i))))
  else
    none

/-- The body of the row loop of the copy pass, with the loop condition
`*m_result == noErr` in front of it.  `++done` is made in `uint32_t`: a sum above
`UINT32_MAX` sets `counterOverflow`. -/
def copyRow (depth : Int) (width total : Nat) (norm : Normalization) (adv : Nat → Int)
    (plane row : Nat) (s : ReadState) : ReadState :=
  if s.result ≠ noErr then s
  else
    let line := copyScanline depth width norm s.contents s.srcIdx
    let s := { s with assertFailed := s.assertFailed || line.isNone }
    let s := { s with deliveries := s.deliveries ++ [Delivery.mk plane row (line.getD [])] }
    let s := { s with result := adv s.calls, calls := s.calls + 1 }
    if s.result ≠ noErr then s
    else
      let s := { s with counterOverflow := s.counterOverflow || decide (UINT32_MAX < s.done + 1),
                        done := s.done + 1 }
      let s := { s with progress := s.progress ++ [(s.done, total)] }
      { s with srcIdx := s.srcIdx + width }

/-- The copy pass of `readContinue`. -/
def copyPass (depth : Int) (width height planes total : Nat) (norm : Normalization)
    (adv : Nat → Int) (s : ReadState) : ReadState :=
  forLoop (fun plane s =>
    if s.result ≠ noErr then s
    else forLoop (copyRow depth width total norm adv plane) height s) planes s

/-- What `readContinue` leaves behind: the plug-in, the metadata it stashed for the
host (if it got that far), the locals of the analysis, its calls of `progressProc`
and of `advanceState` (`calls` counts them all; the copy pass ones are `deliveries`),
and whether one of its fixed-width computations left its range (`counterOverflow`). -/
structure ReadOutcome where
  plugin : Plugin
  pMeta : Option PhitsMetadata := none
  minFloatVal : ℚ := FLT_MAX
  maxFloatVal : ℚ := -FLT_MAX
  normOffset : ℚ := 0
  normScale : Option ℚ := some 1
  progress : List (Nat × Nat) := []
  deliveries : List Delivery := []
  calls : Nat := 0
  assertFailed : Bool := false
  counterOverflow : Bool := false

/-- The `int` computations `readContinue` makes from the image sizes before it
allocates the scanline buffer: `2 * imageSize.v * planes` (the progress total) and
`imageSize.h * depth + 7` (the buffer size).  True when one of them passes
`INT_MAX`. -/
def sizeOverflow (p : Plugin) : Bool :=
  decide (INT_MAX < 2 * p.formatRecord.imageSizeV * p.formatRecord.planes)
  || decide ((INT_MAX : Int) < (p.formatRecord.imageSizeH : Int) * p.formatRecord.depth + 7)

/-- The `int` computation `planes * imageSize.h * imageSize.v` of the 32-bit path (the
size of `float_contents`, which also bounds the `uint32_t idx` of the analysis).  True
when it passes `INT_MAX`. -/
def resizeOverflow (p : Plugin) : Bool :=
  decide (p.formatRecord.depth ≠ 8)
  && decide (INT_MAX < p.formatRecord.planes * p.formatRecord.imageSizeH
        * p.formatRecord.imageSizeV)

/-- The `try` block of `readContinue`: the metadata with its conversion flags set, and
the state after the pixel data is read (whole for the 8-bit path, scanline by scanline
otherwise); an exception of the library is left in `thrown`. -/
def tryRead (p : Plugin) (f : FITS) (adv : Nat → Int) : PhitsMetadata × ReadState :=
  let width := p.formatRecord.imageSizeH
  let height := p.formatRecord.imageSizeV
  let planes := p.formatRecord.planes
  let total := 2 * height * planes
  let pMeta := captureMetadata f
  let s : ReadState := { result := p.result, progress := [(0, total)] }
  if p.formatRecord.depth = 8 then
    let pMeta := { pMeta with isNormalized := false }
    let pMeta := { pMeta with isConverted := false }
    match f.read 1 f.pHDU.axis.prod with
    | .error msg => (pMeta, { s with thrown := some msg })
    | .ok byte_contents => (pMeta, { s with contents := fun j => byte_contents.getD j 0 })
  else
    let pMeta := { pMeta with isConverted := decide (pMeta.bitpix ≠ FLOAT_IMG) }
    (pMeta, readPass f width height planes total adv s)

/-- The rest of `readContinue` after the `try` block: the `catch` handlers when the
library threw, otherwise the min/max analysis (32-bit path) and the copy pass. -/
def afterRead (p : Plugin) (pMeta : PhitsMetadata) (s : ReadState) (adv : Nat → Int) :
    ReadOutcome :=
  let width := p.formatRecord.imageSizeH
  let height := p.formatRecord.imageSizeV
  let planes := p.formatRecord.planes
  let depth := p.formatRecord.depth
  let total := 2 * height * planes
  match s.thrown with
  | some msg =>
    let p := { p with result := s.result }
    let p := setErrorString p ("could not open FITS file : " ++ msg)
    { plugin := { p with result := errReportString, pFits := none },
      pMeta := some pMeta, progress := s.progress, calls := s.calls,
      counterOverflow := sizeOverflow p || resizeOverflow p || s.counterOverflow }
  | none =>
    let m : MinMax := if depth = 32 then minMaxPass s.contents width height planes else {}
    let norm : Normalization := if depth = 32 then chooseNormalization m else {}
    let pMeta := { pMeta with isNormalized := pMeta.isNormalized || norm.isNormalized }
    let s := copyPass depth width height planes total norm adv s
    { plugin := { p with result := s.result },
      pMeta := some pMeta,
      minFloatVal := m.minFloatVal, maxFloatVal := m.maxFloatVal,
      normOffset := norm.normOffset, normScale := norm.normScale,
      progress := s.progress, deliveries := s.deliveries, calls := s.calls,
      assertFailed := s.assertFailed,
      counterOverflow := sizeOverflow p || resizeOverflow p || s.counterOverflow }

/-- The method `PhitsPlugin::readContinue` on the open file `f`; `allocOk` tells
whether the host could allocate the scanline buffer, and `adv k` is what the host's
`advanceState` returns on its call number `k` (from 0). -/
def readContinue (p : Plugin) (f : FITS) (allocOk : Bool) (adv : Nat → Int) : ReadOutcome :=
  if !allocOk then
    { plugin := { p with result := memFullErr }, counterOverflow := sizeOverflow p }
  else
    afterRead p (tryRead p f adv).1 (tryRead p f adv).2 adv

/-- A decode as the host runs it: `readStart`, and `readContinue` when that left
`noErr`. -/
def decode (p : Plugin) (seek : Int) (o : OpenResult) (allocOk : Bool) (adv : Nat → Int) :
    Option ReadOutcome :=
  let p := readStart p seek o
  if p.result ≠ noErr then none
  else
    match p.pFits with
    | none => none
    | some f => some (readContinue p f allocOk adv)

/-! ## Writing: `writeStart` -/

/-- One call `pHDU.addKey(name, value, comment)` of the keyword replay.  The value is
passed as a C string, so the key the library adds is a string key. -/
structure AddedKey where
  name : String
  value : String
  comment : String
  keytype : ValueType := ValueType.Tstring
  deriving DecidableEq, Repr

/-- One call `pHDU.write(first, nElements, data)`. -/
structure FitsWrite where
  first : Nat
  nElements : Nat
  data : List ℚ
  deriving DecidableEq

/-- The creation `FITS(name, fitsFormat, naxis, naxes, fd)`. -/
structure FitsCreate where
  fitsFormat : Int
  naxis : Int
  naxes : List Nat
  deriving DecidableEq, Repr

/-- The `switch (m_formatRecord->depth)` at the head of `writeStart`: the FITS storage
type and the sample size in bytes, or `none` in the `default` case. -/
def storageType (depth : Int) : Option (Int × Nat) :=
  if depth = 8 then some (BYTE_IMG, 1)
  else if depth = 16 then some (USHORT_IMG, 2)
  else if depth = 32 then some (FLOAT_IMG, 4)
  else none

/-- The value string the keyword replay computes for one stored keyword. -/
def valString (pKW : Keyword) : String :=
  if pKW.keytype = ValueType.Tlogical then
    (if pKW.boolValue then "T" else "F")
  else
    pKW.stringValue

/-- The keyword replay of `writeStart`: one `addKey` per entry of the stored map, in
map order. -/
def replayKeywords (pMeta : PhitsMetadata) : List AddedKey :=
  pMeta.keywordMap.map (fun entry =>
    { name := entry.2.name, value := valString entry.2, comment := entry.2.comment })

/-- The locals and the call history of the scanline loop of `writeStart`.  The source
declares `curStart` and `done` as `int`; an `int` that leaves its range is undefined
behaviour, so the state keeps the numbers unbounded and records in `intOverflow`
whether one of them has passed `INT_MAX`.  Once `intOverflow` is set the state no
longer tells what the code does. -/
structure WriteState where
  result : Int
  calls : Nat := 0
  curStart : Nat := 1
  done : Nat := 0
  requests : List (Nat × Nat) := []
  writes : List FitsWrite := []
  progress : List (Nat × Nat) := []
  intOverflow : Bool := false

/-- The body of the row loop of `writeStart`, with the loop condition
`*m_result == noErr` in front of it.  On `advanceState` the host fills the scanline
buffer with row `row` of plane `plane` of its raster.  The additions `curStart +=
imageSize.h` and `++done` are made in `int`: a sum above `INT_MAX` sets
`intOverflow`. -/
def writeRow (width total : Nat) (raster : Nat → Nat → Nat → ℚ) (adv : Nat → Int)
    (plane row : Nat) (s : WriteState) : WriteState :=
  if s.result ≠ noErr then s
  else
    let s :=
      if s.result = noErr then
        { s with requests := s.requests ++ [(plane, row)],
                 result := adv s.calls, calls := s.calls + 1 }
      else s
    let pixelData := (List.range width).map (raster plane row)
    let s :=
      if s.result = noErr then
        { s with writes := s.writes ++ [FitsWrite.mk s.curStart width pixelData] }
      else s
    let s := { s with intOverflow := s.intOverflow || decide (INT_MAX < s.curStart + width),
                      curStart := s.curStart + width }
    let s := { s with intOverflow := s.intOverflow || decide (INT_MAX < s.done + 1),
                      done := s.done + 1 }
    { s with progress := s.progress ++ [(s.done, total)] }

/-- The scanline loop of `writeStart`. -/
def writeLoop (width height planes total : Nat) (raster : Nat → Nat → Nat → ℚ)
    (adv : Nat → Int) (s : WriteState) : WriteState :=
  forLoop (fun plane s =>
    if s.result ≠ noErr then s
    else forLoop (writeRow width total raster adv plane) height s) planes s

/-- What `writeStart` leaves behind: the plug-in, the file it created (if any), its
calls of `addKey`, `advanceState` (with the rectangle asked for), `write` and
`progressProc`, and whether one of its `int` computations (the buffer size
`imageSize.h * depth + 7`, `total = imageSize.h * imageSize.v`, `curStart`, `done`)
passed `INT_MAX`. -/
structure WriteOutcome where
  plugin : Plugin
  created : Option FitsCreate := none
  keys : List AddedKey := []
  requests : List (Nat × Nat) := []
  writes : List FitsWrite := []
  progress : List (Nat × Nat) := []
  calls : Nat := 0
  intOverflow : Bool := false

/-- The method `PhitsPlugin::writeStart`.  `seek` is the result of `PSSDKSetFPos`,
`fdOk` and `createOk` tell whether the file handle converts and whether the library
creates the file, `pMeta` is the stashed metadata (if the host has any), `allocOk`
tells whether the scanline buffer could be allocated, `raster plane row col` is the
host's image and `adv k` the result of its `advanceState` call number `k`. -/
def writeStart (p : Plugin) (seek : Int) (fdOk createOk : Bool)
    (pMeta : Option PhitsMetadata) (allocOk : Bool) (raster : Nat → Nat → Nat → ℚ)
    (adv : Nat → Int) : WriteOutcome :=
  let p := { p with result := seek }
  if p.result ≠ noErr then { plugin := p }
  else
    let width := p.formatRecord.imageSizeH
    let height := p.formatRecord.imageSizeV
    let planes := p.formatRecord.planes
    let naxis : Int := 3
    let naxes := [width, height, planes]
    match storageType p.formatRecord.depth with
    | none => { plugin := { p with result := writErr } }
    | some (fitsFormat, _dataSize) =>
      if !fdOk then
        let p := setErrorString p
          "Could not open FITS file: Failed to convert file handle to file descriptor."
        { plugin := { p with result := errReportString } }
      else if !createOk then
        { plugin := { p with result := writErr } }
      else
        let created : FitsCreate := { fitsFormat := fitsFormat, naxis := naxis, naxes := naxes }
        let keys := match pMeta with
          | some pMeta => replayKeywords pMeta
          | none => []
        let bufferOverflow : Bool :=
          decide ((INT_MAX : Int) < (width : Int) * p.formatRecord.depth + 7)
        if !allocOk then
          { plugin := { p with result := memFullErr }, created := some created, keys := keys,
            intOverflow := bufferOverflow }
        else
          let total := width * height
          let totalOverflow : Bool := decide (INT_MAX < width * height)
          let s : WriteState := { result := p.result }
          let s := writeLoop width height planes total raster adv s
          { plugin := { p with result := s.result },
            created := some created, keys := keys,
            requests := s.requests, writes := s.writes, progress := s.progress,
            calls := s.calls,
            intOverflow := bufferOverflow || totalOverflow || s.intOverflow }

/-! ## Options: `optionsStart` -/

/-- The function `DoSaveWarn` of `win/PhitsSaveWin.cpp`: the warning box is shown
modally and the answer is `result == IDSAVE`.  `modal text` is what the dialog showing
`text` returns, and `IDSAVE` is the identifier of its save button. -/
def DoSaveWarn (IDSAVE : Int) (modal : String → Int) (warnString : String) : Bool :=
  decide (modal warnString = IDSAVE)

/-- The first part of `warnString` in `optionsStart`: the conversion sentence, else the
normalisation sentence, else nothing. -/
def leadText (pMeta : PhitsMetadata) : String :=
  let warnString := ""
  if pMeta.isConverted then
    let formatStr := if pMeta.bitpix < 0 then "floating-point" else "integer"
    let warnString := warnString ++ ("The " ++ toString pMeta.inputDepth ++ "-bit " ++ formatStr)
    let warnString := warnString
      ++ " data from the original FITS file has been converted to 32-bit floating-point"
    warnString ++ " data in the [0,1] range, and will be saved as a FITS FLOAT_IMG.\n\r"
  else if pMeta.isNormalized then
    warnString ++ "The floating-point data from the the original FITS file has been normalized to the [0,1] range.\n\r"
  else
    warnString

/-- The body of the loop over the extension names in `optionsStart`. -/
def appendQuoted (extensionNames : List String) (i : Nat) (extString : String) : String :=
  let extString := extString ++ ("'" ++ extensionNames.getD i "" ++ "'")
  if i < extensionNames.length - 1 then extString ++ ", " else extString

/-- The string `extString` of `optionsStart`. -/
def extensionText (extensionNames : List String) : String :=
  let extString := ""
  if extensionNames.length > 0 then
    let extString := extString ++ " original FITS file contained extra data in "
    let extString :=
      if extensionNames.length = 1 then
        extString ++ ("an extension named '" ++ extensionNames.getD 0 "" ++ "'")
      else
        let extString := extString ++ "extensions named "
        forLoop (appendQuoted extensionNames) extensionNames.length extString
    extString ++ ". This additional data will not be saved."
  else
    extString

/-- The text `optionsStart` hands to `DoSaveWarn`. -/
def warnText (pMeta : PhitsMetadata) : String :=
  let warnString := leadText pMeta
  let extString := extensionText pMeta.extensionNames
  if warnString = "" then
    "The " ++ extString
  else if extString ≠ "" then
    warnString ++ ("\n\rIn addition, the " ++ extString)
  else
    warnString

/-- What `optionsStart` leaves behind: the plug-in, and the text it showed in the
save warning (if it asked). -/
structure OptionsOutcome where
  plugin : Plugin
  shown : Option String := none

/-- The method `PhitsPlugin::optionsStart`; `pMeta` is the metadata stashed with the
document (if the host has any). -/
def optionsStart (p : Plugin) (pMeta : Option PhitsMetadata) (IDSAVE : Int)
    (modal : String → Int) : OptionsOutcome :=
  let p := log p "optionsStart"
  match pMeta with
  | none =>
    { plugin := log p "No metadata for FITS file found in DoOptionsStart." }
  | some pMeta =>
    if pMeta.extensionNames.length = 0 ∧ ¬ pMeta.isNormalized ∧ ¬ pMeta.isConverted then
      { plugin := p }
    else
      let warnString := warnText pMeta
      if !DoSaveWarn IDSAVE modal warnString then
        { plugin := { p with result := userCanceledErr }, shown := some warnString }
      else
        { plugin := p, shown := some warnString }

/-! ## Filter: `filterFile` -/

/-- What opening the file in `filterFile` can come to. -/
inductive FilterOpen where
  | fitsException (message : String)
  | stdException (what : String)
  | otherException
  | opened (f : FITS)

/-- The method `PhitsPlugin::filterFile`; `fdOk` tells whether the file handle
converts to a descriptor. -/
def filterFile (p : Plugin) (fdOk : Bool) (o : FilterOpen) : Plugin :=
  if p.result ≠ noErr then p
  else
    let p := log p "filterFile"
    let p := if !fdOk then { p with result := formatCannotRead } else p
    match o with
    | .fitsException message =>
      let p := log p ("Failed to create FITS object: " ++ ": " ++ message)
      { p with result := formatCannotRead }
    | .stdException what =>
      let p := log p ("Failed to create FITS object: " ++ ": " ++ what)
      { p with result := formatCannotRead }
    | .otherException =>
      { p with result := formatCannotRead }
    | .opened f =>
      let pHDU := f.pHDU
      if pHDU.axes ≠ 2 ∧ pHDU.axes ≠ 3 then
        let p := log p ("FITS file has unsupported axis count of " ++ toString pHDU.axes)
        { p with result := formatCannotRead }
      else
        let planes := planeCount pHDU
        if planes = 2 then
          let p := log p "FITS image has 2 planes, which is not supported."
          { p with result := formatCannotRead }
        else
          let bitpix := pHDU.bitpix
          let p :=
            if bitpix ≠ BYTE_IMG ∧ bitpix ≠ SHORT_IMG ∧ bitpix ≠ FLOAT_IMG then
              let p := log p ("FITS image is of unsupported type " ++ toString bitpix)
              { p with result := formatCannotRead }
            else p
          log p "Successfully filtered FITS image."

/-! ## Closed forms -/

/-- Scanline number `k` of a decode in plane-major, row-minor order, in closed form:
row `k % height` of plane `k / height`, taken from offset `k * width` of the source
array. -/
def deliveryAt (depth : Int) (width height : Nat) (norm : Normalization)
    (contents : Nat → ℚ) (k : Nat) : Delivery :=
  Delivery.mk (k / height) (k % height)
    ((copyScanline depth width norm contents (k * width)).getD [])

/-- The write of scanline number `k` of an encode in plane-major, row-minor order, in
closed form: `width` elements from element `1 + k * width`, holding row `k % height`
of plane `k / height` of the host's raster. -/
def writeAt (width height : Nat) (raster : Nat → Nat → Nat → ℚ) (k : Nat) : FitsWrite :=
  FitsWrite.mk (1 + k * width) width ((List.range width).map (raster (k / height) (k % height)))

/-- The first element of the write for `(plane, row)` as the repository's write tests
compute it: `i * (axes[0] * axes[1]) + y * axes[0] + 1`. -/
def testFirstElement (width height plane row : Nat) : Nat :=
  plane * (width * height) + row * width + 1

/-- A FITS logical value read back from its one-letter text. -/
def readLogical (text : String) : Option Bool :=
  if text = "T" then some true
  else if text = "F" then some false
  else none

/-- The names, each in single quotes, in order, separated by `", "` with no separator
after the last: `'X1', 'X2', ..., 'Xn'`. -/
def quotedList : List String → String
  | [] => ""
  | [x] => "'" ++ x ++ "'"
  | x :: y :: rest => "'" ++ x ++ "'" ++ ", " ++ quotedList (y :: rest)

/-- The names, each in single quotes and each followed by `", "`. -/
def quotedThenComma : List String → String
  | [] => ""
  | x :: rest => "'" ++ x ++ "'" ++ ", " ++ quotedThenComma rest

/-! ## Sample inputs -/

/-- A file with the given primary header, no keywords, no extensions, an all-zero
primary array and no read faults. -/
def headerOnly (axes : Int) (axis : List Nat) (bitpix : Int) (zero scale : ℚ) : FITS :=
  { pHDU := { axes := axes, axis := axis, bitpix := bitpix, zero := zero, scale := scale,
              keyWord := [] },
    extensionNames := [], pixels := fun _ => 0, readFault := fun _ => none }

/-- A plug-in at rest whose host provides an (all-zero) error-string buffer. -/
def freshPlugin : Plugin :=
  { formatRecord := { errorString := some (List.replicate 256 (Char.ofNat 0)) } }

/-- A plug-in whose format record describes a `width` x `height` image of `planes`
planes at the given depth (as a successful `readStart` leaves it, or as the host sets
it before a save). -/
def pluginFor (width height planes : Nat) (depth : Int) : Plugin :=
  { formatRecord := { imageSizeH := width, imageSizeV := height, planes := planes,
                      depth := depth,
                      errorString := some (List.replicate 256 (Char.ofNat 0)) } }

/-- A 32-bit float file of the given shape holding the listed samples (0 beyond the
list), with no keywords, no extensions and no read faults. -/
def floatFile (width height planes : Nat) (samples : List ℚ) : FITS :=
  { pHDU := { axes := 3, axis := [width, height, planes], bitpix := FLOAT_IMG,
              zero := 0, scale := 1, keyWord := [] },
    extensionNames := [], pixels := fun i => samples.getD i 0, readFault := fun _ => none }

/-- A host that never cancels. -/
def neverCancel : Nat → Int := fun _ => noErr

/-- Stored metadata with one logical keyword, `EXTEND`, of the given value. -/
def logicalMeta (b : Bool) : PhitsMetadata :=
  { keywordMap := [("EXTEND", { name := "EXTEND", comment := "may contain extensions",
                                keytype := ValueType.Tlogical, boolValue := b,
                                stringValue := "" })] }

/-- A raster whose rows all read `1/4, 3/4, 3/4, ...`. -/
def quarterRaster : Nat → Nat → Nat → ℚ :=
  fun _ _ col => if col = 0 then 1 / 4 else 3 / 4

/-- Stored metadata of a converted image with the given extension names. -/
def convertedMeta (bitpix : Int) (extensionNames : List String) : PhitsMetadata :=
  { bitpix := bitpix, inputDepth := bitpix.natAbs, isConverted := true,
    extensionNames := extensionNames }

/-- A host that cancels at its `advanceState` call number `k` (from 0). -/
def cancelAt (k : Nat) : Nat → Int := fun i => if i = k then userCanceledErr else noErr

/-- A string keyword named `name`. -/
def stringKeyword (name value : String) : Keyword :=
  { name := name, comment := "", keytype := ValueType.Tstring, boolValue := false,
    stringValue := value }

/-- An 8-bit 1 x 1 file whose header lists the keyword `ZED` before `ALPHA`. -/
def twoKeyFile : FITS :=
  { pHDU := { axes := 2, axis := [1, 1], bitpix := BYTE_IMG, zero := 0, scale := 1,
              keyWord := [("ZED", stringKeyword "ZED" "z"),
                          ("ALPHA", stringKeyword "ALPHA" "a")] },
    extensionNames := [], pixels := fun _ => 0, readFault := fun _ => none }

/-- Stored metadata of an unconverted, unnormalised image with the given extension
names. -/
def extensionMeta (extensionNames : List String) : PhitsMetadata :=
  { extensionNames := extensionNames }

/-! # Theorems -/

/-! ## Loops -/

theorem forLoop_const {σ : Type} (f : σ → σ) (n : Nat) (s : σ) :
    forLoop (fun _ => f) n s = f^[n] s := by
  induction n with
  | zero => rfl
  | succ n ih => rw [forLoop, ih, Function.iterate_succ_apply']

theorem forLoop_const_fn {σ : Type} (f : σ → σ) (n : Nat) :
    forLoop (fun _ => f) n = f^[n] :=
  funext (forLoop_const f n)

theorem forLoop_induction {σ : Type} (body : Nat → σ → σ) (n : Nat) (I : Nat → σ → Prop)
    (s : σ) (h0 : I 0 s) (hstep : ∀ i s, i < n → I i s → I (i + 1) (body i s)) :
    I n (forLoop body n s) := by
  induction n with
  | zero => exact h0
  | succ n ih =>
    rw [forLoop]
    exact hstep n _ (Nat.lt_succ_self n)
      (ih (fun i s hi h => hstep i s (Nat.lt_succ_of_lt hi) h))

theorem forLoop2_induction {σ : Type} (body : Nat → Nat → σ → σ) (n m : Nat)
    (I : Nat → σ → Prop) (s : σ) (h0 : I 0 s)
    (hstep : ∀ i j s, i < n → j < m → I (i * m + j) s → I (i * m + j + 1) (body i j s)) :
    I (n * m) (forLoop (fun i => forLoop (body i) m) n s) := by
  refine forLoop_induction _ n (fun i s => I (i * m) s) s (by simpa using h0) ?_
  intro i s hi hI
  have := forLoop_induction (body i) m (fun j s => I (i * m + j) s) s (by simpa using hI)
    (fun j s hj h => hstep i j s hi hj h)
  simpa [Nat.succ_mul] using this

theorem iterate_induction {σ : Type} (f : σ → σ) (n : Nat) (I : Nat → σ → Prop) (s : σ)
    (h0 : I 0 s) (hstep : ∀ i s, i < n → I i s → I (i + 1) (f s)) : I n (f^[n] s) := by
  rw [← forLoop_const]
  exact forLoop_induction _ n I s h0 hstep

theorem copy_of_le (src : List Char) : ∀ (dst : Nat) (mem : List Char), mem.length ≤ dst →
    copy src dst mem = mem := by
  induction src with
  | nil => intro dst mem _; rfl
  | cons c cs ih =>
    intro dst mem h
    rw [copy, ih (dst + 1) _ (by simp; omega)]
    exact List.set_eq_of_length_le h

theorem copy_cons_succ (src : List Char) : ∀ (dst : Nat) (a : Char) (mem : List Char),
    copy src (dst + 1) (a :: mem) = a :: copy src dst mem := by
  induction src with
  | nil => intro dst a mem; rfl
  | cons c cs ih =>
    intro dst a mem
    simp only [copy, List.set_cons_succ]
    exact ih (dst + 1) a (mem.set dst c)

theorem copy_zero (src : List Char) : ∀ (mem : List Char),
    copy src 0 mem = (src ++ mem.drop src.length).take mem.length := by
  induction src with
  | nil => intro mem; simp [copy]
  | cons c cs ih =>
    intro mem
    cases mem with
    | nil => simp [copy, copy_of_le]
    | cons a m =>
      simp only [copy, List.set_cons_zero, Nat.zero_add]
      rw [copy_cons_succ, ih m]
      simp

theorem toNat_ofNat_of_le (n : Nat) (h : n ≤ 255) : (Char.ofNat n).toNat = n := by
  have hv : n.isValidChar := Or.inl (by omega)
  simp [Char.ofNat, hv, Char.toNat, Char.ofNatAux, UInt32.toNat]

theorem setErrorString_slot (p : Plugin) (str : String) (buf : List Char)
    (hslot : p.formatRecord.errorString = some buf) (hbuf : buf.length = 256)
    (hstr : str.length ≤ 255) :
    ∃ out, (setErrorString p str).formatRecord.errorString = some out ∧
      pstring out = str ∧ out.length = 256 := by
  cases buf with
  | nil => simp at hbuf
  | cons b rest =>
    have hrest : rest.length = 255 := by simpa using hbuf
    have hmod : str.length % 256 = str.length := Nat.mod_eq_of_lt (by omega)
    have hdata : str.data.length = str.length := rfl
    have htake : (c_str str).take (str.length + 1) = c_str str := by
      apply List.take_of_length_le
      simp [c_str, hdata]
    refine ⟨Char.ofNat str.length :: copy (c_str str) 0 rest, ?_, ?_, ?_⟩
    · simp only [setErrorString, hslot]
      rw [if_neg (by omega)]
      simp only [log, hmod, htake, List.set_cons_zero]
      rw [copy_cons_succ]
    · simp only [pstring, toNat_ofNat_of_le _ hstr, copy_zero, c_str]
      rw [List.take_take, Nat.min_eq_left (by omega), List.append_assoc,
        List.take_append_of_le_length (by omega), List.take_of_length_le (by omega)]
    · simp [copy_zero, c_str, hdata]
      omega

@[simp] theorem log_formatRecord (p : Plugin) (str : String) :
    (log p str).formatRecord = p.formatRecord := rfl

@[simp] theorem log_result (p : Plugin) (str : String) : (log p str).result = p.result := rfl

@[simp] theorem log_pFits (p : Plugin) (str : String) : (log p str).pFits = p.pFits := rfl

@[simp] theorem setErrorString_result (p : Plugin) (str : String) :
    (setErrorString p str).result = p.result := by
  unfold setErrorString
  split
  · rfl
  · split <;> rfl

@[simp] theorem setErrorString_pFits (p : Plugin) (str : String) :
    (setErrorString p str).pFits = p.pFits := by
  unfold setErrorString
  split
  · rfl
  · split <;> rfl

theorem setErrorString_record (p : Plugin) (str : String) :
    ∃ e, (setErrorString p str).formatRecord = { p.formatRecord with errorString := e } := by
  unfold setErrorString
  split
  · exact ⟨_, rfl⟩
  · split
    · exact ⟨_, rfl⟩
    · exact ⟨_, rfl⟩

@[simp] theorem setErrorString_imageSizeH (p : Plugin) (str : String) :
    (setErrorString p str).formatRecord.imageSizeH = p.formatRecord.imageSizeH := by
  obtain ⟨e, he⟩ := setErrorString_record p str
  rw [he]

@[simp] theorem setErrorString_imageSizeV (p : Plugin) (str : String) :
    (setErrorString p str).formatRecord.imageSizeV = p.formatRecord.imageSizeV := by
  obtain ⟨e, he⟩ := setErrorString_record p str
  rw [he]

@[simp] theorem setErrorString_imageMode (p : Plugin) (str : String) :
    (setErrorString p str).formatRecord.imageMode = p.formatRecord.imageMode := by
  obtain ⟨e, he⟩ := setErrorString_record p str
  rw [he]

@[simp] theorem setErrorString_depth (p : Plugin) (str : String) :
    (setErrorString p str).formatRecord.depth = p.formatRecord.depth := by
  obtain ⟨e, he⟩ := setErrorString_record p str
  rw [he]

@[simp] theorem setErrorString_planes (p : Plugin) (str : String) :
    (setErrorString p str).formatRecord.planes = p.formatRecord.planes := by
  obtain ⟨e, he⟩ := setErrorString_record p str
  rw [he]

@[simp] theorem setErrorString_loPlane (p : Plugin) (str : String) :
    (setErrorString p str).formatRecord.loPlane = p.formatRecord.loPlane := by
  obtain ⟨e, he⟩ := setErrorString_record p str
  rw [he]

@[simp] theorem setErrorString_hiPlane (p : Plugin) (str : String) :
    (setErrorString p str).formatRecord.hiPlane = p.formatRecord.hiPlane := by
  obtain ⟨e, he⟩ := setErrorString_record p str
  rw [he]

theorem setErrorString_text (p : Plugin) (str : String) (buf : List Char)
    (hslot : p.formatRecord.errorString = some buf) (hbuf : buf.length = 256)
    (hstr : str.length ≤ 255) :
    (setErrorString p str).formatRecord.errorString.map pstring = some str := by
  obtain ⟨out, ho, hp, -⟩ := setErrorString_slot p str buf hslot hbuf hstr
  rw [ho, Option.map_some', hp]

theorem int_toString_length (n : Int) (h : -2147483648 ≤ n ∧ n ≤ 2147483647) :
    (toString n).length ≤ 11 := by
  cases n with
  | ofNat m =>
    have hm : m < 10 ^ 10 := by
      have : (m : Int) ≤ 2147483647 := h.2
      omega
    have := Nat.repr_length m 10 (by norm_num) hm
    show (Nat.repr m).length ≤ 11
    omega
  | negSucc m =>
    have hm : m + 1 < 10 ^ 10 := by
      have h1 : Int.negSucc m ≥ -2147483648 := h.1
      rw [Int.negSucc_eq] at h1
      omega
    have := Nat.repr_length (m + 1) 10 (by norm_num) hm
    show ("-" ++ Nat.repr (m + 1)).length ≤ 11
    rw [String.length_append]
    have : "-".length = 1 := rfl
    omega

theorem axesError_length (axes : Int) (h : -2147483648 ≤ axes ∧ axes ≤ 2147483647)
    (msg : String) (hm : axesError axes = some msg) : msg.length ≤ 255 := by
  unfold axesError at hm
  split at hm
  · split at hm
    · injection hm with hm
      subst hm
      decide
    · injection hm with hm
      subst hm
      have := int_toString_length axes h
      simp only [String.length_append]
      have h1 : "the primary FITS image has ".length = 27 := by decide
      have h2 : " axes, which is not supported".length = 29 := by decide
      omega
  · cases hm

/-- C7: `readStart` fails with `errReportString` for every axis count other than 2 or 3,
with the text 'the FITS file does not contain a primary image' for 0 axes and
'the primary FITS image has n axes, which is not supported' for every other rejected
count n (the text is what the host's error-string slot then holds); for 2 and 3 axes
the check passes and the image size is taken from the first two axes. -/
theorem C7_readStart_axis_count (p : Plugin) (seek : Int) (f : FITS)
    (hint : -2147483648 ≤ f.pHDU.axes ∧ f.pHDU.axes ≤ 2147483647) :
    (f.pHDU.axes ≠ 2 → f.pHDU.axes ≠ 3 →
      (readStart p seek (.opened f)).result = errReportString ∧
      (readStart p seek (.opened f)).pFits.isNone = true ∧
      ∀ buf, p.formatRecord.errorString = some buf → buf.length = 256 →
        (readStart p seek (.opened f)).formatRecord.errorString.map pstring = some
          (if f.pHDU.axes = 0 then "the FITS file does not contain a primary image"
           else "the primary FITS image has " ++ toString f.pHDU.axes
             ++ " axes, which is not supported")) ∧
    (f.pHDU.axes = 2 ∨ f.pHDU.axes = 3 →
      axesError f.pHDU.axes = none ∧
      (readStart p seek (.opened f)).formatRecord.imageSizeH = f.pHDU.axisLen 0 ∧
      (readStart p seek (.opened f)).formatRecord.imageSizeV = f.pHDU.axisLen 1) := by
  refine ⟨fun h2 h3 => ?_, fun h23 => ?_⟩
  · have herr : axesError f.pHDU.axes = some
        (if f.pHDU.axes = 0 then "the FITS file does not contain a primary image"
         else "the primary FITS image has " ++ toString f.pHDU.axes
           ++ " axes, which is not supported") := by
      unfold axesError
      rw [if_pos ⟨h2, h3⟩]
      split <;> rfl
    have hlen := axesError_length _ hint _ herr
    refine ⟨by simp [readStart, herr], by simp [readStart, herr], fun buf hslot hbuf => ?_⟩
    simp only [readStart, herr]
    exact setErrorString_text _ _ buf (by simpa [log] using hslot) hbuf hlen
  · have hnone : axesError f.pHDU.axes = none := by
      rcases h23 with h | h <;> simp [axesError, h]
    refine ⟨hnone, ?_, ?_⟩ <;>
    · simp only [readStart, hnone]
      split
      · simp
      · split
        · rfl
        · split
          · rfl
          · split
            · rfl
            · simp

/-- C7 at a 4-axis and at a 0-axis file. -/
theorem C7_readStart_axis_count_witness :
    (-2147483648 ≤ (4 : Int) ∧ (4 : Int) ≤ 2147483647) ∧
    (readStart freshPlugin 0 (.opened (headerOnly 4 [5, 5, 5, 5] 8 0 1))).result
      = errReportString ∧
    (readStart freshPlugin 0
      (.opened (headerOnly 4 [5, 5, 5, 5] 8 0 1))).formatRecord.errorString.map pstring
      = some "the primary FITS image has 4 axes, which is not supported" ∧
    (readStart freshPlugin 0
      (.opened (headerOnly 0 [] 8 0 1))).formatRecord.errorString.map pstring
      = some "the FITS file does not contain a primary image" := by
  have h4 := (C7_readStart_axis_count freshPlugin 0 (headerOnly 4 [5, 5, 5, 5] 8 0 1)
    (by decide)).1 (by decide) (by decide)
  have h0 := (C7_readStart_axis_count freshPlugin 0 (headerOnly 0 [] 8 0 1)
    (by decide)).1 (by decide) (by decide)
  refine ⟨by decide, h4.1, ?_, ?_⟩
  · have := h4.2.2 _ rfl (List.length_replicate _ _)
    rw [this]
    rfl
  · have := h0.2.2 _ rfl (List.length_replicate _ _)
    rw [this]
    rfl

theorem readStart_ok (p : Plugin) (f : FITS) (d : Depths)
    (hnone : axesError f.pHDU.axes = none)
    (hc : classifyDepth f.pHDU.bitpix (decide (f.pHDU.zero ≠ 0 ∨ f.pHDU.scale ≠ 1)) = some d)
    (hpl : planeCount f.pHDU = 1 ∨ 3 ≤ planeCount f.pHDU) :
    (readStart p noErr (.opened f)).result = noErr ∧
    (readStart p noErr (.opened f)).pFits = some f ∧
    (readStart p noErr (.opened f)).formatRecord.depth = d.depth ∧
    (readStart p noErr (.opened f)).formatRecord.planes = planeCount f.pHDU ∧
    (readStart p noErr (.opened f)).formatRecord.imageSizeH = f.pHDU.axisLen 0 ∧
    (readStart p noErr (.opened f)).formatRecord.imageSizeV = f.pHDU.axisLen 1 ∧
    (readStart p noErr (.opened f)).formatRecord.imageMode
      = (if planeCount f.pHDU = 1 then plugInModeGrayScale else plugInModeRGBColor) := by
  simp only [readStart, hnone, hc]
  rw [if_neg (by simp [noErr])]
  rcases hpl with hpl | hpl
  · rw [if_pos hpl]
    simp [hpl, noErr]
  · have h1 : planeCount f.pHDU ≠ 1 := by omega
    rw [if_neg h1, if_pos hpl]
    simp [h1, noErr]

/-- C1: the format classifier of `readStart` selects the editing depth by the table
(8 for unscaled `BYTE_IMG`; 32 for scaled `BYTE_IMG` and for `SHORT_IMG`, `FLOAT_IMG`,
`LONG_IMG`, `LONGLONG_IMG`, `DOUBLE_IMG`), and that depth is what a successful
`readStart` stores in the format record; for every other bitpix code `readStart` fails
with `errReportString` and leaves the record's depth as it was. -/
theorem C1_readStart_working_depth (p : Plugin) (seek : Int) (f : FITS)
    (hax : f.pHDU.axes = 2 ∨ f.pHDU.axes = 3) :
    (∀ d : Int,
      ((f.pHDU.bitpix = BYTE_IMG ∧ f.pHDU.zero = 0 ∧ f.pHDU.scale = 1 ∧ d = 8) ∨
       (f.pHDU.bitpix = BYTE_IMG ∧ (f.pHDU.zero ≠ 0 ∨ f.pHDU.scale ≠ 1) ∧ d = 32) ∨
       ((f.pHDU.bitpix = SHORT_IMG ∨ f.pHDU.bitpix = FLOAT_IMG ∨ f.pHDU.bitpix = LONG_IMG ∨
         f.pHDU.bitpix = LONGLONG_IMG ∨ f.pHDU.bitpix = DOUBLE_IMG) ∧ d = 32)) →
      (classifyDepth f.pHDU.bitpix
        (decide (f.pHDU.zero ≠ 0 ∨ f.pHDU.scale ≠ 1))).map Depths.depth = some d ∧
      (seek = noErr → planeCount f.pHDU = 1 ∨ 3 ≤ planeCount f.pHDU →
        (readStart p seek (.opened f)).result = noErr ∧
        (readStart p seek (.opened f)).formatRecord.depth = d)) ∧
    (f.pHDU.bitpix ≠ BYTE_IMG → f.pHDU.bitpix ≠ SHORT_IMG → f.pHDU.bitpix ≠ FLOAT_IMG →
      f.pHDU.bitpix ≠ LONG_IMG → f.pHDU.bitpix ≠ LONGLONG_IMG → f.pHDU.bitpix ≠ DOUBLE_IMG →
      classifyDepth f.pHDU.bitpix (decide (f.pHDU.zero ≠ 0 ∨ f.pHDU.scale ≠ 1)) = none ∧
      (readStart p seek (.opened f)).result = errReportString ∧
      (readStart p seek (.opened f)).formatRecord.depth = p.formatRecord.depth) := by
  have hnone : axesError f.pHDU.axes = none := by
    rcases hax with h | h <;> simp [axesError, h]
  refine ⟨fun d hd => ?_, fun h1 h2 h3 h4 h5 h6 => ?_⟩
  · have hc : ∃ i, classifyDepth f.pHDU.bitpix (decide (f.pHDU.zero ≠ 0 ∨ f.pHDU.scale ≠ 1))
        = some ⟨i, d⟩ := by
      rcases hd with ⟨hb, hz, hs, rfl⟩ | ⟨hb, hzs, rfl⟩ | ⟨hb, rfl⟩
      · exact ⟨8, by simp [classifyDepth, caseByte, hb, hz, hs]⟩
      · exact ⟨8, by simp [classifyDepth, caseByte, hb, hzs]⟩
      · rcases hb with hb | hb | hb | hb | hb
        · exact ⟨16, by simp [classifyDepth, caseShort, hb, SHORT_IMG, BYTE_IMG]⟩
        · exact ⟨64, by simp [classifyDepth, caseLongLongDouble, caseFloatLong, hb, SHORT_IMG,
            BYTE_IMG, FLOAT_IMG]⟩
        · exact ⟨64, by simp [classifyDepth, caseLongLongDouble, caseFloatLong, hb, SHORT_IMG,
            BYTE_IMG, FLOAT_IMG, LONG_IMG]⟩
        · exact ⟨64, by simp [classifyDepth, caseLongLongDouble, hb, SHORT_IMG,
            BYTE_IMG, FLOAT_IMG, LONG_IMG, LONGLONG_IMG]⟩
        · exact ⟨64, by simp [classifyDepth, caseLongLongDouble, hb, SHORT_IMG,
            BYTE_IMG, FLOAT_IMG, LONG_IMG, LONGLONG_IMG, DOUBLE_IMG]⟩
    obtain ⟨i, hc⟩ := hc
    refine ⟨by rw [hc]; rfl, fun hseek hpl => ?_⟩
    subst hseek
    have h := readStart_ok p f _ hnone hc hpl
    exact ⟨h.1, h.2.2.1⟩
  · have hc : classifyDepth f.pHDU.bitpix (decide (f.pHDU.zero ≠ 0 ∨ f.pHDU.scale ≠ 1))
        = none := by
      simp [classifyDepth, h1, h2, h3, h4, h5, h6]
    refine ⟨hc, ?_, ?_⟩
    · simp only [readStart, hnone, hc]
    · simp only [readStart, hnone, hc]
      simp

/-- C1 at an unscaled and at a scaled 8-bit file, and at an unsigned 16-bit file. -/
theorem C1_readStart_working_depth_witness :
    ((3 : Int) = 2 ∨ (3 : Int) = 3) ∧
    (readStart freshPlugin 0 (.opened (headerOnly 3 [4, 2, 3] 8 0 1))).formatRecord.depth = 8 ∧
    (readStart freshPlugin 0 (.opened (headerOnly 3 [4, 2, 3] 8 1 1))).formatRecord.depth = 32 ∧
    (readStart freshPlugin 0 (.opened (headerOnly 3 [4, 2, 3] 20 0 1))).result
      = errReportString :=
  ⟨by decide,
   (((C1_readStart_working_depth freshPlugin 0 (headerOnly 3 [4, 2, 3] 8 0 1)
      (by decide)).1 8 (Or.inl ⟨rfl, rfl, rfl, rfl⟩)).2 rfl (by decide)).2,
   (((C1_readStart_working_depth freshPlugin 0 (headerOnly 3 [4, 2, 3] 8 1 1)
      (by decide)).1 32 (Or.inr (Or.inl ⟨rfl, Or.inl (by decide), rfl⟩))).2 rfl
      (by decide)).2,
   ((C1_readStart_working_depth freshPlugin 0 (headerOnly 3 [4, 2, 3] 20 0 1)
      (by decide)).2 (by decide) (by decide) (by decide) (by decide) (by decide)
      (by decide)).2.1⟩

/-- C6: with the plane count taken as the third axis length for 3 axes and as 1 for 2
axes, `readStart` (past the seek, the axis check and the format classifier) sets the
image mode to grayscale for 1 plane and to RGB colour for 3 or more planes, and for
exactly 2 planes fails with `errReportString`, leaving image mode, depth, plane count
and plane range as they were. -/
theorem C6_readStart_plane_rule (p : Plugin) (f : FITS)
    (hax : f.pHDU.axes = 2 ∨ f.pHDU.axes = 3)
    (hfmt : (classifyDepth f.pHDU.bitpix
      (decide (f.pHDU.zero ≠ 0 ∨ f.pHDU.scale ≠ 1))).isSome = true) :
    (f.pHDU.axes = 3 → planeCount f.pHDU = f.pHDU.axisLen 2) ∧
    (f.pHDU.axes = 2 → planeCount f.pHDU = 1) ∧
    (planeCount f.pHDU = 1 →
      (readStart p noErr (.opened f)).result = noErr ∧
      (readStart p noErr (.opened f)).formatRecord.imageMode = plugInModeGrayScale) ∧
    (3 ≤ planeCount f.pHDU →
      (readStart p noErr (.opened f)).result = noErr ∧
      (readStart p noErr (.opened f)).formatRecord.imageMode = plugInModeRGBColor) ∧
    (planeCount f.pHDU = 2 →
      (readStart p noErr (.opened f)).result = errReportString ∧
      (readStart p noErr (.opened f)).formatRecord.imageMode = p.formatRecord.imageMode ∧
      (readStart p noErr (.opened f)).formatRecord.depth = p.formatRecord.depth ∧
      (readStart p noErr (.opened f)).formatRecord.planes = p.formatRecord.planes ∧
      (readStart p noErr (.opened f)).formatRecord.loPlane = p.formatRecord.loPlane ∧
      (readStart p noErr (.opened f)).formatRecord.hiPlane = p.formatRecord.hiPlane) := by
  have hnone : axesError f.pHDU.axes = none := by
    rcases hax with h | h <;> simp [axesError, h]
  obtain ⟨d, hc⟩ := Option.isSome_iff_exists.mp hfmt
  refine ⟨fun h => by simp [planeCount, h], fun h => by simp [planeCount, h],
    fun h1 => ?_, fun h3 => ?_, fun h2 => ?_⟩
  · have h := readStart_ok p f d hnone hc (Or.inl h1)
    exact ⟨h.1, by rw [h.2.2.2.2.2.2, if_pos h1]⟩
  · have h := readStart_ok p f d hnone hc (Or.inr h3)
    exact ⟨h.1, by rw [h.2.2.2.2.2.2, if_neg (by omega)]⟩
  · simp only [readStart, hnone, hc]
    rw [if_neg (by simp [noErr]), if_neg (by omega), if_neg (by omega)]
    simp

/-- C6 at a 2-axis file, a 3-plane file and a 2-plane file. -/
theorem C6_readStart_plane_rule_witness :
    ((3 : Int) = 2 ∨ (3 : Int) = 3) ∧
    (readStart freshPlugin noErr (.opened (headerOnly 2 [4, 2] 8 0 1))).formatRecord.imageMode
      = plugInModeGrayScale ∧
    (readStart freshPlugin noErr
      (.opened (headerOnly 3 [4, 2, 3] 8 0 1))).formatRecord.imageMode = plugInModeRGBColor ∧
    (readStart freshPlugin noErr (.opened (headerOnly 3 [4, 2, 2] 8 0 1))).result
      = errReportString :=
  ⟨by decide,
   ((C6_readStart_plane_rule freshPlugin (headerOnly 2 [4, 2] 8 0 1) (by decide)
      (by decide)).2.2.1 (by decide)).2,
   ((C6_readStart_plane_rule freshPlugin (headerOnly 3 [4, 2, 3] 8 0 1) (by decide)
      (by decide)).2.2.2.1 (by decide)).2,
   ((C6_readStart_plane_rule freshPlugin (headerOnly 3 [4, 2, 2] 8 0 1) (by decide)
      (by decide)).2.2.2.2 (by decide)).1⟩

/-! ## The read pass -/

theorem getD_map_range (g : Nat → ℚ) (n i : Nat) (hi : i < n) :
    ((List.range n).map g).getD i 0 = g i := by
  simp [List.getD_eq_getElem?_getD, hi]

theorem readScanline_ok (f : FITS) (width total : Nat) (adv : Nat → Int) (s : ReadState)
    (hf : ∀ k, f.readFault k = none) (hth : s.thrown = none) :
    readScanline f width total adv s =
      { s with
        contents := fun j =>
          if s.fcIdx ≤ j ∧ j < s.fcIdx + width then f.pixels j else s.contents j,
        done := s.done + 1,
        progress := s.progress ++ [(s.done + 1, total)],
        result := adv s.calls,
        calls := s.calls + 1,
        fcIdx := s.fcIdx + width,
        counterOverflow := s.counterOverflow || decide (UINT32_MAX < s.done + 1)
          || decide (UINT32_MAX < s.fcIdx + width) } := by
  simp only [readScanline, hth, FITS.read, hf]
  congr 1
  funext j
  by_cases hj : s.fcIdx ≤ j ∧ j < s.fcIdx + width
  · rw [if_pos hj, if_pos hj, getD_map_range _ _ _ (by omega)]
    congr 1
    omega
  · rw [if_neg hj, if_neg hj]

theorem readPass_spec (f : FITS) (width height planes total : Nat) (adv : Nat → Int)
    (s : ReadState) (hf : ∀ k, f.readFault k = none) (hth : s.thrown = none)
    (hfc : s.fcIdx = 0) :
    (readPass f width height planes total adv s).thrown = none ∧
    (readPass f width height planes total adv s).calls = s.calls + planes * height ∧
    (∀ j, j < planes * height * width →
      (readPass f width height planes total adv s).contents j = f.pixels j) ∧
    (readPass f width height planes total adv s).deliveries = s.deliveries ∧
    (readPass f width height planes total adv s).srcIdx = s.srcIdx ∧
    (readPass f width height planes total adv s).assertFailed = s.assertFailed ∧
    (readPass f width height planes total adv s).done = s.done + planes * height ∧
    (readPass f width height planes total adv s).result
      = (if planes * height = 0 then s.result else adv (s.calls + planes * height - 1)) := by
  have key := forLoop2_induction (fun _ _ => readScanline f width total adv) planes height
    (fun k t => t.thrown = none ∧ t.fcIdx = k * width ∧ t.calls = s.calls + k ∧
      (∀ j, j < k * width → t.contents j = f.pixels j) ∧
      t.deliveries = s.deliveries ∧ t.srcIdx = s.srcIdx ∧ t.assertFailed = s.assertFailed ∧
      t.done = s.done + k ∧
      t.result = (if k = 0 then s.result else adv (s.calls + k - 1)))
    s ⟨hth, by simpa using hfc, rfl, by simp, rfl, rfl, rfl, rfl, rfl⟩ ?_
  · obtain ⟨h1, -, h3, h4, h5, h6, h7, h8, h9⟩ := key
    exact ⟨h1, h3, h4, h5, h6, h7, h8, h9⟩
  · rintro i j t - - ⟨h1, h2, h3, h4, h5, h6, h7, h8, -⟩
    simp only []
    rw [readScanline_ok f width total adv t hf h1]
    refine ⟨h1, ?_, ?_, ?_, h5, h6, h7, ?_, ?_⟩
    · simp only [h2]; ring
    · simp only [h3]; ring
    · intro x hx
      simp only
      by_cases hc : t.fcIdx ≤ x ∧ x < t.fcIdx + width
      · rw [if_pos hc]
      · rw [if_neg hc]
        apply h4
        rw [h2] at hc
        have : (i * height + j + 1) * width = (i * height + j) * width + width := by ring
        omega
    · simp only [h8]; ring
    · simp only [h3]
      rw [if_neg (by omega)]
      congr 1

/-! ## The min/max analysis -/

theorem minMaxPass_eq_iterate (c : Nat → ℚ) (width height planes : Nat) :
    minMaxPass c width height planes = (minMaxStep c)^[width * height * planes] {} := by
  unfold minMaxPass
  simp only [forLoop_const_fn]
  rw [← Function.iterate_mul, ← Function.iterate_mul, Nat.mul_assoc]

theorem minMaxPass_spec (c : Nat → ℚ) (width height planes : Nat) :
    (∀ i, i < width * height * planes →
      (minMaxPass c width height planes).minFloatVal ≤ c i ∧
      c i ≤ (minMaxPass c width height planes).maxFloatVal) ∧
    (minMaxPass c width height planes).minFloatVal ≤ FLT_MAX ∧
    -FLT_MAX ≤ (minMaxPass c width height planes).maxFloatVal ∧
    ((minMaxPass c width height planes).minFloatVal = FLT_MAX ∨
      ∃ i, i < width * height * planes ∧ (minMaxPass c width height planes).minFloatVal = c i) ∧
    ((minMaxPass c width height planes).maxFloatVal = -FLT_MAX ∨
      ∃ i, i < width * height * planes ∧
        (minMaxPass c width height planes).maxFloatVal = c i) := by
  rw [minMaxPass_eq_iterate]
  have key := iterate_induction (minMaxStep c) (width * height * planes)
    (fun k m => m.idx = k ∧
      (∀ i, i < k → m.minFloatVal ≤ c i ∧ c i ≤ m.maxFloatVal) ∧
      m.minFloatVal ≤ FLT_MAX ∧ -FLT_MAX ≤ m.maxFloatVal ∧
      (m.minFloatVal = FLT_MAX ∨ ∃ i, i < k ∧ m.minFloatVal = c i) ∧
      (m.maxFloatVal = -FLT_MAX ∨ ∃ i, i < k ∧ m.maxFloatVal = c i))
    {} ⟨rfl, by simp, le_refl _, le_refl _, Or.inl rfl, Or.inl rfl⟩ ?_
  · exact key.2
  · rintro k m - ⟨hidx, hall, hmin, hmax, hmn, hmx⟩
    simp only [minMaxStep, hidx]
    refine ⟨trivial, ?_, ?_, ?_, ?_, ?_⟩
    · intro i hi
      rcases Nat.lt_succ_iff_lt_or_eq.mp hi with h | h
      · exact ⟨le_trans (min_le_left _ _) (hall i h).1,
          le_trans (hall i h).2 (le_max_left _ _)⟩
      · subst h
        exact ⟨min_le_right _ _, le_max_right _ _⟩
    · exact le_trans (min_le_left _ _) hmin
    · exact le_trans hmax (le_max_left _ _)
    · rcases min_choice m.minFloatVal (c k) with h | h
      · rw [h]
        rcases hmn with h' | ⟨i, hi, h'⟩
        · exact Or.inl h'
        · exact Or.inr ⟨i, Nat.lt_succ_of_lt hi, h'⟩
      · exact Or.inr ⟨k, Nat.lt_succ_self k, h⟩
    · rcases max_choice m.maxFloatVal (c k) with h | h
      · rw [h]
        rcases hmx with h' | ⟨i, hi, h'⟩
        · exact Or.inl h'
        · exact Or.inr ⟨i, Nat.lt_succ_of_lt hi, h'⟩
      · exact Or.inr ⟨k, Nat.lt_succ_self k, h⟩

/-! ## The copy pass -/

theorem copyRow_skip (depth : Int) (width total : Nat) (norm : Normalization)
    (adv : Nat → Int) (plane row : Nat) (s : ReadState) (h : s.result ≠ noErr) :
    copyRow depth width total norm adv plane row s = s := by
  simp [copyRow, h]

theorem copyRow_ok (depth : Int) (width total : Nat) (norm : Normalization)
    (adv : Nat → Int) (plane row : Nat) (s : ReadState) (h : s.result = noErr)
    (hadv : adv s.calls = noErr) :
    copyRow depth width total norm adv plane row s =
      { s with
        assertFailed := s.assertFailed || (copyScanline depth width norm s.contents s.srcIdx).isNone,
        deliveries := s.deliveries ++ [Delivery.mk plane row
          ((copyScanline depth width norm s.contents s.srcIdx).getD [])],
        result := adv s.calls,
        calls := s.calls + 1,
        done := s.done + 1,
        progress := s.progress ++ [(s.done + 1, total)],
        srcIdx := s.srcIdx + width,
        counterOverflow := s.counterOverflow || decide (UINT32_MAX < s.done + 1) } := by
  unfold copyRow
  rw [if_neg (by simp [h])]
  simp only []
  rw [if_neg (by simp [hadv])]

theorem copyRow_cancel (depth : Int) (width total : Nat) (norm : Normalization)
    (adv : Nat → Int) (plane row : Nat) (s : ReadState) (h : s.result = noErr)
    (hadv : adv s.calls ≠ noErr) :
    copyRow depth width total norm adv plane row s =
      { s with
        assertFailed := s.assertFailed || (copyScanline depth width norm s.contents s.srcIdx).isNone,
        deliveries := s.deliveries ++ [Delivery.mk plane row
          ((copyScanline depth width norm s.contents s.srcIdx).getD [])],
        result := adv s.calls,
        calls := s.calls + 1 } := by
  unfold copyRow
  rw [if_neg (by simp [h])]
  simp only []
  rw [if_pos hadv]

theorem copyPass_eq (depth : Int) (width height planes total : Nat) (norm : Normalization)
    (adv : Nat → Int) (s : ReadState) :
    copyPass depth width height planes total norm adv s =
      forLoop (fun plane => forLoop (copyRow depth width total norm adv plane) height)
        planes s := by
  unfold copyPass
  congr 1
  funext plane t
  split
  · rename_i h
    refine (forLoop_induction _ height (fun _ u => u = t) t rfl ?_).symm
    intro i u _ hu
    subst hu
    exact copyRow_skip _ _ _ _ _ _ _ _ h
  · rfl

theorem copyPass_spec (depth : Int) (width height planes total : Nat) (norm : Normalization)
    (adv : Nat → Int) (s : ReadState) (hsrc : s.srcIdx = 0) (hdel : s.deliveries = []) :
    (copyPass depth width height planes total norm adv s).contents = s.contents ∧
    ∃ K, K ≤ planes * height ∧
      (copyPass depth width height planes total norm adv s).deliveries
        = (List.range K).map (deliveryAt depth width height norm s.contents) ∧
      (copyPass depth width height planes total norm adv s).calls = s.calls + K ∧
      ((copyPass depth width height planes total norm adv s).result = noErr →
        K = planes * height) ∧
      ((copyPass depth width height planes total norm adv s).result ≠ noErr →
        (K = 0 ∧ (copyPass depth width height planes total norm adv s).result = s.result) ∨
        (0 < K ∧ (copyPass depth width height planes total norm adv s).result
          = adv (s.calls + K - 1))) := by
  rw [copyPass_eq]
  have key := forLoop2_induction (copyRow depth width total norm adv) planes height
    (fun k t => t.contents = s.contents ∧ ∃ K, K ≤ k ∧
      t.deliveries = (List.range K).map (deliveryAt depth width height norm s.contents) ∧
      t.calls = s.calls + K ∧
      (t.result = noErr → K = k ∧ t.srcIdx = k * width) ∧
      (t.result ≠ noErr →
        (K = 0 ∧ t.result = s.result) ∨ (0 < K ∧ t.result = adv (s.calls + K - 1))))
    s ⟨rfl, 0, le_refl _, by simp [hdel], rfl, fun _ => ⟨rfl, by simp [hsrc]⟩,
      fun _ => Or.inl ⟨rfl, rfl⟩⟩ ?_
  · obtain ⟨hc, K, hK, hd, hcalls, hok, hbad⟩ := key
    exact ⟨hc, K, hK, hd, hcalls, fun h => (hok h).1, hbad⟩
  · rintro i j t - hj ⟨hc, K, hK, hd, hcalls, hok, hbad⟩
    by_cases hres : t.result = noErr
    · obtain ⟨hKk, hsrcIdx⟩ := hok hres
      subst hKk
      have hdiv : (i * height + j) / height = i := by
        rw [Nat.mul_comm, Nat.mul_add_div (by omega), Nat.div_eq_of_lt hj, Nat.add_zero]
      have hmod : (i * height + j) % height = j := by
        rw [Nat.mul_comm, Nat.mul_add_mod, Nat.mod_eq_of_lt hj]
      have hnew : t.deliveries ++ [Delivery.mk i j
          ((copyScanline depth width norm t.contents t.srcIdx).getD [])]
          = (List.range (i * height + j + 1)).map
              (deliveryAt depth width height norm s.contents) := by
        rw [List.range_succ, List.map_append, hd, hc, hsrcIdx]
        simp [deliveryAt, hdiv, hmod]
      by_cases hadv : adv t.calls = noErr
      · rw [copyRow_ok _ _ _ _ _ _ _ _ hres hadv]
        refine ⟨hc, i * height + j + 1, le_refl _, hnew, ?_, ?_, ?_⟩
        · simp only [hcalls]; ring
        · intro _
          refine ⟨rfl, ?_⟩
          simp only [hsrcIdx]; ring
        · intro h
          exact absurd hadv h
      · rw [copyRow_cancel _ _ _ _ _ _ _ _ hres hadv]
        refine ⟨hc, i * height + j + 1, le_refl _, hnew, ?_, ?_, ?_⟩
        · simp only [hcalls]; ring
        · intro h
          exact absurd h hadv
        · intro _
          refine Or.inr ⟨Nat.succ_pos _, ?_⟩
          simp only [hcalls]
          congr 1
    · rw [copyRow_skip _ _ _ _ _ _ _ _ hres]
      exact ⟨hc, K, Nat.le_succ_of_le hK, hd, hcalls, fun h => absurd h hres, hbad⟩

theorem readPass_inRange (f : FITS) (width height planes total : Nat) (adv : Nat → Int)
    (s : ReadState) (hf : ∀ k, f.readFault k = none) (hth : s.thrown = none)
    (hfc : s.fcIdx = 0) (hflag : s.counterOverflow = false)
    (hdone : s.done + planes * height ≤ UINT32_MAX)
    (hidx : planes * height * width ≤ UINT32_MAX) :
    (readPass f width height planes total adv s).counterOverflow = false := by
  have key := forLoop2_induction (fun _ _ => readScanline f width total adv) planes height
    (fun k t => t.thrown = none ∧ t.counterOverflow = false ∧ t.fcIdx = k * width ∧
      t.done = s.done + k)
    s ⟨hth, hflag, by simpa using hfc, rfl⟩ ?_
  · exact key.2.1
  · rintro i j t hi hj ⟨h1, h2, h3, h4⟩
    have hk : i * height + j + 1 ≤ planes * height := by
      have a1 : (i + 1) * height ≤ planes * height := Nat.mul_le_mul_right _ hi
      have a2 : (i + 1) * height = i * height + height := by ring
      omega
    have hkw : (i * height + j + 1) * width ≤ planes * height * width :=
      Nat.mul_le_mul_right _ hk
    have hsucc : (i * height + j + 1) * width = (i * height + j) * width + width := by ring
    simp only []
    rw [readScanline_ok f width total adv t hf h1]
    refine ⟨h1, ?_, ?_, ?_⟩
    · simp only [h2, h3, h4, Bool.false_or, Bool.or_eq_false_iff, decide_eq_false_iff_not,
        not_lt]
      constructor <;> omega
    · simp only [h3]; omega
    · simp only [h4]; omega

theorem copyPass_inRange (depth : Int) (width height planes total : Nat)
    (norm : Normalization) (adv : Nat → Int) (s : ReadState)
    (hflag : s.counterOverflow = false)
    (hdone : s.done + planes * height ≤ UINT32_MAX) :
    (copyPass depth width height planes total norm adv s).counterOverflow = false := by
  rw [copyPass_eq]
  have key := forLoop2_induction (copyRow depth width total norm adv) planes height
    (fun k t => t.counterOverflow = false ∧ t.done ≤ s.done + k)
    s ⟨hflag, Nat.le_refl _⟩ ?_
  · exact key.1
  · rintro i j t hi hj ⟨h1, h2⟩
    have hk : i * height + j + 1 ≤ planes * height := by
      have a1 : (i + 1) * height ≤ planes * height := Nat.mul_le_mul_right _ hi
      have a2 : (i + 1) * height = i * height + height := by ring
      omega
    by_cases hres : t.result = noErr
    · by_cases hadv : adv t.calls = noErr
      · rw [copyRow_ok _ _ _ _ _ _ _ _ hres hadv]
        refine ⟨?_, ?_⟩
        · simp only [h1, Bool.false_or, decide_eq_false_iff_not, not_lt]
          omega
        · simp only []; omega
      · rw [copyRow_cancel _ _ _ _ _ _ _ _ hres hadv]
        exact ⟨h1, by simp only []; omega⟩
    · rw [copyRow_skip _ _ _ _ _ _ _ _ hres]
      exact ⟨h1, by omega⟩

/-! ## Metadata capture -/

theorem foldl_keywordMap_fields (l : List (String × Keyword)) : ∀ (m : PhitsMetadata),
    (l.foldl (fun m entry =>
        { m with keywordMap := mapInsert entry.1 entry.2 m.keywordMap }) m).bitpix = m.bitpix ∧
    (l.foldl (fun m entry =>
        { m with keywordMap := mapInsert entry.1 entry.2 m.keywordMap }) m).extensionNames
      = m.extensionNames ∧
    (l.foldl (fun m entry =>
        { m with keywordMap := mapInsert entry.1 entry.2 m.keywordMap }) m).isNormalized
      = m.isNormalized ∧
    (l.foldl (fun m entry =>
        { m with keywordMap := mapInsert entry.1 entry.2 m.keywordMap }) m).isConverted
      = m.isConverted := by
  induction l with
  | nil => intro m; exact ⟨rfl, rfl, rfl, rfl⟩
  | cons e l ih =>
    intro m
    rw [List.foldl_cons]
    exact ih _

theorem foldl_extensionNames_fields (l : List String) : ∀ (m : PhitsMetadata),
    (l.foldl (fun m name =>
        { m with extensionNames := m.extensionNames ++ [name] }) m).bitpix = m.bitpix ∧
    (l.foldl (fun m name =>
        { m with extensionNames := m.extensionNames ++ [name] }) m).extensionNames
      = m.extensionNames ++ l ∧
    (l.foldl (fun m name =>
        { m with extensionNames := m.extensionNames ++ [name] }) m).inputDepth
      = m.inputDepth ∧
    (l.foldl (fun m name =>
        { m with extensionNames := m.extensionNames ++ [name] }) m).isNormalized
      = m.isNormalized ∧
    (l.foldl (fun m name =>
        { m with extensionNames := m.extensionNames ++ [name] }) m).isConverted
      = m.isConverted := by
  induction l with
  | nil => intro m; exact ⟨rfl, by simp, rfl, rfl, rfl⟩
  | cons e l ih =>
    intro m
    rw [List.foldl_cons]
    obtain ⟨h1, h2, h3, h4, h5⟩ := ih { m with extensionNames := m.extensionNames ++ [e] }
    exact ⟨h1, by rw [h2]; simp, h3, h4, h5⟩

theorem captureMetadata_fields (f : FITS) :
    (captureMetadata f).bitpix = f.pHDU.bitpix ∧
    (captureMetadata f).extensionNames = f.extensionNames ∧
    (captureMetadata f).inputDepth = f.pHDU.bitpix.natAbs ∧
    (captureMetadata f).isNormalized = false ∧
    (captureMetadata f).isConverted = false := by
  unfold captureMetadata
  simp only []
  obtain ⟨h1, h2, h3, h4, h5⟩ := foldl_extensionNames_fields f.extensionNames
    { (f.pHDU.keyWord.foldl (fun m entry =>
        { m with keywordMap := mapInsert entry.1 entry.2 m.keywordMap })
        ({} : PhitsMetadata)) with
      bitpix := f.pHDU.bitpix, bscale := f.pHDU.scale, bzero := f.pHDU.zero,
      inputDepth := f.pHDU.bitpix.natAbs }
  obtain ⟨-, k2, k3, k4⟩ := foldl_keywordMap_fields f.pHDU.keyWord ({} : PhitsMetadata)
  refine ⟨h1, ?_, h3, ?_, ?_⟩
  · rw [h2]
    simp only [k2]
    rfl
  · rw [h4]
    exact k3
  · rw [h5]
    exact k4

/-! ## `readContinue` on the 32-bit path -/

theorem tryRead_float (p : Plugin) (f : FITS) (adv : Nat → Int)
    (hd : p.formatRecord.depth = 32) :
    tryRead p f adv =
      ({ captureMetadata f with
          isConverted := decide ((captureMetadata f).bitpix ≠ FLOAT_IMG) },
        readPass f p.formatRecord.imageSizeH p.formatRecord.imageSizeV p.formatRecord.planes
          (2 * p.formatRecord.imageSizeV * p.formatRecord.planes) adv
          { result := p.result,
            progress := [(0, 2 * p.formatRecord.imageSizeV * p.formatRecord.planes)] }) := by
  unfold tryRead
  simp only [hd]
  rw [if_neg (by decide)]

theorem afterRead_float (p : Plugin) (pMeta : PhitsMetadata) (s : ReadState)
    (adv : Nat → Int) (hd : p.formatRecord.depth = 32) (hth : s.thrown = none) :
    afterRead p pMeta s adv =
      { plugin := { p with result := (copyPass 32 p.formatRecord.imageSizeH
          p.formatRecord.imageSizeV p.formatRecord.planes
          (2 * p.formatRecord.imageSizeV * p.formatRecord.planes)
          (chooseNormalization (minMaxPass s.contents p.formatRecord.imageSizeH
            p.formatRecord.imageSizeV p.formatRecord.planes)) adv s).result },
        pMeta := some { pMeta with isNormalized := pMeta.isNormalized ||
          (chooseNormalization (minMaxPass s.contents p.formatRecord.imageSizeH
            p.formatRecord.imageSizeV p.formatRecord.planes)).isNormalized },
        minFloatVal := (minMaxPass s.contents p.formatRecord.imageSizeH
            p.formatRecord.imageSizeV p.formatRecord.planes).minFloatVal,
        maxFloatVal := (minMaxPass s.contents p.formatRecord.imageSizeH
            p.formatRecord.imageSizeV p.formatRecord.planes).maxFloatVal,
        normOffset := (chooseNormalization (minMaxPass s.contents p.formatRecord.imageSizeH
            p.formatRecord.imageSizeV p.formatRecord.planes)).normOffset,
        normScale := (chooseNormalization (minMaxPass s.contents p.formatRecord.imageSizeH
            p.formatRecord.imageSizeV p.formatRecord.planes)).normScale,
        progress := (copyPass 32 p.formatRecord.imageSizeH
          p.formatRecord.imageSizeV p.formatRecord.planes
          (2 * p.formatRecord.imageSizeV * p.formatRecord.planes)
          (chooseNormalization (minMaxPass s.contents p.formatRecord.imageSizeH
            p.formatRecord.imageSizeV p.formatRecord.planes)) adv s).progress,
        deliveries := (copyPass 32 p.formatRecord.imageSizeH
          p.formatRecord.imageSizeV p.formatRecord.planes
          (2 * p.formatRecord.imageSizeV * p.formatRecord.planes)
          (chooseNormalization (minMaxPass s.contents p.formatRecord.imageSizeH
            p.formatRecord.imageSizeV p.formatRecord.planes)) adv s).deliveries,
        calls := (copyPass 32 p.formatRecord.imageSizeH
          p.formatRecord.imageSizeV p.formatRecord.planes
          (2 * p.formatRecord.imageSizeV * p.formatRecord.planes)
          (chooseNormalization (minMaxPass s.contents p.formatRecord.imageSizeH
            p.formatRecord.imageSizeV p.formatRecord.planes)) adv s).calls,
        assertFailed := (copyPass 32 p.formatRecord.imageSizeH
          p.formatRecord.imageSizeV p.formatRecord.planes
          (2 * p.formatRecord.imageSizeV * p.formatRecord.planes)
          (chooseNormalization (minMaxPass s.contents p.formatRecord.imageSizeH
            p.formatRecord.imageSizeV p.formatRecord.planes)) adv s).assertFailed,
        counterOverflow := sizeOverflow p || resizeOverflow p ||
          (copyPass 32 p.formatRecord.imageSizeH
          p.formatRecord.imageSizeV p.formatRecord.planes
          (2 * p.formatRecord.imageSizeV * p.formatRecord.planes)
          (chooseNormalization (minMaxPass s.contents p.formatRecord.imageSizeH
            p.formatRecord.imageSizeV p.formatRecord.planes)) adv s).counterOverflow } := by
  unfold afterRead
  simp only [hd, hth, if_true]

theorem copyScanline_congr (depth : Int) (width : Nat) (norm : Normalization)
    (c c' : Nat → ℚ) (src : Nat) (h : ∀ i, i < width → c (src + i) = c' (src + i)) :
    copyScanline depth width norm c src = copyScanline depth width norm c' src := by
  have h1 : (List.range width).map (fun i => some (c (src + i)))
      = (List.range width).map (fun i => some (c' (src + i))) := by
    apply List.map_congr_left
    intro i hi
    rw [h i (List.mem_range.mp hi)]
  have h2 : (List.range width).map
        (fun i => scaleBy (norm.normOffset + c (src + i)) norm.normScale)
      = (List.range width).map
        (fun i => scaleBy (norm.normOffset + c' (src + i)) norm.normScale) := by
    apply List.map_congr_left
    intro i hi
    rw [h i (List.mem_range.mp hi)]
  unfold copyScanline
  rw [h1, h2]

theorem deliveryAt_congr (depth : Int) (width height : Nat) (norm : Normalization)
    (c c' : Nat → ℚ) (n K : Nat) (hK : K ≤ n)
    (h : ∀ j, j < n * width → c j = c' j) :
    (List.range K).map (deliveryAt depth width height norm c)
      = (List.range K).map (deliveryAt depth width height norm c') := by
  apply List.map_congr_left
  intro k hk
  have hk' : k < K := List.mem_range.mp hk
  unfold deliveryAt
  rw [copyScanline_congr depth width norm c c' (k * width)]
  intro i hi
  apply h
  have : (k + 1) * width ≤ n * width := Nat.mul_le_mul_right _ (by omega)
  have : (k + 1) * width = k * width + width := by ring
  omega

theorem readContinue_float (p : Plugin) (f : FITS) (adv : Nat → Int)
    (hd : p.formatRecord.depth = 32) (hf : ∀ k, f.readFault k = none) :
    ∃ (pMeta : PhitsMetadata) (m : MinMax) (K : Nat),
      (readContinue p f true adv).pMeta = some pMeta ∧
      pMeta.bitpix = f.pHDU.bitpix ∧
      pMeta.isConverted = decide (f.pHDU.bitpix ≠ FLOAT_IMG) ∧
      pMeta.isNormalized = (chooseNormalization m).isNormalized ∧
      (readContinue p f true adv).minFloatVal = m.minFloatVal ∧
      (readContinue p f true adv).maxFloatVal = m.maxFloatVal ∧
      (readContinue p f true adv).normOffset = (chooseNormalization m).normOffset ∧
      (readContinue p f true adv).normScale = (chooseNormalization m).normScale ∧
      ((∀ i, i < p.formatRecord.imageSizeH * p.formatRecord.imageSizeV * p.formatRecord.planes →
          m.minFloatVal ≤ f.pixels i ∧ f.pixels i ≤ m.maxFloatVal) ∧
        m.minFloatVal ≤ FLT_MAX ∧ -FLT_MAX ≤ m.maxFloatVal ∧
        (m.minFloatVal = FLT_MAX ∨ ∃ i, i < p.formatRecord.imageSizeH *
          p.formatRecord.imageSizeV * p.formatRecord.planes ∧ m.minFloatVal = f.pixels i) ∧
        (m.maxFloatVal = -FLT_MAX ∨ ∃ i, i < p.formatRecord.imageSizeH *
          p.formatRecord.imageSizeV * p.formatRecord.planes ∧ m.maxFloatVal = f.pixels i)) ∧
      K ≤ p.formatRecord.planes * p.formatRecord.imageSizeV ∧
      (readContinue p f true adv).deliveries = (List.range K).map
        (deliveryAt 32 p.formatRecord.imageSizeH p.formatRecord.imageSizeV
          (chooseNormalization m) f.pixels) ∧
      (readContinue p f true adv).calls
        = p.formatRecord.planes * p.formatRecord.imageSizeV + K ∧
      ((readContinue p f true adv).plugin.result = noErr →
        K = p.formatRecord.planes * p.formatRecord.imageSizeV) ∧
      ((∀ k, adv k = noErr) → p.result = noErr →
        (readContinue p f true adv).plugin.result = noErr) := by
  obtain ⟨r1, r2, r3, r4, r5, -, -, r8⟩ := readPass_spec f p.formatRecord.imageSizeH
    p.formatRecord.imageSizeV p.formatRecord.planes
    (2 * p.formatRecord.imageSizeV * p.formatRecord.planes) adv
    { result := p.result,
      progress := [(0, 2 * p.formatRecord.imageSizeV * p.formatRecord.planes)] } hf rfl rfl
  obtain ⟨c1, c2, c3, c4, c5⟩ := captureMetadata_fields f
  have hN : p.formatRecord.imageSizeH * p.formatRecord.imageSizeV * p.formatRecord.planes
      = p.formatRecord.planes * p.formatRecord.imageSizeV * p.formatRecord.imageSizeH := by
    ring
  have hro : readContinue p f true adv = afterRead p (tryRead p f adv).1 (tryRead p f adv).2 adv := by
    simp [readContinue]
  rw [hro, tryRead_float p f adv hd]
  simp only []
  rw [afterRead_float p _ _ adv hd r1]
  simp only []
  generalize hs : readPass f p.formatRecord.imageSizeH p.formatRecord.imageSizeV
    p.formatRecord.planes (2 * p.formatRecord.imageSizeV * p.formatRecord.planes) adv
    { result := p.result,
      progress := [(0, 2 * p.formatRecord.imageSizeV * p.formatRecord.planes)] } = s at *
  generalize hm : minMaxPass s.contents p.formatRecord.imageSizeH p.formatRecord.imageSizeV
    p.formatRecord.planes = m
  obtain ⟨m1, m2, m3, m4, m5⟩ := minMaxPass_spec s.contents p.formatRecord.imageSizeH
    p.formatRecord.imageSizeV p.formatRecord.planes
  rw [hm] at m1 m2 m3 m4 m5
  obtain ⟨-, K, k1, k2, k3, k4, k5⟩ := copyPass_spec 32 p.formatRecord.imageSizeH
    p.formatRecord.imageSizeV p.formatRecord.planes
    (2 * p.formatRecord.imageSizeV * p.formatRecord.planes) (chooseNormalization m) adv s
    r5 r4
  refine ⟨_, m, K, rfl, c1, by simp [c1], by simp [c4], rfl, rfl, rfl, rfl,
    ⟨?_, m2, m3, ?_, ?_⟩, k1, ?_, ?_, k4, ?_⟩
  · intro i hi
    rw [← r3 i (by omega)]
    exact m1 i hi
  · rcases m4 with h | ⟨i, hi, h⟩
    · exact Or.inl h
    · exact Or.inr ⟨i, hi, by rw [h, r3 i (by omega)]⟩
  · rcases m5 with h | ⟨i, hi, h⟩
    · exact Or.inl h
    · exact Or.inr ⟨i, hi, by rw [h, r3 i (by omega)]⟩
  · rw [k2]
    exact deliveryAt_congr 32 _ _ _ _ _ _ K k1 r3
  · rw [k3, r2]
    simp
  · intro hadv hp
    by_contra hne
    rcases k5 hne with ⟨-, h⟩ | ⟨-, h⟩
    · rw [h, r8] at hne
      split at hne
      · exact hne hp
      · exact hne (hadv _)
    · rw [h] at hne
      exact hne (hadv _)

theorem sizeOverflow_false (p : Plugin)
    (htotal : 2 * p.formatRecord.imageSizeV * p.formatRecord.planes ≤ INT_MAX)
    (hbuf : (p.formatRecord.imageSizeH : Int) * p.formatRecord.depth + 7 ≤ INT_MAX) :
    sizeOverflow p = false := by
  unfold sizeOverflow
  simp only [Bool.or_eq_false_iff, decide_eq_false_iff_not, not_lt]
  exact ⟨htotal, hbuf⟩

theorem resizeOverflow_false (p : Plugin)
    (hsize : p.formatRecord.planes * p.formatRecord.imageSizeH * p.formatRecord.imageSizeV
      ≤ INT_MAX) :
    resizeOverflow p = false := by
  unfold resizeOverflow
  simp only [Bool.and_eq_false_imp, decide_eq_false_iff_not, not_lt, decide_eq_true_eq]
  exact fun _ => hsize

theorem readContinue_inRange (p : Plugin) (f : FITS) (adv : Nat → Int)
    (hd : p.formatRecord.depth = 32) (hf : ∀ k, f.readFault k = none)
    (htotal : 2 * p.formatRecord.imageSizeV * p.formatRecord.planes ≤ INT_MAX)
    (hbuf : (p.formatRecord.imageSizeH : Int) * p.formatRecord.depth + 7 ≤ INT_MAX)
    (hsize : p.formatRecord.planes * p.formatRecord.imageSizeH * p.formatRecord.imageSizeV
      ≤ INT_MAX) :
    (readContinue p f true adv).counterOverflow = false := by
  have hI : INT_MAX = 2147483647 := rfl
  have hU : UINT32_MAX = 4294967295 := rfl
  have hPH : 2 * (p.formatRecord.planes * p.formatRecord.imageSizeV)
      = 2 * p.formatRecord.imageSizeV * p.formatRecord.planes := by ring
  have hN : p.formatRecord.planes * p.formatRecord.imageSizeV * p.formatRecord.imageSizeH
      = p.formatRecord.planes * p.formatRecord.imageSizeH * p.formatRecord.imageSizeV := by
    ring
  obtain ⟨r1, -, -, -, -, -, r7, -⟩ := readPass_spec f p.formatRecord.imageSizeH
    p.formatRecord.imageSizeV p.formatRecord.planes
    (2 * p.formatRecord.imageSizeV * p.formatRecord.planes) adv
    { result := p.result,
      progress := [(0, 2 * p.formatRecord.imageSizeV * p.formatRecord.planes)] } hf rfl rfl
  have rflag := readPass_inRange f p.formatRecord.imageSizeH
    p.formatRecord.imageSizeV p.formatRecord.planes
    (2 * p.formatRecord.imageSizeV * p.formatRecord.planes) adv
    { result := p.result,
      progress := [(0, 2 * p.formatRecord.imageSizeV * p.formatRecord.planes)] } hf rfl rfl
    rfl (by simp only []; omega) (by omega)
  have hro : readContinue p f true adv
      = afterRead p (tryRead p f adv).1 (tryRead p f adv).2 adv := by
    simp [readContinue]
  rw [hro, tryRead_float p f adv hd]
  simp only []
  rw [afterRead_float p _ _ adv hd r1]
  simp only []
  rw [sizeOverflow_false p htotal hbuf, resizeOverflow_false p hsize, Bool.false_or,
    Bool.false_or]
  apply copyPass_inRange
  · exact rflag
  · rw [r7]
    simp only []
    omega

/-! ## The scanline loop of `writeStart` -/

theorem writeRow_skip (width total : Nat) (raster : Nat → Nat → Nat → ℚ) (adv : Nat → Int)
    (plane row : Nat) (s : WriteState) (h : s.result ≠ noErr) :
    writeRow width total raster adv plane row s = s := by
  simp [writeRow, h]

theorem writeRow_ok (width total : Nat) (raster : Nat → Nat → Nat → ℚ) (adv : Nat → Int)
    (plane row : Nat) (s : WriteState) (h : s.result = noErr) (hadv : adv s.calls = noErr) :
    writeRow width total raster adv plane row s =
      { s with
        requests := s.requests ++ [(plane, row)],
        result := adv s.calls,
        calls := s.calls + 1,
        writes := s.writes ++ [FitsWrite.mk s.curStart width
          ((List.range width).map (raster plane row))],
        curStart := s.curStart + width,
        done := s.done + 1,
        progress := s.progress ++ [(s.done + 1, total)],
        intOverflow := s.intOverflow || decide (INT_MAX < s.curStart + width)
          || decide (INT_MAX < s.done + 1) } := by
  unfold writeRow
  rw [if_neg (by simp [h])]
  simp only []
  rw [if_pos h]
  simp only []
  rw [if_pos hadv]

theorem writeRow_cancel (width total : Nat) (raster : Nat → Nat → Nat → ℚ) (adv : Nat → Int)
    (plane row : Nat) (s : WriteState) (h : s.result = noErr) (hadv : adv s.calls ≠ noErr) :
    writeRow width total raster adv plane row s =
      { s with
        requests := s.requests ++ [(plane, row)],
        result := adv s.calls,
        calls := s.calls + 1,
        curStart := s.curStart + width,
        done := s.done + 1,
        progress := s.progress ++ [(s.done + 1, total)],
        intOverflow := s.intOverflow || decide (INT_MAX < s.curStart + width)
          || decide (INT_MAX < s.done + 1) } := by
  unfold writeRow
  rw [if_neg (by simp [h])]
  simp only []
  rw [if_pos h]
  simp only []
  rw [if_neg hadv]

theorem writeLoop_eq (width height planes total : Nat) (raster : Nat → Nat → Nat → ℚ)
    (adv : Nat → Int) (s : WriteState) :
    writeLoop width height planes total raster adv s =
      forLoop (fun plane => forLoop (writeRow width total raster adv plane) height)
        planes s := by
  unfold writeLoop
  congr 1
  funext plane t
  split
  · rename_i h
    refine (forLoop_induction _ height (fun _ u => u = t) t rfl ?_).symm
    intro i u _ hu
    subst hu
    exact writeRow_skip _ _ _ _ _ _ _ h
  · rfl

theorem div_mod_flat (i j height : Nat) (hj : j < height) :
    (i * height + j) / height = i ∧ (i * height + j) % height = j := by
  constructor
  · rw [Nat.mul_comm, Nat.mul_add_div (by omega), Nat.div_eq_of_lt hj, Nat.add_zero]
  · rw [Nat.mul_comm, Nat.mul_add_mod, Nat.mod_eq_of_lt hj]

theorem writeLoop_spec (width height planes total : Nat) (raster : Nat → Nat → Nat → ℚ)
    (adv : Nat → Int) :
    ∃ K, K ≤ planes * height ∧
      (writeLoop width height planes total raster adv { result := noErr }).requests
        = (List.range K).map (fun k => (k / height, k % height)) ∧
      (writeLoop width height planes total raster adv { result := noErr }).calls = K ∧
      (writeLoop width height planes total raster adv { result := noErr }).done = K ∧
      (writeLoop width height planes total raster adv { result := noErr }).curStart
        = 1 + K * width ∧
      (writeLoop width height planes total raster adv { result := noErr }).progress
        = (List.range K).map (fun i => (i + 1, total)) ∧
      (((writeLoop width height planes total raster adv { result := noErr }).result = noErr ∧
          K = planes * height ∧ (∀ i, i < K → adv i = noErr) ∧
          (writeLoop width height planes total raster adv { result := noErr }).writes
            = (List.range K).map (writeAt width height raster)) ∨
        ((writeLoop width height planes total raster adv { result := noErr }).result ≠ noErr ∧
          0 < K ∧ (∀ i, i < K - 1 → adv i = noErr) ∧
          (writeLoop width height planes total raster adv { result := noErr }).result
            = adv (K - 1) ∧
          (writeLoop width height planes total raster adv { result := noErr }).writes
            = (List.range (K - 1)).map (writeAt width height raster))) := by
  rw [writeLoop_eq]
  have key := forLoop2_induction (writeRow width total raster adv) planes height
    (fun k t => ∃ K, K ≤ k ∧
      t.requests = (List.range K).map (fun k => (k / height, k % height)) ∧
      t.calls = K ∧ t.done = K ∧ t.curStart = 1 + K * width ∧
      t.progress = (List.range K).map (fun i => (i + 1, total)) ∧
      ((t.result = noErr ∧ K = k ∧ (∀ i, i < K → adv i = noErr) ∧
          t.writes = (List.range K).map (writeAt width height raster)) ∨
        (t.result ≠ noErr ∧ 0 < K ∧ (∀ i, i < K - 1 → adv i = noErr) ∧
          t.result = adv (K - 1) ∧
          t.writes = (List.range (K - 1)).map (writeAt width height raster))))
    { result := noErr }
    ⟨0, le_refl _, rfl, rfl, rfl, by simp, rfl, Or.inl ⟨rfl, rfl, by simp, rfl⟩⟩ ?_
  · exact key
  · rintro i j t - hj ⟨K, hK, hreq, hcalls, hdone, hcur, hprog, hcase⟩
    obtain ⟨hdiv, hmod⟩ := div_mod_flat i j height hj
    rcases hcase with ⟨hres, hKk, hall, hwrites⟩ | ⟨hres, hpos, hall, hlast, hwrites⟩
    · subst hKk
      have hreq' : t.requests ++ [(i, j)]
          = (List.range (i * height + j + 1)).map (fun k => (k / height, k % height)) := by
        rw [List.range_succ, List.map_append, hreq]
        simp [hdiv, hmod]
      have hprog' : t.progress ++ [(t.done + 1, total)]
          = (List.range (i * height + j + 1)).map (fun i => (i + 1, total)) := by
        rw [List.range_succ, List.map_append, hprog, hdone]
        simp
      by_cases hadv : adv t.calls = noErr
      · rw [writeRow_ok _ _ _ _ _ _ _ hres hadv]
        refine ⟨i * height + j + 1, le_refl _, hreq', by simp [hcalls], by simp [hdone],
          ?_, hprog', Or.inl ⟨hadv, rfl, ?_, ?_⟩⟩
        · simp only [hcur]; ring
        · intro x hx
          rcases Nat.lt_succ_iff_lt_or_eq.mp hx with h | h
          · exact hall x h
          · rw [h, ← hcalls]; exact hadv
        · simp only []
          rw [List.range_succ, List.map_append, hwrites, hcur]
          simp [writeAt, hdiv, hmod]
      · rw [writeRow_cancel _ _ _ _ _ _ _ hres hadv]
        refine ⟨i * height + j + 1, le_refl _, hreq', by simp [hcalls], by simp [hdone],
          ?_, hprog', Or.inr ⟨hadv, Nat.succ_pos _, ?_, ?_, ?_⟩⟩
        · simp only [hcur]; ring
        · intro x hx
          exact hall x (by omega)
        · simp only [hcalls]
          congr 1
        · simpa using hwrites
    · rw [writeRow_skip _ _ _ _ _ _ _ hres]
      exact ⟨K, Nat.le_succ_of_le hK, hreq, hcalls, hdone, hcur, hprog,
        Or.inr ⟨hres, hpos, hall, hlast, hwrites⟩⟩

theorem writeLoop_inRange (width height planes total : Nat) (raster : Nat → Nat → Nat → ℚ)
    (adv : Nat → Int) (hcur : 1 + planes * height * width ≤ INT_MAX)
    (hdone : planes * height ≤ INT_MAX) :
    (writeLoop width height planes total raster adv { result := noErr }).intOverflow
      = false := by
  rw [writeLoop_eq]
  have key := forLoop2_induction (writeRow width total raster adv) planes height
    (fun k t => t.intOverflow = false ∧ t.curStart ≤ 1 + k * width ∧ t.done ≤ k)
    { result := noErr } ⟨rfl, by simp, Nat.le_refl _⟩ ?_
  · exact key.1
  · rintro i j t hi hj ⟨hflag, hc, hd⟩
    have hk : i * height + j + 1 ≤ planes * height := by
      have h1 : (i + 1) * height ≤ planes * height := Nat.mul_le_mul_right _ hi
      have h2 : (i + 1) * height = i * height + height := by ring
      omega
    have hkw : (i * height + j + 1) * width ≤ planes * height * width :=
      Nat.mul_le_mul_right _ hk
    have hsucc : (i * height + j + 1) * width = (i * height + j) * width + width := by ring
    by_cases hres : t.result = noErr
    · have hnew : (t.intOverflow || decide (INT_MAX < t.curStart + width)
          || decide (INT_MAX < t.done + 1)) = false := by
        rw [hflag]
        simp only [Bool.false_or, Bool.or_eq_false_iff, decide_eq_false_iff_not, not_lt]
        constructor <;> omega
      by_cases hadv : adv t.calls = noErr
      · rw [writeRow_ok _ _ _ _ _ _ _ hres hadv]
        exact ⟨hnew, by simp only []; omega, by simp only []; omega⟩
      · rw [writeRow_cancel _ _ _ _ _ _ _ hres hadv]
        exact ⟨hnew, by simp only []; omega, by simp only []; omega⟩
    · rw [writeRow_skip _ _ _ _ _ _ _ hres]
      exact ⟨hflag, by omega, by omega⟩

/-! ## `writeStart` -/

theorem writeStart_run (p : Plugin) (pMeta : Option PhitsMetadata)
    (raster : Nat → Nat → Nat → ℚ) (adv : Nat → Int) (fmt : Int) (dataSize : Nat)
    (hst : storageType p.formatRecord.depth = some (fmt, dataSize)) :
    writeStart p noErr true true pMeta true raster adv =
      { plugin := { p with result := (writeLoop p.formatRecord.imageSizeH
          p.formatRecord.imageSizeV p.formatRecord.planes
          (p.formatRecord.imageSizeH * p.formatRecord.imageSizeV) raster adv
          { result := noErr }).result },
        created := some (FitsCreate.mk fmt 3
          [p.formatRecord.imageSizeH, p.formatRecord.imageSizeV, p.formatRecord.planes]),
        keys := (match pMeta with
          | some pMeta => replayKeywords pMeta
          | none => []),
        requests := (writeLoop p.formatRecord.imageSizeH
          p.formatRecord.imageSizeV p.formatRecord.planes
          (p.formatRecord.imageSizeH * p.formatRecord.imageSizeV) raster adv
          { result := noErr }).requests,
        writes := (writeLoop p.formatRecord.imageSizeH
          p.formatRecord.imageSizeV p.formatRecord.planes
          (p.formatRecord.imageSizeH * p.formatRecord.imageSizeV) raster adv
          { result := noErr }).writes,
        progress := (writeLoop p.formatRecord.imageSizeH
          p.formatRecord.imageSizeV p.formatRecord.planes
          (p.formatRecord.imageSizeH * p.formatRecord.imageSizeV) raster adv
          { result := noErr }).progress,
        calls := (writeLoop p.formatRecord.imageSizeH
          p.formatRecord.imageSizeV p.formatRecord.planes
          (p.formatRecord.imageSizeH * p.formatRecord.imageSizeV) raster adv
          { result := noErr }).calls,
        intOverflow :=
          decide ((INT_MAX : Int) < (p.formatRecord.imageSizeH : Int) * p.formatRecord.depth + 7)
          || decide (INT_MAX < p.formatRecord.imageSizeH * p.formatRecord.imageSizeV)
          || (writeLoop p.formatRecord.imageSizeH
            p.formatRecord.imageSizeV p.formatRecord.planes
            (p.formatRecord.imageSizeH * p.formatRecord.imageSizeV) raster adv
            { result := noErr }).intOverflow } := by
  unfold writeStart
  simp only [hst]
  rw [if_neg (by simp)]
  simp

theorem writeStart_created (p : Plugin) (pMeta : Option PhitsMetadata) (allocOk : Bool)
    (raster : Nat → Nat → Nat → ℚ) (adv : Nat → Int) (fmt : Int) (dataSize : Nat)
    (hst : storageType p.formatRecord.depth = some (fmt, dataSize)) :
    (writeStart p noErr true true pMeta allocOk raster adv).created =
      some (FitsCreate.mk fmt 3
        [p.formatRecord.imageSizeH, p.formatRecord.imageSizeV, p.formatRecord.planes]) ∧
    (writeStart p noErr true true pMeta allocOk raster adv).keys =
      (match pMeta with
        | some pMeta => replayKeywords pMeta
        | none => []) := by
  unfold writeStart
  simp only [hst]
  rw [if_neg (by simp)]
  cases allocOk <;> simp

/-- C8: `writeStart` (past its seek) maps the raster depth to the FITS storage type as
8 -> `BYTE_IMG`, 16 -> `USHORT_IMG`, 32 -> `FLOAT_IMG`, creating the file with that type
and the axes `[width, height, planes]`; for every other depth it ends with `writErr`
having created no file, added no key, requested no scanline, written nothing and
reported no progress. -/
theorem C8_writeStart_storage_type (p : Plugin) (fdOk createOk allocOk : Bool)
    (pMeta : Option PhitsMetadata) (raster : Nat → Nat → Nat → ℚ) (adv : Nat → Int) :
    (storageType 8 = some (BYTE_IMG, 1) ∧ storageType 16 = some (USHORT_IMG, 2) ∧
      storageType 32 = some (FLOAT_IMG, 4)) ∧
    (∀ fmt : Int,
      (p.formatRecord.depth = 8 ∧ fmt = BYTE_IMG) ∨
      (p.formatRecord.depth = 16 ∧ fmt = USHORT_IMG) ∨
      (p.formatRecord.depth = 32 ∧ fmt = FLOAT_IMG) →
      (writeStart p noErr true true pMeta allocOk raster adv).created =
        some (FitsCreate.mk fmt 3
          [p.formatRecord.imageSizeH, p.formatRecord.imageSizeV, p.formatRecord.planes])) ∧
    (p.formatRecord.depth ≠ 8 → p.formatRecord.depth ≠ 16 → p.formatRecord.depth ≠ 32 →
      (writeStart p noErr fdOk createOk pMeta allocOk raster adv).plugin.result = writErr ∧
      (writeStart p noErr fdOk createOk pMeta allocOk raster adv).created = none ∧
      (writeStart p noErr fdOk createOk pMeta allocOk raster adv).keys = [] ∧
      (writeStart p noErr fdOk createOk pMeta allocOk raster adv).requests = [] ∧
      (writeStart p noErr fdOk createOk pMeta allocOk raster adv).writes = [] ∧
      (writeStart p noErr fdOk createOk pMeta allocOk raster adv).progress = [] ∧
      (writeStart p noErr fdOk createOk pMeta allocOk raster adv).calls = 0) := by
  refine ⟨⟨rfl, rfl, rfl⟩, fun fmt h => ?_, fun h8 h16 h32 => ?_⟩
  · rcases h with ⟨hd, rfl⟩ | ⟨hd, rfl⟩ | ⟨hd, rfl⟩
    · exact (writeStart_created p pMeta allocOk raster adv BYTE_IMG 1
        (by rw [hd]; rfl)).1
    · exact (writeStart_created p pMeta allocOk raster adv USHORT_IMG 2
        (by rw [hd]; rfl)).1
    · exact (writeStart_created p pMeta allocOk raster adv FLOAT_IMG 4
        (by rw [hd]; rfl)).1
  · have hst : storageType p.formatRecord.depth = none := by
      simp [storageType, h8, h16, h32]
    unfold writeStart
    simp only [hst]
    rw [if_neg (by simp)]
    exact ⟨rfl, rfl, rfl, rfl, rfl, rfl, rfl⟩

/-- C8 at a raster of depth 7, and at one of depth 16. -/
theorem C8_writeStart_storage_type_witness :
    (writeStart (pluginFor 2 1 1 7) noErr true true none true (fun _ _ _ => 0)
      neverCancel).plugin.result = writErr ∧
    (writeStart (pluginFor 2 1 1 7) noErr true true none true (fun _ _ _ => 0)
      neverCancel).created = none ∧
    (writeStart (pluginFor 2 1 1 16) noErr true true none true (fun _ _ _ => 0)
      neverCancel).created = some (FitsCreate.mk USHORT_IMG 3 [2, 1, 1]) :=
  ⟨((C8_writeStart_storage_type (pluginFor 2 1 1 7) true true true none (fun _ _ _ => 0)
      neverCancel).2.2 (by decide) (by decide) (by decide)).1,
   ((C8_writeStart_storage_type (pluginFor 2 1 1 7) true true true none (fun _ _ _ => 0)
      neverCancel).2.2 (by decide) (by decide) (by decide)).2.1,
   (C8_writeStart_storage_type (pluginFor 2 1 1 16) true true true none (fun _ _ _ => 0)
      neverCancel).2.1 USHORT_IMG (Or.inr (Or.inl ⟨rfl, rfl⟩))⟩

theorem writeAt_tiling (width height : Nat) (raster : Nat → Nat → Nat → ℚ) (K : Nat) :
    ((List.range K).map (writeAt width height raster)).flatMap
      (fun wr => List.range' wr.first wr.nElements) = List.range' 1 (K * width) := by
  induction K with
  | zero => simp
  | succ K ih =>
    rw [List.range_succ, List.map_append, List.flatMap_append, ih]
    simp only [List.map_cons, List.map_nil, List.flatMap_cons, List.flatMap_nil, List.append_nil,
      writeAt]
    rw [Nat.succ_mul, List.range'_append_1, Nat.add_comm]

theorem writeStart_uncancelled (p : Plugin) (pMeta : Option PhitsMetadata)
    (raster : Nat → Nat → Nat → ℚ) (adv : Nat → Int)
    (hdepth : (storageType p.formatRecord.depth).isSome = true)
    (hadv : ∀ k, adv k = noErr) :
    (writeStart p noErr true true pMeta true raster adv).plugin.result = noErr ∧
    (writeStart p noErr true true pMeta true raster adv).writes =
      (List.range (p.formatRecord.planes * p.formatRecord.imageSizeV)).map
        (writeAt p.formatRecord.imageSizeH p.formatRecord.imageSizeV raster) := by
  obtain ⟨⟨fmt, ds⟩, hst⟩ := Option.isSome_iff_exists.mp hdepth
  rw [writeStart_run p pMeta raster adv fmt ds hst]
  obtain ⟨K, -, -, -, -, -, -, hcase⟩ := writeLoop_spec p.formatRecord.imageSizeH
    p.formatRecord.imageSizeV p.formatRecord.planes
    (p.formatRecord.imageSizeH * p.formatRecord.imageSizeV) raster adv
  rcases hcase with ⟨hres, hK, -, hw⟩ | ⟨hres, -, -, hlast, -⟩
  · exact ⟨hres, by rw [← hK]; exact hw⟩
  · exact absurd (hlast.trans (hadv _)) hres

theorem writeStart_inRange (p : Plugin) (pMeta : Option PhitsMetadata)
    (raster : Nat → Nat → Nat → ℚ) (adv : Nat → Int)
    (hdepth : (storageType p.formatRecord.depth).isSome = true)
    (hbuf : (p.formatRecord.imageSizeH : Int) * p.formatRecord.depth + 7 ≤ INT_MAX)
    (htotal : p.formatRecord.imageSizeH * p.formatRecord.imageSizeV ≤ INT_MAX)
    (hdone : p.formatRecord.planes * p.formatRecord.imageSizeV ≤ INT_MAX)
    (hcur : 1 + p.formatRecord.planes * p.formatRecord.imageSizeV * p.formatRecord.imageSizeH
      ≤ INT_MAX) :
    (writeStart p noErr true true pMeta true raster adv).intOverflow = false := by
  obtain ⟨⟨fmt, ds⟩, hst⟩ := Option.isSome_iff_exists.mp hdepth
  rw [writeStart_run p pMeta raster adv fmt ds hst]
  simp only []
  rw [writeLoop_inRange _ _ _ _ raster adv hcur hdone]
  simp only [Bool.or_false, Bool.or_eq_false_iff, decide_eq_false_iff_not, not_lt]
  exact ⟨hbuf, htotal⟩

/-- C9: in an uncancelled encode of a width x height x planes raster whose sizes keep
the `int` computations of `writeStart` within `INT_MAX` (the buffer size
`width * depth + 7`, the total `width * height`, the scanline count `planes * height`
and the running element index, which ends at `1 + width * height * planes`), no `int`
overflows and there is one write per scanline, in plane-major, row-minor order (the
write for `(plane, row)` is number `plane * height + row`); it carries the host's
scanline as supplied, has length width, and starts at the 1-based element
`plane * (width * height) + row * width + 1` of the repository's write tests; the
element ranges of the writes, in order, run through `1 .. width * height * planes`
without gap or overlap. -/
theorem C9_writeStart_scanline_order (p : Plugin) (pMeta : Option PhitsMetadata)
    (raster : Nat → Nat → Nat → ℚ) (adv : Nat → Int)
    (hdepth : (storageType p.formatRecord.depth).isSome = true)
    (hadv : ∀ k, adv k = noErr)
    (hbuf : (p.formatRecord.imageSizeH : Int) * p.formatRecord.depth + 7 ≤ INT_MAX)
    (htotal : p.formatRecord.imageSizeH * p.formatRecord.imageSizeV ≤ INT_MAX)
    (hdone : p.formatRecord.planes * p.formatRecord.imageSizeV ≤ INT_MAX)
    (hcur : 1 + p.formatRecord.planes * p.formatRecord.imageSizeV * p.formatRecord.imageSizeH
      ≤ INT_MAX) :
    (writeStart p noErr true true pMeta true raster adv).plugin.result = noErr ∧
    (writeStart p noErr true true pMeta true raster adv).intOverflow = false ∧
    (writeStart p noErr true true pMeta true raster adv).writes.length
      = p.formatRecord.planes * p.formatRecord.imageSizeV ∧
    (∀ plane row, plane < p.formatRecord.planes → row < p.formatRecord.imageSizeV →
      (writeStart p noErr true true pMeta true raster adv).writes[plane
          * p.formatRecord.imageSizeV + row]? =
        some (FitsWrite.mk
          (testFirstElement p.formatRecord.imageSizeH p.formatRecord.imageSizeV plane row)
          p.formatRecord.imageSizeH
          ((List.range p.formatRecord.imageSizeH).map (raster plane row))) ∧
      testFirstElement p.formatRecord.imageSizeH p.formatRecord.imageSizeV plane row
        + p.formatRecord.imageSizeH ≤ INT_MAX) ∧
    ((writeStart p noErr true true pMeta true raster adv).writes.flatMap
        (fun wr => List.range' wr.first wr.nElements)
      = List.range' 1
          (p.formatRecord.imageSizeH * p.formatRecord.imageSizeV * p.formatRecord.planes)) := by
  obtain ⟨hres, hw⟩ := writeStart_uncancelled p pMeta raster adv hdepth hadv
  have hflag := writeStart_inRange p pMeta raster adv hdepth hbuf htotal hdone hcur
  rw [hw]
  refine ⟨hres, hflag, by simp, fun plane row hp hr => ⟨?_, ?_⟩, ?_⟩
  · have hlt : plane * p.formatRecord.imageSizeV + row
        < p.formatRecord.planes * p.formatRecord.imageSizeV := by
      have : (plane + 1) * p.formatRecord.imageSizeV
          ≤ p.formatRecord.planes * p.formatRecord.imageSizeV :=
        Nat.mul_le_mul_right _ hp
      have : (plane + 1) * p.formatRecord.imageSizeV
          = plane * p.formatRecord.imageSizeV + p.formatRecord.imageSizeV := by ring
      omega
    obtain ⟨hdiv, hmod⟩ := div_mod_flat plane row p.formatRecord.imageSizeV hr
    rw [List.getElem?_map, List.getElem?_range hlt]
    simp only [Option.map_some', writeAt, hdiv, hmod, testFirstElement]
    congr 2
    ring
  · have h1 : (plane + 1) * p.formatRecord.imageSizeV
        ≤ p.formatRecord.planes * p.formatRecord.imageSizeV := Nat.mul_le_mul_right _ hp
    have h2 : (plane + 1) * p.formatRecord.imageSizeV
        = plane * p.formatRecord.imageSizeV + p.formatRecord.imageSizeV := by ring
    have h3 : (plane * p.formatRecord.imageSizeV + row + 1) * p.formatRecord.imageSizeH
        ≤ p.formatRecord.planes * p.formatRecord.imageSizeV * p.formatRecord.imageSizeH :=
      Nat.mul_le_mul_right _ (by omega)
    have h4 : (plane * p.formatRecord.imageSizeV + row + 1) * p.formatRecord.imageSizeH
        = plane * (p.formatRecord.imageSizeH * p.formatRecord.imageSizeV)
          + row * p.formatRecord.imageSizeH + p.formatRecord.imageSizeH := by ring
    unfold testFirstElement
    omega
  · rw [writeAt_tiling]
    congr 1
    ring

/-- C9 at a 2 x 2 raster of 3 planes whose sample at `(plane, row, col)` is
`100 * plane + 10 * row + col`: twelve elements in six writes. -/
theorem C9_writeStart_scanline_order_witness :
    (storageType (pluginFor 2 2 3 32).formatRecord.depth).isSome = true ∧
    (∀ k, neverCancel k = noErr) ∧
    (((pluginFor 2 2 3 32).formatRecord.imageSizeH : Int)
      * (pluginFor 2 2 3 32).formatRecord.depth + 7 ≤ INT_MAX) ∧
    ((pluginFor 2 2 3 32).formatRecord.imageSizeH * (pluginFor 2 2 3 32).formatRecord.imageSizeV
      ≤ INT_MAX) ∧
    ((pluginFor 2 2 3 32).formatRecord.planes * (pluginFor 2 2 3 32).formatRecord.imageSizeV
      ≤ INT_MAX) ∧
    (1 + (pluginFor 2 2 3 32).formatRecord.planes * (pluginFor 2 2 3 32).formatRecord.imageSizeV
      * (pluginFor 2 2 3 32).formatRecord.imageSizeH ≤ INT_MAX) ∧
    (writeStart (pluginFor 2 2 3 32) noErr true true none true
      (fun plane row col => 100 * plane + 10 * row + col) neverCancel).intOverflow = false ∧
    (writeStart (pluginFor 2 2 3 32) noErr true true none true
      (fun plane row col => 100 * plane + 10 * row + col) neverCancel).writes
      = [FitsWrite.mk 1 2 [0, 1], FitsWrite.mk 3 2 [10, 11],
         FitsWrite.mk 5 2 [100, 101], FitsWrite.mk 7 2 [110, 111],
         FitsWrite.mk 9 2 [200, 201], FitsWrite.mk 11 2 [210, 211]] ∧
    ((writeStart (pluginFor 2 2 3 32) noErr true true none true
      (fun plane row col => 100 * plane + 10 * row + col) neverCancel).writes.flatMap
        (fun wr => List.range' wr.first wr.nElements)
      = List.range' 1 12) :=
  ⟨rfl, fun _ => rfl, by decide, by decide, by decide, by decide,
   (C9_writeStart_scanline_order (pluginFor 2 2 3 32) none
      (fun plane row col => 100 * plane + 10 * row + col) neverCancel rfl
      (fun _ => rfl) (by decide) (by decide) (by decide) (by decide)).2.1,
   by with_unfolding_all decide,
   (C9_writeStart_scanline_order (pluginFor 2 2 3 32) none
      (fun plane row col => 100 * plane + 10 * row + col) neverCancel rfl
      (fun _ => rfl) (by decide) (by decide) (by decide) (by decide)).2.2.2.2⟩

/-- C10: for every keyword of logical type in the stored metadata, the key `writeStart`
adds for it (same position, same name) has the value string "T" when the keyword's
value is true and "F" when it is false, and reading that string back as a FITS logical
gives the keyword's value. -/
theorem C10_writeStart_logical_keywords (p : Plugin) (pMeta : PhitsMetadata)
    (allocOk : Bool) (raster : Nat → Nat → Nat → ℚ) (adv : Nat → Int)
    (hdepth : (storageType p.formatRecord.depth).isSome = true) :
    (writeStart p noErr true true (some pMeta) allocOk raster adv).keys.length
      = pMeta.keywordMap.length ∧
    ∀ (i : Nat) (entry : String × Keyword), pMeta.keywordMap[i]? = some entry →
      entry.2.keytype = ValueType.Tlogical →
      ∃ key, (writeStart p noErr true true (some pMeta) allocOk raster adv).keys[i]? = some key ∧
        key.name = entry.2.name ∧
        key.value = (if entry.2.boolValue then "T" else "F") ∧
        readLogical key.value = some entry.2.boolValue := by
  obtain ⟨⟨fmt, ds⟩, hst⟩ := Option.isSome_iff_exists.mp hdepth
  rw [(writeStart_created p (some pMeta) allocOk raster adv fmt ds hst).2]
  refine ⟨by simp [replayKeywords], fun i entry hi hlog => ?_⟩
  refine ⟨AddedKey.mk entry.2.name (valString entry.2) entry.2.comment ValueType.Tstring,
    by simp [replayKeywords, hi], rfl, by simp [valString, hlog], ?_⟩
  simp only [valString, hlog, if_true]
  cases entry.2.boolValue <;> decide

/-- C10 at a stored `EXTEND = true` and a stored `EXTEND = false`. -/
theorem C10_writeStart_logical_keywords_witness :
    (storageType (pluginFor 2 1 1 8).formatRecord.depth).isSome = true ∧
    (∃ key, (writeStart (pluginFor 2 1 1 8) noErr true true (some (logicalMeta true)) true
        (fun _ _ _ => 0) neverCancel).keys[0]? = some key ∧
      key.name = "EXTEND" ∧ key.value = "T" ∧ readLogical key.value = some true) ∧
    (∃ key, (writeStart (pluginFor 2 1 1 8) noErr true true (some (logicalMeta false)) true
        (fun _ _ _ => 0) neverCancel).keys[0]? = some key ∧
      key.name = "EXTEND" ∧ key.value = "F" ∧ readLogical key.value = some false) :=
  ⟨rfl,
   (C10_writeStart_logical_keywords (pluginFor 2 1 1 8) (logicalMeta true) true
      (fun _ _ _ => 0) neverCancel rfl).2 0 _ rfl rfl,
   (C10_writeStart_logical_keywords (pluginFor 2 1 1 8) (logicalMeta false) true
      (fun _ _ _ => 0) neverCancel rfl).2 0 _ rfl rfl⟩

/-! ## Successful decodes -/

theorem readStart_success (p : Plugin) (seek : Int) (f : FITS)
    (h : (readStart p seek (.opened f)).result = noErr) :
    seek = noErr ∧ axesError f.pHDU.axes = none ∧
    (∃ d, classifyDepth f.pHDU.bitpix (decide (f.pHDU.zero ≠ 0 ∨ f.pHDU.scale ≠ 1)) = some d) ∧
    (planeCount f.pHDU = 1 ∨ 3 ≤ planeCount f.pHDU) := by
  cases hax : axesError f.pHDU.axes with
  | some msg =>
    simp only [readStart, hax] at h
    simp [errReportString, noErr] at h
  | none =>
    cases hc : classifyDepth f.pHDU.bitpix (decide (f.pHDU.zero ≠ 0 ∨ f.pHDU.scale ≠ 1)) with
    | none =>
      simp only [readStart, hax, hc] at h
      simp [errReportString, noErr] at h
    | some d =>
      simp only [readStart, hax, hc] at h
      by_cases hseek : seek = 0
      · refine ⟨hseek, rfl, ⟨d, rfl⟩, ?_⟩
        rw [if_neg (by simpa using hseek)] at h
        by_cases h1 : planeCount f.pHDU = 1
        · exact Or.inl h1
        · by_cases h3 : planeCount f.pHDU ≥ 3
          · exact Or.inr h3
          · rw [if_neg h1, if_neg h3] at h
            simp [errReportString, noErr] at h
      · rw [if_pos (by simpa using hseek)] at h
        simp only [log_result] at h
        exact absurd h hseek

theorem classifyDepth_depth (fmt : Int) (isScaled : Bool) (d : Depths)
    (h : classifyDepth fmt isScaled = some d) :
    (d.depth = 8 ∧ fmt = BYTE_IMG ∧ isScaled = false) ∨
    (d.depth = 32 ∧ ¬ (fmt = BYTE_IMG ∧ isScaled = false)) := by
  unfold classifyDepth at h
  simp only [] at h
  split at h
  · rename_i hb
    injection h with h
    subst h
    cases isScaled
    · exact Or.inl ⟨rfl, hb, rfl⟩
    · exact Or.inr ⟨rfl, by simp⟩
  · rename_i hb
    split at h
    · injection h with h
      subst h
      exact Or.inr ⟨rfl, fun hh => hb hh.1⟩
    · split at h
      · injection h with h
        subst h
        exact Or.inr ⟨rfl, fun hh => hb hh.1⟩
      · split at h
        · injection h with h
          subst h
          exact Or.inr ⟨rfl, fun hh => hb hh.1⟩
        · cases h

theorem tryRead_isConverted (p : Plugin) (f : FITS) (adv : Nat → Int) :
    (tryRead p f adv).1.isConverted =
      (if p.formatRecord.depth = 8 then false else decide (f.pHDU.bitpix ≠ FLOAT_IMG)) := by
  unfold tryRead
  simp only []
  split
  · split <;> rfl
  · simp [(captureMetadata_fields f).1]

theorem afterRead_success (p : Plugin) (pMeta : PhitsMetadata) (s : ReadState)
    (adv : Nat → Int) (h : (afterRead p pMeta s adv).plugin.result = noErr) :
    s.thrown = none ∧
    (afterRead p pMeta s adv).pMeta.map PhitsMetadata.isConverted = some pMeta.isConverted := by
  cases hth : s.thrown with
  | some msg =>
    simp only [afterRead, hth] at h
    simp [errReportString, noErr] at h
  | none =>
    simp only [afterRead, hth]
    exact ⟨trivial, rfl⟩

theorem readContinue_success (p : Plugin) (f : FITS) (allocOk : Bool) (adv : Nat → Int)
    (h : (readContinue p f allocOk adv).plugin.result = noErr) :
    allocOk = true ∧
    (readContinue p f allocOk adv).pMeta.map PhitsMetadata.isConverted =
      some (if p.formatRecord.depth = 8 then false else decide (f.pHDU.bitpix ≠ FLOAT_IMG)) := by
  cases allocOk with
  | false => simp [readContinue, memFullErr, noErr] at h
  | true =>
    have hro : readContinue p f true adv
        = afterRead p (tryRead p f adv).1 (tryRead p f adv).2 adv := by
      simp [readContinue]
    rw [hro] at h ⊢
    refine ⟨rfl, ?_⟩
    rw [(afterRead_success _ _ _ _ h).2, tryRead_isConverted]

/-- C5, as amended: after every successful decode `isConverted` is true exactly when
the source bitpix is not `FLOAT_IMG` and the source is not an unscaled `BYTE_IMG`
(bzero = 0 and bscale = 1, which is decoded at working depth 8 as a pass-through);
no condition on normalization enters. -/
theorem C5_isConverted_after_decode (p : Plugin) (seek : Int) (f : FITS) (allocOk : Bool)
    (adv : Nat → Int) (o : ReadOutcome)
    (hdecode : decode p seek (.opened f) allocOk adv = some o)
    (hok : o.plugin.result = noErr) :
    o.pMeta.map PhitsMetadata.isConverted =
      some (decide (f.pHDU.bitpix ≠ FLOAT_IMG ∧
        ¬ (f.pHDU.bitpix = BYTE_IMG ∧ f.pHDU.zero = 0 ∧ f.pHDU.scale = 1))) ∧
    ((readStart p seek (.opened f)).formatRecord.depth = 8 ↔
      (f.pHDU.bitpix = BYTE_IMG ∧ f.pHDU.zero = 0 ∧ f.pHDU.scale = 1)) := by
  unfold decode at hdecode
  simp only [] at hdecode
  split at hdecode
  · cases hdecode
  · rename_i hres
    simp only [ne_eq, not_not] at hres
    obtain ⟨hseek, hax, ⟨d, hc⟩, hpl⟩ := readStart_success p seek f hres
    subst hseek
    obtain ⟨-, hfits, hdepth, -⟩ := readStart_ok p f d hax hc hpl
    rw [hfits] at hdecode
    simp only [Option.some.injEq] at hdecode
    subst hdecode
    obtain ⟨-, hconv⟩ := readContinue_success _ f allocOk adv hok
    rw [hconv, hdepth]
    rcases classifyDepth_depth _ _ d hc with ⟨h8, hb, hs⟩ | ⟨h32, hns⟩
    · have hzs : f.pHDU.zero = 0 ∧ f.pHDU.scale = 1 := by
        simpa [not_or] using hs
      refine ⟨?_, ?_⟩
      · rw [if_pos h8]
        simp [hb, hzs.1, hzs.2]
      · rw [h8]
        simp [hb, hzs.1, hzs.2]
    · have hnot : ¬ (f.pHDU.bitpix = BYTE_IMG ∧ f.pHDU.zero = 0 ∧ f.pHDU.scale = 1) := by
        intro hh
        apply hns
        refine ⟨hh.1, ?_⟩
        simp [hh.2.1, hh.2.2]
      refine ⟨?_, ?_⟩
      · rw [h32, if_neg (by decide)]
        simp [hnot]
      · rw [h32]
        constructor
        · intro h
          exact absurd h (by decide)
        · intro h
          exact absurd h hnot

/-- C5 at a 16-bit integer file (converted) and at a 32-bit float file (not
converted). -/
theorem C5_isConverted_after_decode_witness :
    decode freshPlugin noErr (.opened (headerOnly 2 [1, 1] 16 0 1)) true neverCancel
      = some (readContinue (readStart freshPlugin noErr (.opened (headerOnly 2 [1, 1] 16 0 1)))
          (headerOnly 2 [1, 1] 16 0 1) true neverCancel) ∧
    (readContinue (readStart freshPlugin noErr (.opened (headerOnly 2 [1, 1] 16 0 1)))
      (headerOnly 2 [1, 1] 16 0 1) true neverCancel).plugin.result = noErr ∧
    (readContinue (readStart freshPlugin noErr (.opened (headerOnly 2 [1, 1] 16 0 1)))
      (headerOnly 2 [1, 1] 16 0 1) true neverCancel).pMeta.map PhitsMetadata.isConverted
      = some true ∧
    (readContinue (readStart freshPlugin noErr (.opened (headerOnly 2 [1, 1] (-32) 0 1)))
      (headerOnly 2 [1, 1] (-32) 0 1) true neverCancel).pMeta.map PhitsMetadata.isConverted
      = some false := by
  have h16 : (readContinue (readStart freshPlugin noErr (.opened (headerOnly 2 [1, 1] 16 0 1)))
      (headerOnly 2 [1, 1] 16 0 1) true neverCancel).plugin.result = noErr := by
    with_unfolding_all decide
  have h32 : (readContinue (readStart freshPlugin noErr
      (.opened (headerOnly 2 [1, 1] (-32) 0 1)))
      (headerOnly 2 [1, 1] (-32) 0 1) true neverCancel).plugin.result = noErr := by
    with_unfolding_all decide
  refine ⟨rfl, h16, ?_, ?_⟩
  · rw [(C5_isConverted_after_decode freshPlugin noErr (headerOnly 2 [1, 1] 16 0 1) true
      neverCancel _ rfl h16).1]
    decide
  · rw [(C5_isConverted_after_decode freshPlugin noErr (headerOnly 2 [1, 1] (-32) 0 1) true
      neverCancel (readContinue (readStart freshPlugin noErr
        (.opened (headerOnly 2 [1, 1] (-32) 0 1))) (headerOnly 2 [1, 1] (-32) 0 1) true
        neverCancel) rfl h32).1]
    decide

/-- C5 fails as stated: an unscaled 8-bit file (bitpix `BYTE_IMG`, not `FLOAT_IMG`)
decodes successfully and `isConverted` is false. -/
theorem C5_counterexample_unscaled_byte :
    (headerOnly 2 [1, 1] 8 0 1).pHDU.bitpix ≠ FLOAT_IMG ∧
    (decode freshPlugin noErr (.opened (headerOnly 2 [1, 1] 8 0 1)) true neverCancel).map
      (fun o => (o.plugin.result, o.pMeta.map PhitsMetadata.isConverted))
      = some (noErr, some false) := by
  refine ⟨by decide, ?_⟩
  with_unfolding_all decide

theorem readContinue_unit_interval (p : Plugin) (f : FITS) (adv : Nat → Int)
    (hdepth : p.formatRecord.depth = 32) (hfault : ∀ k, f.readFault k = none)
    (hne : (readContinue p f true adv).maxFloatVal ≠ (readContinue p f true adv).minFloatVal ∨
      ¬ ((readContinue p f true adv).minFloatVal < 0 ∨
        (readContinue p f true adv).maxFloatVal > 1)) :
    ∀ d, d ∈ (readContinue p f true adv).deliveries → ∀ x, x ∈ d.scanline →
      ∃ q : ℚ, x = some q ∧ 0 ≤ q ∧ q ≤ 1 := by
  obtain ⟨pMeta, m, K, -, -, -, -, hmin, hmax, -, -,
    ⟨hb, -, -, -, -⟩, hK, hdel, -, -, -⟩ := readContinue_float p f adv hdepth hfault
  rw [hmin, hmax] at hne
  rw [hdel]
  intro d hd x hx
  obtain ⟨k, hk, rfl⟩ := List.mem_map.mp hd
  have hk' : k < K := List.mem_range.mp hk
  have hrow : (k + 1) * p.formatRecord.imageSizeH
      ≤ p.formatRecord.planes * p.formatRecord.imageSizeV * p.formatRecord.imageSizeH :=
    Nat.mul_le_mul_right _ (by omega)
  have hidx : ∀ col, col < p.formatRecord.imageSizeH →
      m.minFloatVal ≤ f.pixels (k * p.formatRecord.imageSizeH + col) ∧
      f.pixels (k * p.formatRecord.imageSizeH + col) ≤ m.maxFloatVal := by
    intro col hcol
    apply hb
    have h1 : (k + 1) * p.formatRecord.imageSizeH
        = k * p.formatRecord.imageSizeH + p.formatRecord.imageSizeH := by ring
    have h2 : p.formatRecord.imageSizeH * p.formatRecord.imageSizeV * p.formatRecord.planes
        = p.formatRecord.planes * p.formatRecord.imageSizeV * p.formatRecord.imageSizeH := by
      ring
    omega
  by_cases hout : m.minFloatVal < 0 ∨ m.maxFloatVal > 1
  · have hne' : m.maxFloatVal ≠ m.minFloatVal := by
      rcases hne with h | h
      · exact h
      · exact absurd hout h
    have hc : chooseNormalization m = Normalization.mk true (-m.minFloatVal)
        (fdiv 1 (m.maxFloatVal - m.minFloatVal)) := by
      unfold chooseNormalization
      rw [if_pos hout]
    simp only [deliveryAt, hc, copyScanline, if_true] at hx
    rw [if_neg (by decide)] at hx
    simp only [Option.getD_some, List.mem_map, List.mem_range] at hx
    obtain ⟨col, hcol, rfl⟩ := hx
    obtain ⟨hlo, hhi⟩ := hidx col hcol
    have hpos : 0 < m.maxFloatVal - m.minFloatVal := by
      have : m.minFloatVal ≤ m.maxFloatVal := le_trans hlo hhi
      rcases lt_or_eq_of_le this with h | h
      · linarith
      · exact absurd h.symm hne'
    refine ⟨(-m.minFloatVal + f.pixels (k * p.formatRecord.imageSizeH + col))
      * (1 / (m.maxFloatVal - m.minFloatVal)), ?_, ?_, ?_⟩
    · simp only [scaleBy, fdiv]
      rw [if_neg (ne_of_gt hpos)]
      rfl
    · apply mul_nonneg
      · linarith
      · exact le_of_lt (one_div_pos.mpr hpos)
    · rw [mul_one_div, div_le_one hpos]
      linarith
  · have hc : chooseNormalization m = {} := by
      unfold chooseNormalization
      rw [if_neg hout]
    simp only [deliveryAt, hc, copyScanline] at hx
    rw [if_neg (by decide)] at hx
    simp only [if_true, Bool.false_eq_true, if_false, Option.getD_some, List.mem_map,
      List.mem_range] at hx
    obtain ⟨col, hcol, rfl⟩ := hx
    obtain ⟨hlo, hhi⟩ := hidx col hcol
    simp only [not_or, not_lt] at hout
    exact ⟨_, rfl, le_trans hout.1 hlo, le_trans hhi hout.2⟩

/-- C3 fails on a constant image outside [0,1]: a 1 x 1 float image holding the sample
2 has min = max = 2, so normalisation is switched on with the divisor `max - min = 0`;
the scale `1 / 0` is not a finite number and neither is the one pixel delivered. -/
theorem C3_constant_image_not_in_unit_interval :
    (decode freshPlugin noErr (.opened (floatFile 1 1 1 [2])) true neverCancel).map
        (fun o => o.plugin.result) = some noErr ∧
    (decode freshPlugin noErr (.opened (floatFile 1 1 1 [2])) true neverCancel).map
        (fun o => (o.minFloatVal, o.maxFloatVal)) = some (2, 2) ∧
    (decode freshPlugin noErr (.opened (floatFile 1 1 1 [2])) true neverCancel).map
        (fun o => o.pMeta.map PhitsMetadata.isNormalized) = some (some true) ∧
    (decode freshPlugin noErr (.opened (floatFile 1 1 1 [2])) true neverCancel).map
        (fun o => o.normScale) = some none ∧
    (decode freshPlugin noErr (.opened (floatFile 1 1 1 [2])) true neverCancel).map
        (fun o => o.deliveries.map Delivery.scanline) = some [[none]] := by
  refine ⟨?_, ?_, ?_, ?_, ?_⟩ <;> with_unfolding_all decide

/-! ## Round trip -/

theorem getD_map_range_default (g : Nat → ℚ) (n i : Nat) (d : ℚ) (hi : i < n) :
    ((List.range n).map g).getD i d = g i := by
  simp [List.getD_eq_getElem?_getD, hi]

theorem readBack_pixels (width height planes : Nat) (raster : Nat → Nat → Nat → ℚ)
    (pixels : Nat → ℚ)
    (hback : ∀ wr, wr ∈ (List.range (planes * height)).map (writeAt width height raster) →
      ∀ j, j < wr.nElements → pixels (wr.first - 1 + j) = wr.data.getD j 0)
    (i : Nat) (hi : i < planes * height * width) :
    pixels i = raster ((i / width) / height) ((i / width) % height) (i % width) := by
  have hw : 0 < width := by
    rcases Nat.eq_zero_or_pos width with h | h
    · rw [h] at hi; simp at hi
    · exact h
  have hk : i / width < planes * height := by
    rw [Nat.div_lt_iff_lt_mul hw]; exact hi
  have hj : i % width < width := Nat.mod_lt _ hw
  have hmem : writeAt width height raster (i / width)
      ∈ (List.range (planes * height)).map (writeAt width height raster) :=
    List.mem_map_of_mem _ (List.mem_range.mpr hk)
  have h := hback _ hmem (i % width) hj
  simp only [writeAt] at h
  rw [getD_map_range_default _ _ _ _ hj] at h
  rw [← h]
  congr 1
  have := Nat.div_add_mod i width
  have hc : i / width * width = width * (i / width) := Nat.mul_comm _ _
  omega

theorem flat_index_lt (plane row height planes : Nat) (hp : plane < planes)
    (hr : row < height) : plane * height + row < planes * height := by
  have h1 : (plane + 1) * height ≤ planes * height := Nat.mul_le_mul_right _ hp
  have h2 : (plane + 1) * height = plane * height + height := by ring
  omega

theorem pixel_index (plane row col width height planes : Nat) (hp : plane < planes)
    (hr : row < height) (hc : col < width) :
    (plane * height + row) * width + col < planes * height * width ∧
    ((plane * height + row) * width + col) / width = plane * height + row ∧
    ((plane * height + row) * width + col) % width = col := by
  have hk := flat_index_lt plane row height planes hp hr
  obtain ⟨hdiv, hmod⟩ := div_mod_flat (plane * height + row) col width hc
  refine ⟨?_, hdiv, hmod⟩
  have h1 : (plane * height + row + 1) * width ≤ planes * height * width :=
    Nat.mul_le_mul_right _ hk
  have h2 : (plane * height + row + 1) * width = (plane * height + row) * width + width := by
    ring
  omega

theorem index_pixel (i width height planes : Nat) (hi : i < planes * height * width) :
    (i / width) / height < planes ∧ (i / width) % height < height ∧ i % width < width := by
  have hw : 0 < width := by
    rcases Nat.eq_zero_or_pos width with h | h
    · rw [h] at hi; simp at hi
    · exact h
  have hk : i / width < planes * height := by
    rw [Nat.div_lt_iff_lt_mul hw]; exact hi
  have hh : 0 < height := by
    rcases Nat.eq_zero_or_pos height with h | h
    · rw [h] at hk; simp at hk
    · exact h
  refine ⟨?_, Nat.mod_lt _ hh, Nat.mod_lt _ hw⟩
  rw [Nat.div_lt_iff_lt_mul hh]; exact hk

/-- C4: a 32-bit raster with 1 or at least 3 planes whose samples all lie in [0,1] and
whose sizes keep the fixed-width computations of `writeStart` and `readContinue` in
range is encoded by an uncancelled `writeStart` without overflow.  Let `file` be that
file as the library presents it to a later open: its primary header is the one of the
creation call (type, axis count, axis lengths) with zero point 0 and scale 1, every
element a `write` call stored reads back as stored, and no read fails.  Decoding `file`
(`readStart`, `readContinue`, uncancelled) succeeds without overflow, classifies it as
working depth 32, gets `isNormalized = false` and `isConverted = false`, and delivers
the scanlines in plane-major order with, at every (plane, row, column), exactly the
sample that was encoded. -/
theorem C4_round_trip (p q : Plugin) (pMeta : Option PhitsMetadata)
    (raster : Nat → Nat → Nat → ℚ) (advW advR : Nat → Int) (file : FITS)
    (hdepth : p.formatRecord.depth = 32)
    (hplanes : p.formatRecord.planes = 1 ∨ 3 ≤ p.formatRecord.planes)
    (hunit : ∀ plane row col, plane < p.formatRecord.planes →
      row < p.formatRecord.imageSizeV → col < p.formatRecord.imageSizeH →
      0 ≤ raster plane row col ∧ raster plane row col ≤ 1)
    (hadvW : ∀ k, advW k = noErr) (hadvR : ∀ k, advR k = noErr)
    (hint16 : p.formatRecord.planes ≤ 32767)
    (hbuf : (p.formatRecord.imageSizeH : Int) * 32 + 7 ≤ INT_MAX)
    (hrows : 2 * p.formatRecord.imageSizeV * p.formatRecord.planes ≤ INT_MAX)
    (hcur : 1 + p.formatRecord.planes * p.formatRecord.imageSizeV * p.formatRecord.imageSizeH
      ≤ INT_MAX)
    (hheader : ∀ c, (writeStart p noErr true true pMeta true raster advW).created = some c →
      file.pHDU.bitpix = c.fitsFormat ∧ file.pHDU.axes = c.naxis ∧ file.pHDU.axis = c.naxes)
    (hlinear : file.pHDU.zero = 0 ∧ file.pHDU.scale = 1)
    (hback : ∀ wr, wr ∈ (writeStart p noErr true true pMeta true raster advW).writes →
      ∀ j, j < wr.nElements → file.pixels (wr.first - 1 + j) = wr.data.getD j 0)
    (hfault : ∀ k, file.readFault k = none) :
    (writeStart p noErr true true pMeta true raster advW).plugin.result = noErr ∧
    (writeStart p noErr true true pMeta true raster advW).intOverflow = false ∧
    ∃ o,
      decode q noErr (.opened file) true advR = some o ∧
      o.plugin.result = noErr ∧
      o.counterOverflow = false ∧
      (readStart q noErr (.opened file)).formatRecord.depth = 32 ∧
      (readStart q noErr (.opened file)).formatRecord.planes = p.formatRecord.planes ∧
      (readStart q noErr (.opened file)).formatRecord.planes ≤ 32767 ∧
      o.pMeta.map PhitsMetadata.isNormalized = some false ∧
      o.pMeta.map PhitsMetadata.isConverted = some false ∧
      o.deliveries.length = p.formatRecord.planes * p.formatRecord.imageSizeV ∧
      ∀ plane row, plane < p.formatRecord.planes → row < p.formatRecord.imageSizeV →
        o.deliveries[plane * p.formatRecord.imageSizeV + row]? =
          some (Delivery.mk plane row
            ((List.range p.formatRecord.imageSizeH).map
              (fun col => some (raster plane row col)))) := by
  have hI : INT_MAX = 2147483647 := rfl
  have hst : storageType p.formatRecord.depth = some (FLOAT_IMG, 4) := by
    rw [hdepth]; rfl
  have hPpos : 1 ≤ p.formatRecord.planes := by omega
  have hN : p.formatRecord.imageSizeH * p.formatRecord.imageSizeV * p.formatRecord.planes
      = p.formatRecord.planes * p.formatRecord.imageSizeV * p.formatRecord.imageSizeH := by
    ring
  have hWH : p.formatRecord.imageSizeH * p.formatRecord.imageSizeV ≤ INT_MAX := by
    have h1 : 1 * (p.formatRecord.imageSizeH * p.formatRecord.imageSizeV)
        ≤ p.formatRecord.planes * (p.formatRecord.imageSizeH * p.formatRecord.imageSizeV) :=
      Nat.mul_le_mul_right _ hPpos
    have h2 : p.formatRecord.planes * (p.formatRecord.imageSizeH * p.formatRecord.imageSizeV)
        = p.formatRecord.planes * p.formatRecord.imageSizeV * p.formatRecord.imageSizeH := by
      ring
    omega
  have hPH : p.formatRecord.planes * p.formatRecord.imageSizeV ≤ INT_MAX := by
    have h2 : 2 * p.formatRecord.imageSizeV * p.formatRecord.planes
        = 2 * (p.formatRecord.planes * p.formatRecord.imageSizeV) := by ring
    omega
  obtain ⟨hres1, hw⟩ := writeStart_uncancelled p pMeta raster advW (by rw [hst]; rfl) hadvW
  have hflagW := writeStart_inRange p pMeta raster advW (by rw [hst]; rfl)
    (by rw [hdepth]; exact hbuf) hWH hPH hcur
  have hcr := (writeStart_created p pMeta true raster advW FLOAT_IMG 4 hst).1
  obtain ⟨hbit, hax, haxis⟩ := hheader _ hcr
  simp only [] at hbit hax haxis
  obtain ⟨hzero, hscale⟩ := hlinear
  rw [hw] at hback
  have hpix := readBack_pixels p.formatRecord.imageSizeH p.formatRecord.imageSizeV
    p.formatRecord.planes raster file.pixels hback
  have hnone : axesError file.pHDU.axes = none := by rw [hax]; rfl
  have hc : classifyDepth file.pHDU.bitpix
      (decide (file.pHDU.zero ≠ 0 ∨ file.pHDU.scale ≠ 1)) = some (Depths.mk 64 32) := by
    rw [hbit, hzero, hscale]; rfl
  have hpc : planeCount file.pHDU = p.formatRecord.planes := by
    simp [planeCount, hax, PHDU.axisLen, haxis]
  obtain ⟨r1, r2, r3, r4, r5, r6, -⟩ := readStart_ok q file (Depths.mk 64 32) hnone hc
    (by rw [hpc]; exact hplanes)
  have hW : (readStart q noErr (.opened file)).formatRecord.imageSizeH
      = p.formatRecord.imageSizeH := by
    rw [r5]; simp [PHDU.axisLen, haxis]
  have hH : (readStart q noErr (.opened file)).formatRecord.imageSizeV
      = p.formatRecord.imageSizeV := by
    rw [r6]; simp [PHDU.axisLen, haxis]
  have hP : (readStart q noErr (.opened file)).formatRecord.planes
      = p.formatRecord.planes := by
    rw [r4, hpc]
  have hdec : decode q noErr (.opened file) true advR
      = some (readContinue (readStart q noErr (.opened file)) file true advR) := by
    unfold decode
    simp only [r1, r2]
    simp
  have hflagR := readContinue_inRange (readStart q noErr (.opened file)) file advR r3 hfault
    (by rw [hH, hP]; exact hrows) (by rw [hW, r3]; exact hbuf)
    (by
      rw [hW, hH, hP]
      have h2 : p.formatRecord.planes * p.formatRecord.imageSizeH * p.formatRecord.imageSizeV
          = p.formatRecord.planes * p.formatRecord.imageSizeV * p.formatRecord.imageSizeH := by
        ring
      omega)
  obtain ⟨pm, m, K, hm, -, hconv, hnorm, -, -, -, -, ⟨hb, -, -, hmn, hmx⟩, -, hdel, -,
    hKeq, hresult⟩ := readContinue_float (readStart q noErr (.opened file)) file advR r3 hfault
  simp only [hW, hH, hP] at hb hmn hmx hdel hKeq
  have hpixunit : ∀ i, i < p.formatRecord.imageSizeH * p.formatRecord.imageSizeV
      * p.formatRecord.planes → 0 ≤ file.pixels i ∧ file.pixels i ≤ 1 := by
    intro i hi
    rw [hN] at hi
    obtain ⟨h1, h2, h3⟩ := index_pixel i _ _ _ hi
    rw [hpix i hi]
    exact hunit _ _ _ h1 h2 h3
  have hin : ¬ (m.minFloatVal < 0 ∨ m.maxFloatVal > 1) := by
    intro hout
    rcases hout with h | h
    · rcases hmn with h' | ⟨i, hi, h'⟩
      · rw [h'] at h
        norm_num [FLT_MAX] at h
      · rw [h'] at h
        exact absurd (hpixunit i hi).1 (not_le.mpr h)
    · rcases hmx with h' | ⟨i, hi, h'⟩
      · rw [h'] at h
        norm_num [FLT_MAX] at h
      · rw [h'] at h
        exact absurd (hpixunit i hi).2 (not_le.mpr h)
  have hcn : chooseNormalization m = {} := by
    unfold chooseNormalization
    rw [if_neg hin]
  have hres2 := hresult hadvR r1
  have hK := hKeq hres2
  refine ⟨hres1, hflagW, _, hdec, hres2, hflagR, r3, hP, by rw [hP]; exact hint16, ?_, ?_, ?_,
    ?_⟩
  · rw [hm, Option.map_some', hnorm, hcn]
  · rw [hm, Option.map_some', hconv, hbit]
    simp
  · rw [hdel, hK]
    simp
  · intro plane row hp hr
    have hk := flat_index_lt plane row _ _ hp hr
    obtain ⟨hdiv, hmod⟩ := div_mod_flat plane row _ hr
    rw [hdel, hK, List.getElem?_map, List.getElem?_range hk]
    simp only [Option.map_some', deliveryAt, hdiv, hmod, hcn, copyScanline]
    rw [if_neg (by decide)]
    simp only [if_true, Bool.false_eq_true, if_false, Option.getD_some]
    congr 2
    apply List.map_congr_left
    intro col hcol
    obtain ⟨h1, h2, h3⟩ := pixel_index plane row col _ _ _ hp hr (List.mem_range.mp hcol)
    rw [hpix _ h1, h2, h3, hdiv, hmod]

/-- C4 at a one-row, two-column, one-plane raster holding 1/4 and 3/4, read back from
the two-element float file that holds 1/4 and 3/4. -/
theorem C4_round_trip_witness :
    (pluginFor 2 1 1 32).formatRecord.depth = 32 ∧
    ((pluginFor 2 1 1 32).formatRecord.planes = 1 ∨
      3 ≤ (pluginFor 2 1 1 32).formatRecord.planes) ∧
    (∀ plane row col : Nat, 0 ≤ quarterRaster plane row col ∧ quarterRaster plane row col ≤ 1) ∧
    (∀ k, neverCancel k = noErr) ∧
    (pluginFor 2 1 1 32).formatRecord.planes ≤ 32767 ∧
    (((pluginFor 2 1 1 32).formatRecord.imageSizeH : Int) * 32 + 7 ≤ INT_MAX) ∧
    (2 * (pluginFor 2 1 1 32).formatRecord.imageSizeV * (pluginFor 2 1 1 32).formatRecord.planes
      ≤ INT_MAX) ∧
    (1 + (pluginFor 2 1 1 32).formatRecord.planes * (pluginFor 2 1 1 32).formatRecord.imageSizeV
      * (pluginFor 2 1 1 32).formatRecord.imageSizeH ≤ INT_MAX) ∧
    (writeStart (pluginFor 2 1 1 32) noErr true true none true quarterRaster
      neverCancel).created = some (FitsCreate.mk FLOAT_IMG 3 [2, 1, 1]) ∧
    (floatFile 2 1 1 [1 / 4, 3 / 4]).pHDU.bitpix = FLOAT_IMG ∧
    (floatFile 2 1 1 [1 / 4, 3 / 4]).pHDU.axes = 3 ∧
    (floatFile 2 1 1 [1 / 4, 3 / 4]).pHDU.axis = [2, 1, 1] ∧
    (writeStart (pluginFor 2 1 1 32) noErr true true none true quarterRaster
      neverCancel).writes = [FitsWrite.mk 1 2 [1 / 4, 3 / 4]] ∧
    (floatFile 2 1 1 [1 / 4, 3 / 4]).pixels 0 = 1 / 4 ∧
    (floatFile 2 1 1 [1 / 4, 3 / 4]).pixels 1 = 3 / 4 ∧
    (writeStart (pluginFor 2 1 1 32) noErr true true none true quarterRaster
      neverCancel).intOverflow = false ∧
    ∃ o,
      decode freshPlugin noErr (.opened (floatFile 2 1 1 [1 / 4, 3 / 4])) true neverCancel
        = some o ∧
      o.plugin.result = noErr ∧
      o.counterOverflow = false ∧
      o.pMeta.map PhitsMetadata.isNormalized = some false ∧
      o.pMeta.map PhitsMetadata.isConverted = some false ∧
      o.deliveries[0]? = some (Delivery.mk 0 0 [some (1 / 4), some (3 / 4)]) := by
  have hunit : ∀ plane row col : Nat,
      0 ≤ quarterRaster plane row col ∧ quarterRaster plane row col ≤ 1 := by
    intro plane row col
    unfold quarterRaster
    split <;> norm_num
  have hcr : (writeStart (pluginFor 2 1 1 32) noErr true true none true quarterRaster
      neverCancel).created = some (FitsCreate.mk FLOAT_IMG 3 [2, 1, 1]) :=
    (writeStart_created (pluginFor 2 1 1 32) none true quarterRaster neverCancel FLOAT_IMG 4
      rfl).1
  have hwr : (writeStart (pluginFor 2 1 1 32) noErr true true none true quarterRaster
      neverCancel).writes = [FitsWrite.mk 1 2 [1 / 4, 3 / 4]] := by
    with_unfolding_all decide
  have hback : ∀ wr, wr ∈ (writeStart (pluginFor 2 1 1 32) noErr true true none true
      quarterRaster neverCancel).writes →
      ∀ j, j < wr.nElements →
        (floatFile 2 1 1 [1 / 4, 3 / 4]).pixels (wr.first - 1 + j) = wr.data.getD j 0 := by
    intro wr hmem j hj
    rw [hwr, List.mem_singleton] at hmem
    subst hmem
    have hj0 : 1 - 1 + j = j := by omega
    simp only [hj0]
    rfl
  obtain ⟨-, hflag, o, hd, hres, hcnt, -, -, -, hn, hc, -, hall⟩ :=
    C4_round_trip (pluginFor 2 1 1 32) freshPlugin none quarterRaster neverCancel neverCancel
      (floatFile 2 1 1 [1 / 4, 3 / 4]) rfl (Or.inl rfl)
      (fun plane row col _ _ _ => hunit plane row col) (fun _ => rfl) (fun _ => rfl)
      (by decide) (by decide) (by decide) (by decide)
      (fun c hc => by
        rw [hcr] at hc
        cases hc
        exact ⟨rfl, rfl, rfl⟩)
      ⟨rfl, rfl⟩ hback (fun _ => rfl)
  refine ⟨rfl, Or.inl rfl, hunit, fun _ => rfl, by decide, by decide, by decide, by decide,
    hcr, rfl, rfl, rfl, hwr, rfl, rfl, hflag, o, hd, hres, hcnt, hn, hc, ?_⟩
  exact hall 0 0 (by decide) (by decide)

/-! ## `filterFile` -/

theorem filterFile_opened (p : Plugin) (f : FITS) (hres : p.result = noErr) :
    (filterFile p true (.opened f)).result =
      (if (f.pHDU.axes = 2 ∨ f.pHDU.axes = 3) ∧ planeCount f.pHDU ≠ 2 ∧
          (f.pHDU.bitpix = BYTE_IMG ∨ f.pHDU.bitpix = SHORT_IMG ∨ f.pHDU.bitpix = FLOAT_IMG)
       then noErr else formatCannotRead) ∧
    (filterFile p true (.opened f)).formatRecord = p.formatRecord ∧
    (filterFile p true (.opened f)).pFits = p.pFits := by
  unfold filterFile
  rw [if_neg (by simp [hres])]
  simp only [Bool.not_true, Bool.false_eq_true, if_false]
  by_cases hax : f.pHDU.axes ≠ 2 ∧ f.pHDU.axes ≠ 3
  · have hc : ¬ (f.pHDU.axes = 2 ∨ f.pHDU.axes = 3) := by
      rintro (h | h)
      · exact hax.1 h
      · exact hax.2 h
    rw [if_pos hax, if_neg (fun h => hc h.1)]
    exact ⟨rfl, rfl, rfl⟩
  · have hc : f.pHDU.axes = 2 ∨ f.pHDU.axes = 3 := by
      by_contra h
      exact hax ⟨fun h2 => h (Or.inl h2), fun h3 => h (Or.inr h3)⟩
    rw [if_neg hax]
    by_cases hpl : planeCount f.pHDU = 2
    · rw [if_pos hpl, if_neg (fun h => h.2.1 hpl)]
      exact ⟨rfl, rfl, rfl⟩
    · rw [if_neg hpl]
      by_cases hb : f.pHDU.bitpix ≠ BYTE_IMG ∧ f.pHDU.bitpix ≠ SHORT_IMG ∧
          f.pHDU.bitpix ≠ FLOAT_IMG
      · have hnb : ¬ (f.pHDU.bitpix = BYTE_IMG ∨ f.pHDU.bitpix = SHORT_IMG ∨
            f.pHDU.bitpix = FLOAT_IMG) := by
          rintro (h | h | h)
          · exact hb.1 h
          · exact hb.2.1 h
          · exact hb.2.2 h
        rw [if_pos hb, if_neg (fun h => hnb h.2.2)]
        exact ⟨rfl, rfl, rfl⟩
      · have hyes : f.pHDU.bitpix = BYTE_IMG ∨ f.pHDU.bitpix = SHORT_IMG ∨
            f.pHDU.bitpix = FLOAT_IMG := by
          by_contra h
          exact hb ⟨fun h1 => h (Or.inl h1), fun h2 => h (Or.inr (Or.inl h2)),
            fun h3 => h (Or.inr (Or.inr h3))⟩
        rw [if_neg hb, if_pos ⟨hc, hpl, hyes⟩]
        exact ⟨hres, rfl, rfl⟩

/-- C13: with the incoming result `noErr` and the file open, `filterFile` leaves the
result `noErr` if and only if the axis count is 2 or 3, the plane count (third axis
length, or 1 for 2 axes) is not 2 and bitpix is `BYTE_IMG`, `SHORT_IMG` or `FLOAT_IMG`;
in every other case the result is `formatCannotRead`; the format record and the
plug-in's open file are as they were. -/
theorem C13_filterFile_compatible (p : Plugin) (f : FITS) (hres : p.result = noErr) :
    ((filterFile p true (.opened f)).result = noErr ↔
      (f.pHDU.axes = 2 ∨ f.pHDU.axes = 3) ∧ planeCount f.pHDU ≠ 2 ∧
      (f.pHDU.bitpix = BYTE_IMG ∨ f.pHDU.bitpix = SHORT_IMG ∨ f.pHDU.bitpix = FLOAT_IMG)) ∧
    (¬ ((f.pHDU.axes = 2 ∨ f.pHDU.axes = 3) ∧ planeCount f.pHDU ≠ 2 ∧
        (f.pHDU.bitpix = BYTE_IMG ∨ f.pHDU.bitpix = SHORT_IMG ∨ f.pHDU.bitpix = FLOAT_IMG)) →
      (filterFile p true (.opened f)).result = formatCannotRead) ∧
    (f.pHDU.axes = 3 → planeCount f.pHDU = f.pHDU.axisLen 2) ∧
    (f.pHDU.axes = 2 → planeCount f.pHDU = 1) ∧
    (filterFile p true (.opened f)).formatRecord = p.formatRecord ∧
    (filterFile p true (.opened f)).pFits = p.pFits := by
  obtain ⟨h1, h2, h3⟩ := filterFile_opened p f hres
  refine ⟨?_, ?_, fun h => by simp [planeCount, h], fun h => by simp [planeCount, h], h2, h3⟩
  · rw [h1]
    constructor
    · intro h
      by_contra hc
      rw [if_neg hc] at h
      exact absurd h (by decide)
    · intro h
      rw [if_pos h]
  · intro hc
    rw [h1, if_neg hc]

/-- C13 at a 3-plane 16-bit file (compatible) and at a 2-plane one (not compatible). -/
theorem C13_filterFile_compatible_witness :
    freshPlugin.result = noErr ∧
    (filterFile freshPlugin true (.opened (headerOnly 3 [4, 2, 3] 16 0 1))).result = noErr ∧
    (filterFile freshPlugin true (.opened (headerOnly 3 [4, 2, 2] 16 0 1))).result
      = formatCannotRead :=
  ⟨rfl,
   (C13_filterFile_compatible freshPlugin (headerOnly 3 [4, 2, 3] 16 0 1) rfl).1.mpr
     (by decide),
   (C13_filterFile_compatible freshPlugin (headerOnly 3 [4, 2, 2] 16 0 1) rfl).2.1
     (by decide)⟩

theorem classifyDepth_wide (fmt : Int) (isScaled : Bool)
    (h : fmt = LONG_IMG ∨ fmt = LONGLONG_IMG ∨ fmt = DOUBLE_IMG) :
    classifyDepth fmt isScaled = some (Depths.mk 64 32) := by
  rcases h with h | h | h <;> subst h <;> rfl

theorem classifyDepth_probe (fmt : Int) (isScaled : Bool)
    (h : fmt = BYTE_IMG ∨ fmt = SHORT_IMG ∨ fmt = FLOAT_IMG) :
    ∃ d, classifyDepth fmt isScaled = some d := by
  rcases h with h | h | h <;> subst h
  · exact ⟨_, rfl⟩
  · exact ⟨_, rfl⟩
  · exact ⟨_, rfl⟩

theorem axesError_none (axes : Int) (h : axes = 2 ∨ axes = 3) : axesError axes = none := by
  rcases h with h | h <;> simp [axesError, h]

/-- C15: for every header with 2 or 3 axes, plane count 1 or at least 3, and bitpix
`LONG_IMG`, `LONGLONG_IMG` or `DOUBLE_IMG`, `filterFile` ends with `formatCannotRead`
while the classifier of `readStart` accepts it with working depth 32 (and `readStart`,
past its seek, succeeds and stores that depth). -/
theorem C15_probe_decode_divergence (p q : Plugin) (f : FITS) (hres : p.result = noErr)
    (hax : f.pHDU.axes = 2 ∨ f.pHDU.axes = 3)
    (hpl : planeCount f.pHDU = 1 ∨ 3 ≤ planeCount f.pHDU)
    (hb : f.pHDU.bitpix = LONG_IMG ∨ f.pHDU.bitpix = LONGLONG_IMG ∨
      f.pHDU.bitpix = DOUBLE_IMG) :
    (filterFile p true (.opened f)).result = formatCannotRead ∧
    (classifyDepth f.pHDU.bitpix
      (decide (f.pHDU.zero ≠ 0 ∨ f.pHDU.scale ≠ 1))).map Depths.depth = some 32 ∧
    (readStart q noErr (.opened f)).result = noErr ∧
    (readStart q noErr (.opened f)).formatRecord.depth = 32 := by
  have hc := classifyDepth_wide f.pHDU.bitpix (decide (f.pHDU.zero ≠ 0 ∨ f.pHDU.scale ≠ 1)) hb
  obtain ⟨r1, -, r3, -⟩ := readStart_ok q f _ (axesError_none _ hax) hc hpl
  refine ⟨?_, by rw [hc]; rfl, r1, r3⟩
  rw [(filterFile_opened p f hres).1, if_neg]
  rintro ⟨-, -, h | h | h⟩ <;> rcases hb with hb | hb | hb <;> rw [hb] at h <;>
    exact absurd h (by decide)

/-- C15 at a 32-bit integer grayscale file. -/
theorem C15_probe_decode_divergence_witness :
    freshPlugin.result = noErr ∧
    (filterFile freshPlugin true (.opened (headerOnly 2 [4, 2] 32 0 1))).result
      = formatCannotRead ∧
    (readStart freshPlugin noErr (.opened (headerOnly 2 [4, 2] 32 0 1))).result = noErr ∧
    (readStart freshPlugin noErr (.opened (headerOnly 2 [4, 2] 32 0 1))).formatRecord.depth
      = 32 :=
  ⟨rfl,
   (C15_probe_decode_divergence freshPlugin freshPlugin (headerOnly 2 [4, 2] 32 0 1) rfl
     (by decide) (by decide) (by decide)).1,
   (C15_probe_decode_divergence freshPlugin freshPlugin (headerOnly 2 [4, 2] 32 0 1) rfl
     (by decide) (by decide) (by decide)).2.2⟩

theorem filterFile_accept_readStart (p q : Plugin) (f : FITS) (hres : p.result = noErr)
    (hacc : (filterFile p true (.opened f)).result = noErr)
    (hpos : 1 ≤ planeCount f.pHDU) :
    (readStart q noErr (.opened f)).result = noErr ∧
    ((readStart q noErr (.opened f)).formatRecord.depth = 8 ∨
      (readStart q noErr (.opened f)).formatRecord.depth = 32) ∧
    ((readStart q noErr (.opened f)).formatRecord.imageMode = plugInModeGrayScale ∨
      (readStart q noErr (.opened f)).formatRecord.imageMode = plugInModeRGBColor) := by
  rw [(filterFile_opened p f hres).1] at hacc
  by_cases hc : (f.pHDU.axes = 2 ∨ f.pHDU.axes = 3) ∧ planeCount f.pHDU ≠ 2 ∧
      (f.pHDU.bitpix = BYTE_IMG ∨ f.pHDU.bitpix = SHORT_IMG ∨ f.pHDU.bitpix = FLOAT_IMG)
  · obtain ⟨hax, hpl, hb⟩ := hc
    obtain ⟨d, hd⟩ := classifyDepth_probe f.pHDU.bitpix
      (decide (f.pHDU.zero ≠ 0 ∨ f.pHDU.scale ≠ 1)) hb
    have hpl' : planeCount f.pHDU = 1 ∨ 3 ≤ planeCount f.pHDU := by omega
    obtain ⟨r1, -, r3, -, -, -, r7⟩ := readStart_ok q f d (axesError_none _ hax) hd hpl'
    refine ⟨r1, ?_, ?_⟩
    · rw [r3]
      rcases classifyDepth_depth _ _ d hd with h | h
      · exact Or.inl h.1
      · exact Or.inr h.1
    · rw [r7]
      split
      · exact Or.inl rfl
      · exact Or.inr rfl
  · rw [if_neg hc] at hacc
    exact absurd hacc (by decide)

/-- C14 fails on a header with 3 axes whose third axis has length 0: `filterFile`
leaves `noErr` (the plane count 0 is not 2), and `readStart` on the same header fails
with `errReportString` at its plane rule, setting no depth. -/
theorem C14_zero_planes_pass_filter_only :
    (filterFile freshPlugin true (.opened (headerOnly 3 [4, 4, 0] 8 0 1))).result = noErr ∧
    planeCount (headerOnly 3 [4, 4, 0] 8 0 1).pHDU = 0 ∧
    (readStart freshPlugin noErr (.opened (headerOnly 3 [4, 4, 0] 8 0 1))).result
      = errReportString ∧
    (readStart freshPlugin noErr (.opened (headerOnly 3 [4, 4, 0] 8 0 1))).formatRecord.depth
      = 0 := by
  refine ⟨?_, ?_, ?_, ?_⟩ <;> with_unfolding_all decide

/-! ## `optionsStart` -/

theorem optionsStart_none (p : Plugin) (IDSAVE : Int) (modal : String → Int) :
    (optionsStart p none IDSAVE modal).shown = none ∧
    (optionsStart p none IDSAVE modal).plugin.result = p.result :=
  ⟨rfl, rfl⟩

theorem optionsStart_lossless (p : Plugin) (m : PhitsMetadata) (IDSAVE : Int)
    (modal : String → Int)
    (h : m.extensionNames.length = 0 ∧ ¬ m.isNormalized ∧ ¬ m.isConverted) :
    (optionsStart p (some m) IDSAVE modal).shown = none ∧
    (optionsStart p (some m) IDSAVE modal).plugin.result = p.result := by
  unfold optionsStart
  simp only []
  rw [if_pos h]
  exact ⟨rfl, rfl⟩

theorem optionsStart_lossy (p : Plugin) (m : PhitsMetadata) (IDSAVE : Int)
    (modal : String → Int)
    (h : ¬ (m.extensionNames.length = 0 ∧ ¬ m.isNormalized ∧ ¬ m.isConverted)) :
    (optionsStart p (some m) IDSAVE modal).shown = some (warnText m) ∧
    (optionsStart p (some m) IDSAVE modal).plugin.result
      = (if modal (warnText m) = IDSAVE then p.result else userCanceledErr) := by
  unfold optionsStart
  simp only []
  rw [if_neg h]
  by_cases hs : modal (warnText m) = IDSAVE
  · simp [DoSaveWarn, hs]
  · simp [DoSaveWarn, hs]

/-- C16: `optionsStart` shows the save warning (asks `DoSaveWarn`) if and only if
stored metadata exists and the save is lossy (`isConverted`, or `isNormalized`, or a
non-empty extension-name list), and then with the text `warnText`; its result is
`userCanceledErr` when the dialog was shown and returned anything other than `IDSAVE`,
and is the incoming result in every other case. -/
theorem C16_optionsStart_consults (p : Plugin) (pMeta : Option PhitsMetadata) (IDSAVE : Int)
    (modal : String → Int) :
    ((optionsStart p pMeta IDSAVE modal).shown.isSome = true ↔
      ∃ m, pMeta = some m ∧
        (m.isConverted = true ∨ m.isNormalized = true ∨ m.extensionNames ≠ [])) ∧
    (∀ text, (optionsStart p pMeta IDSAVE modal).shown = some text →
      (∃ m, pMeta = some m ∧ text = warnText m) ∧
      (modal text ≠ IDSAVE →
        (optionsStart p pMeta IDSAVE modal).plugin.result = userCanceledErr) ∧
      (modal text = IDSAVE →
        (optionsStart p pMeta IDSAVE modal).plugin.result = p.result)) ∧
    ((optionsStart p pMeta IDSAVE modal).shown = none →
      (optionsStart p pMeta IDSAVE modal).plugin.result = p.result) := by
  cases pMeta with
  | none =>
    obtain ⟨h1, h2⟩ := optionsStart_none p IDSAVE modal
    rw [h1]
    refine ⟨by simp, fun text h => (nomatch h), fun _ => h2⟩
  | some m =>
    by_cases h : m.extensionNames.length = 0 ∧ ¬ m.isNormalized ∧ ¬ m.isConverted
    · obtain ⟨h1, h2⟩ := optionsStart_lossless p m IDSAVE modal h
      rw [h1]
      refine ⟨?_, fun text h => (nomatch h), fun _ => h2⟩
      simp only [Option.isSome_none, Bool.false_eq_true, Option.some.injEq, false_iff,
        not_exists, not_and]
      rintro m' rfl (hc | hn | he)
      · exact h.2.2 hc
      · exact h.2.1 hn
      · exact he (List.length_eq_zero.mp h.1)
    · obtain ⟨h1, h2⟩ := optionsStart_lossy p m IDSAVE modal h
      rw [h1, h2]
      refine ⟨?_, ?_, fun hn => (nomatch hn)⟩
      · simp only [Option.isSome_some, Option.some.injEq, true_iff]
        refine ⟨m, rfl, ?_⟩
        by_contra hc
        apply h
        refine ⟨?_, ?_, ?_⟩
        · rw [List.length_eq_zero]
          by_contra he
          exact hc (Or.inr (Or.inr he))
        · intro hn
          exact hc (Or.inr (Or.inl hn))
        · intro hv
          exact hc (Or.inl hv)
      · intro text ht
        simp only [Option.some.injEq] at ht
        subst ht
        refine ⟨⟨m, rfl, rfl⟩, fun hne => by rw [if_neg hne], fun he => by rw [if_pos he]⟩

/-- C16 with a save button numbered 1: a converted image and a dialog answering 2
(cancelled), the same with the answer 1 (saved), and no stored metadata (not asked). -/
theorem C16_optionsStart_consults_witness :
    (optionsStart freshPlugin (some (convertedMeta 16 [])) 1 (fun _ => 2)).plugin.result
      = userCanceledErr ∧
    (optionsStart freshPlugin (some (convertedMeta 16 [])) 1 (fun _ => 1)).plugin.result
      = noErr ∧
    (optionsStart freshPlugin none 1 (fun _ => 2)).plugin.result = noErr := by
  have h2 := (C16_optionsStart_consults freshPlugin (some (convertedMeta 16 [])) 1
    (fun _ => 2)).2.1 _ rfl
  have h1 := (C16_optionsStart_consults freshPlugin (some (convertedMeta 16 [])) 1
    (fun _ => 1)).2.1 _ rfl
  exact ⟨h2.2.1 (by decide), h1.2.2 rfl,
    (C16_optionsStart_consults freshPlugin none 1 (fun _ => 2)).2.2 rfl⟩

/-! ## Keyword replay, progress and cancellation of `writeStart` -/

/-- C11, as amended: for every keyword stored in the metadata, the key `writeStart`
adds for it is a string key whose value is the stored value as text ("T"/"F" for a
logical keyword); its value type is the stored keyword's exactly when the stored
keyword is a string. -/
theorem C11_added_keys_are_strings (p : Plugin) (pMeta : PhitsMetadata)
    (allocOk : Bool) (raster : Nat → Nat → Nat → ℚ) (adv : Nat → Int)
    (hdepth : (storageType p.formatRecord.depth).isSome = true) :
    ∀ (i : Nat) (entry : String × Keyword), pMeta.keywordMap[i]? = some entry →
      ∃ key, (writeStart p noErr true true (some pMeta) allocOk raster adv).keys[i]? = some key ∧
        key.keytype = ValueType.Tstring ∧
        key.value = valString entry.2 ∧
        (key.keytype = entry.2.keytype ↔ entry.2.keytype = ValueType.Tstring) := by
  obtain ⟨⟨fmt, ds⟩, hst⟩ := Option.isSome_iff_exists.mp hdepth
  rw [(writeStart_created p (some pMeta) allocOk raster adv fmt ds hst).2]
  intro i entry hi
  refine ⟨AddedKey.mk entry.2.name (valString entry.2) entry.2.comment ValueType.Tstring,
    by simp [replayKeywords, hi], rfl, rfl, ?_⟩
  constructor
  · intro h
    exact h.symm
  · intro h
    exact h.symm

/-- C11 (amended) at a stored logical keyword `EXTEND = true`. -/
theorem C11_added_keys_are_strings_witness :
    (storageType (pluginFor 2 1 1 8).formatRecord.depth).isSome = true ∧
    ∃ key, (writeStart (pluginFor 2 1 1 8) noErr true true (some (logicalMeta true)) true
        (fun _ _ _ => 0) neverCancel).keys[0]? = some key ∧
      key.keytype = ValueType.Tstring ∧ key.value = "T" := by
  obtain ⟨key, h1, h2, h3, -⟩ := C11_added_keys_are_strings (pluginFor 2 1 1 8)
    (logicalMeta true) true (fun _ _ _ => 0) neverCancel rfl 0 _ rfl
  exact ⟨rfl, key, h1, h2, h3⟩

/-- C11 fails as stated: the stored keyword `EXTEND` is of logical type, and the key
`writeStart` adds for it is of string type. -/
theorem C11_counterexample_logical_keyword :
    (logicalMeta true).keywordMap.map (fun entry => entry.2.keytype)
      = [ValueType.Tlogical] ∧
    (writeStart (pluginFor 2 1 1 8) noErr true true (some (logicalMeta true)) true
      (fun _ _ _ => 0) neverCancel).keys.map AddedKey.keytype = [ValueType.Tstring] := by
  refine ⟨?_, ?_⟩ <;> with_unfolding_all decide

theorem writeStart_progress (p : Plugin) (pMeta : Option PhitsMetadata)
    (raster : Nat → Nat → Nat → ℚ) (adv : Nat → Int)
    (hdepth : (storageType p.formatRecord.depth).isSome = true) :
    ∃ K, K ≤ p.formatRecord.planes * p.formatRecord.imageSizeV ∧
      (writeStart p noErr true true pMeta true raster adv).progress =
        (List.range K).map
          (fun i => (i + 1, p.formatRecord.imageSizeH * p.formatRecord.imageSizeV)) ∧
      ((∀ k, adv k = noErr) → K = p.formatRecord.planes * p.formatRecord.imageSizeV) := by
  obtain ⟨⟨fmt, ds⟩, hst⟩ := Option.isSome_iff_exists.mp hdepth
  rw [writeStart_run p pMeta raster adv fmt ds hst]
  obtain ⟨K, hK, -, -, -, -, hprog, hcase⟩ := writeLoop_spec p.formatRecord.imageSizeH
    p.formatRecord.imageSizeV p.formatRecord.planes
    (p.formatRecord.imageSizeH * p.formatRecord.imageSizeV) raster adv
  refine ⟨K, hK, hprog, fun hadv => ?_⟩
  rcases hcase with ⟨-, hKn, -, -⟩ | ⟨hres, -, -, hlast, -⟩
  · exact hKn
  · exact absurd (hlast.trans (hadv _)) hres

/-- C19 fails on a raster 2 wide, 1 high, of 1 plane: the one progress callback of the
encode is `progressProc(1, 2)`, with the total `width * height = 2`, while
`height * planes = 1`. -/
theorem C19_progress_total_is_width_times_height :
    (writeStart (pluginFor 2 1 1 8) noErr true true none true (fun _ _ _ => 0)
      neverCancel).progress = [(1, 2)] ∧
    (pluginFor 2 1 1 8).formatRecord.imageSizeV * (pluginFor 2 1 1 8).formatRecord.planes
      = 1 := by
  refine ⟨?_, ?_⟩ <;> with_unfolding_all decide

theorem mem_mapInsert (k : String) (v : Keyword) (l : List (String × Keyword))
    (a : String × Keyword) (h : a ∈ mapInsert k v l) : a = (k, v) ∨ a ∈ l := by
  induction l with
  | nil =>
    simp only [mapInsert, List.mem_singleton] at h
    exact Or.inl h
  | cons e rest ih =>
    obtain ⟨k', v'⟩ := e
    unfold mapInsert at h
    split at h
    · rcases List.mem_cons.mp h with h | h
      · exact Or.inl h
      · exact Or.inr h
    · split at h
      · exact Or.inr h
      · rcases List.mem_cons.mp h with h | h
        · exact Or.inr (List.mem_cons.mpr (Or.inl h))
        · rcases ih h with h | h
          · exact Or.inl h
          · exact Or.inr (List.mem_cons.mpr (Or.inr h))

theorem mem_mapInsert_of_mem (k : String) (v : Keyword) (l : List (String × Keyword))
    (a : String × Keyword) (h : a ∈ l) : a ∈ mapInsert k v l := by
  induction l with
  | nil => cases h
  | cons e rest ih =>
    obtain ⟨k', v'⟩ := e
    unfold mapInsert
    split
    · exact List.mem_cons.mpr (Or.inr h)
    · split
      · exact h
      · rcases List.mem_cons.mp h with h | h
        · exact List.mem_cons.mpr (Or.inl h)
        · exact List.mem_cons.mpr (Or.inr (ih h))

theorem key_mem_mapInsert (k : String) (v : Keyword) (l : List (String × Keyword)) :
    k ∈ (mapInsert k v l).map Prod.fst := by
  induction l with
  | nil => simp [mapInsert]
  | cons e rest ih =>
    obtain ⟨k', v'⟩ := e
    unfold mapInsert
    split
    · simp
    · split
      · rename_i heq
        simp [heq]
      · simp only [List.map_cons, List.mem_cons]
        exact Or.inr ih

theorem mapInsert_sorted (k : String) (v : Keyword) (l : List (String × Keyword))
    (h : l.Pairwise (fun a b => a.1 < b.1)) :
    (mapInsert k v l).Pairwise (fun a b => a.1 < b.1) := by
  induction l with
  | nil => simp [mapInsert]
  | cons e rest ih =>
    obtain ⟨k', v'⟩ := e
    obtain ⟨hhead, htail⟩ := List.pairwise_cons.mp h
    unfold mapInsert
    split
    · rename_i hlt
      refine List.pairwise_cons.mpr ⟨?_, h⟩
      intro a ha
      rcases List.mem_cons.mp ha with ha | ha
      · rw [ha]; exact hlt
      · exact lt_trans hlt (hhead a ha)
    · rename_i hnlt
      split
      · exact h
      · rename_i hne
        have hgt : k' < k := lt_of_le_of_ne (not_lt.mp hnlt) (fun h => hne h.symm)
        refine List.pairwise_cons.mpr ⟨?_, ih htail⟩
        intro a ha
        rcases mem_mapInsert k v rest a ha with ha | ha
        · rw [ha]; exact hgt
        · exact hhead a ha

theorem foldl_mapInsert (l : List (String × Keyword)) : ∀ (m : List (String × Keyword)),
    m.Pairwise (fun a b => a.1 < b.1) →
    (l.foldl (fun m e => mapInsert e.1 e.2 m) m).Pairwise (fun a b => a.1 < b.1) ∧
    (∀ a, a ∈ l.foldl (fun m e => mapInsert e.1 e.2 m) m → a ∈ m ∨ a ∈ l) ∧
    (∀ a, a ∈ m → a ∈ l.foldl (fun m e => mapInsert e.1 e.2 m) m) ∧
    (∀ e, e ∈ l → e.1 ∈ (l.foldl (fun m e => mapInsert e.1 e.2 m) m).map Prod.fst) := by
  induction l with
  | nil =>
    intro m hm
    exact ⟨hm, fun a ha => Or.inl ha, fun a ha => ha, fun e he => nomatch he⟩
  | cons e rest ih =>
    intro m hm
    rw [List.foldl_cons]
    obtain ⟨h1, h2, h3, h4⟩ := ih (mapInsert e.1 e.2 m) (mapInsert_sorted _ _ _ hm)
    refine ⟨h1, ?_, ?_, ?_⟩
    · intro a ha
      rcases h2 a ha with h | h
      · rcases mem_mapInsert _ _ _ _ h with h | h
        · exact Or.inr (List.mem_cons.mpr (Or.inl h))
        · exact Or.inl h
      · exact Or.inr (List.mem_cons.mpr (Or.inr h))
    · intro a ha
      exact h3 a (mem_mapInsert_of_mem _ _ _ _ ha)
    · intro x hx
      rcases List.mem_cons.mp hx with hx | hx
      · subst hx
        obtain ⟨a, ha, hak⟩ := List.mem_map.mp (key_mem_mapInsert x.1 x.2 m)
        exact List.mem_map.mpr ⟨a, h3 a ha, hak⟩
      · exact h4 x hx

theorem foldl_keywordMap_eq (l : List (String × Keyword)) : ∀ (m : PhitsMetadata),
    (l.foldl (fun m entry =>
        { m with keywordMap := mapInsert entry.1 entry.2 m.keywordMap }) m).keywordMap
      = l.foldl (fun km e => mapInsert e.1 e.2 km) m.keywordMap := by
  induction l with
  | nil => intro m; rfl
  | cons e l ih =>
    intro m
    rw [List.foldl_cons, List.foldl_cons]
    exact ih _

theorem foldl_extensionNames_keywordMap (l : List String) : ∀ (m : PhitsMetadata),
    (l.foldl (fun m name =>
        { m with extensionNames := m.extensionNames ++ [name] }) m).keywordMap
      = m.keywordMap := by
  induction l with
  | nil => intro m; rfl
  | cons e l ih =>
    intro m
    rw [List.foldl_cons]
    exact ih _

theorem captureMetadata_keywordMap (f : FITS) :
    (captureMetadata f).keywordMap
      = f.pHDU.keyWord.foldl (fun km e => mapInsert e.1 e.2 km) [] := by
  unfold captureMetadata
  simp only []
  rw [foldl_extensionNames_keywordMap]
  exact foldl_keywordMap_eq f.pHDU.keyWord {}

/-- C12: when metadata is present, `writeStart` adds exactly one key per entry of the
stored keyword map, in map order, with that entry's name and comment; for a map filled
at decode time (`readContinue` inserting the header's keywords, whatever their order,
each under its own name) the names of the added keys are strictly ascending, every
header keyword's name is among them and each of them is a header keyword's name. -/
theorem C12_keys_in_map_order (p : Plugin) (f : FITS) (pMeta : PhitsMetadata)
    (allocOk : Bool) (raster : Nat → Nat → Nat → ℚ) (adv : Nat → Int)
    (hdepth : (storageType p.formatRecord.depth).isSome = true)
    (hmap : pMeta.keywordMap = (captureMetadata f).keywordMap)
    (hname : ∀ e, e ∈ f.pHDU.keyWord → e.2.name = e.1) :
    (writeStart p noErr true true (some pMeta) allocOk raster adv).keys.length
      = pMeta.keywordMap.length ∧
    (∀ (i : Nat) (entry : String × Keyword), pMeta.keywordMap[i]? = some entry →
      ∃ key, (writeStart p noErr true true (some pMeta) allocOk raster adv).keys[i]? = some key ∧
        key.name = entry.2.name ∧ key.comment = entry.2.comment) ∧
    ((writeStart p noErr true true (some pMeta) allocOk raster adv).keys.map
      AddedKey.name).Pairwise (fun a b => a < b) ∧
    (∀ e, e ∈ f.pHDU.keyWord →
      e.1 ∈ (writeStart p noErr true true (some pMeta) allocOk raster adv).keys.map
        AddedKey.name) ∧
    (∀ key, key ∈ (writeStart p noErr true true (some pMeta) allocOk raster adv).keys →
      ∃ e, e ∈ f.pHDU.keyWord ∧ key.name = e.1) := by
  obtain ⟨⟨fmt, ds⟩, hst⟩ := Option.isSome_iff_exists.mp hdepth
  rw [(writeStart_created p (some pMeta) allocOk raster adv fmt ds hst).2]
  obtain ⟨hsorted, hfrom, -, hkeys⟩ := foldl_mapInsert f.pHDU.keyWord [] List.Pairwise.nil
  rw [← captureMetadata_keywordMap, ← hmap] at hsorted hfrom hkeys
  have hnm : ∀ a, a ∈ pMeta.keywordMap → a.2.name = a.1 := by
    intro a ha
    rcases hfrom a ha with h | h
    · cases h
    · exact hname a h
  have hnames : (replayKeywords pMeta).map AddedKey.name = pMeta.keywordMap.map Prod.fst := by
    simp only [replayKeywords, List.map_map]
    apply List.map_congr_left
    intro a ha
    exact hnm a ha
  refine ⟨by simp [replayKeywords], fun i entry hi => ?_, ?_, ?_, ?_⟩
  · exact ⟨AddedKey.mk entry.2.name (valString entry.2) entry.2.comment ValueType.Tstring,
      by simp [replayKeywords, hi], rfl, rfl⟩
  · simp only []
    rw [hnames, List.pairwise_map]
    exact hsorted
  · intro e he
    simp only []
    rw [hnames]
    exact hkeys e he
  · intro key hkey
    simp only [replayKeywords, List.mem_map] at hkey
    obtain ⟨a, ha, rfl⟩ := hkey
    rcases hfrom a ha with h | h
    · cases h
    · exact ⟨a, h, hnm a ha⟩

/-- C12 at a header that lists `ZED` before `ALPHA`: the keys are added as `ALPHA`,
`ZED`. -/
theorem C12_keys_in_map_order_witness :
    (storageType (pluginFor 1 1 1 8).formatRecord.depth).isSome = true ∧
    (∀ e, e ∈ twoKeyFile.pHDU.keyWord → e.2.name = e.1) ∧
    (writeStart (pluginFor 1 1 1 8) noErr true true (some (captureMetadata twoKeyFile)) true
      (fun _ _ _ => 0) neverCancel).keys.map AddedKey.name = ["ALPHA", "ZED"] ∧
    ((writeStart (pluginFor 1 1 1 8) noErr true true (some (captureMetadata twoKeyFile)) true
      (fun _ _ _ => 0) neverCancel).keys.map AddedKey.name).Pairwise (fun a b => a < b) := by
  have hname : ∀ e, e ∈ twoKeyFile.pHDU.keyWord → e.2.name = e.1 := by
    intro e he
    simp only [twoKeyFile, List.mem_cons, List.mem_singleton, List.not_mem_nil, or_false] at he
    rcases he with h | h <;> subst h <;> rfl
  refine ⟨rfl, hname, by with_unfolding_all decide,
    (C12_keys_in_map_order (pluginFor 1 1 1 8) twoKeyFile (captureMetadata twoKeyFile) true
      (fun _ _ _ => 0) neverCancel rfl rfl hname).2.2.1⟩

/-! ## The warning text -/

theorem quotedThenComma_append (a b : List String) :
    quotedThenComma (a ++ b) = quotedThenComma a ++ quotedThenComma b := by
  induction a with
  | nil => simp [quotedThenComma]
  | cons x rest ih =>
    rw [List.cons_append, quotedThenComma, quotedThenComma, ih]
    simp only [String.append_assoc]

theorem quotedList_concat (init : List String) (last : String) :
    quotedList (init ++ [last]) = quotedThenComma init ++ ("'" ++ last ++ "'") := by
  induction init with
  | nil => simp [quotedList, quotedThenComma]
  | cons x rest ih =>
    cases rest with
    | nil => simp [quotedList, quotedThenComma, String.append_assoc]
    | cons y r =>
      simp only [List.cons_append] at ih ⊢
      rw [quotedList, ih]
      simp only [quotedThenComma, String.append_assoc]

theorem appendQuoted_loop (init : List String) (last : String) (s0 : String) :
    ∀ i, i ≤ init.length →
      forLoop (appendQuoted (init ++ [last])) i s0 = s0 ++ quotedThenComma (init.take i) := by
  intro i
  induction i with
  | zero => intro _; simp [forLoop, quotedThenComma]
  | succ i ih =>
    intro hi
    have hlt : i < init.length := hi
    rw [forLoop, ih (Nat.le_of_lt hlt)]
    have hget : (init ++ [last]).getD i "" = init[i] := by
      rw [List.getD_append _ _ _ _ hlt, List.getD_eq_getElem _ _ hlt]
    have htake : init.take (i + 1) = init.take i ++ [init[i]] := by
      rw [List.take_succ, List.getElem?_eq_getElem hlt]
      rfl
    simp only [appendQuoted, hget, List.length_append, List.length_singleton,
      Nat.add_sub_cancel]
    rw [if_pos hlt, htake, quotedThenComma_append]
    simp only [quotedThenComma, String.append_assoc, String.append_empty]

theorem appendQuoted_all (names : List String) (s0 : String) (h : names ≠ []) :
    forLoop (appendQuoted names) names.length s0 = s0 ++ quotedList names := by
  obtain ⟨init, last, rfl⟩ : ∃ init last, names = init ++ [last] :=
    ⟨names.dropLast, names.getLast h, (List.dropLast_append_getLast h).symm⟩
  have hlen : (init ++ [last]).length = init.length + 1 := by simp
  rw [hlen, forLoop, appendQuoted_loop init last s0 init.length (le_refl _)]
  have hget : (init ++ [last]).getD init.length "" = last := by
    simp [List.getD_eq_getElem?_getD]
  simp only [appendQuoted, hget, hlen, Nat.add_sub_cancel, lt_irrefl, if_false,
    List.take_length, quotedList_concat, String.append_assoc]

theorem extensionText_one (x : String) :
    extensionText [x] = " original FITS file contained extra data in "
      ++ ("an extension named '" ++ x ++ "'" ++ ". This additional data will not be saved.") := by
  simp [extensionText, String.append_assoc]

theorem extensionText_many (names : List String) (h : 2 ≤ names.length) :
    extensionText names = " original FITS file contained extra data in "
      ++ ("extensions named " ++ quotedList names
        ++ ". This additional data will not be saved.") := by
  have hne : names ≠ [] := by
    intro h0
    rw [h0] at h
    simp at h
  unfold extensionText
  simp only []
  rw [if_pos (by omega), if_neg (by omega), appendQuoted_all names _ hne]
  simp only [String.append_assoc, String.empty_append]

theorem extensionText_nil : extensionText [] = "" := rfl

theorem ne_empty_of_length_pos (s : String) (h : 0 < s.length) : s ≠ "" := by
  intro h0
  subst h0
  simp at h

theorem extensionText_ne_empty (names : List String) (h : names ≠ []) :
    extensionText names ≠ "" := by
  apply ne_empty_of_length_pos
  have hpos : 0 < names.length := List.length_pos.mpr h
  unfold extensionText
  simp only []
  rw [if_pos hpos, String.length_append]
  have : 0 < ". This additional data will not be saved.".length := by decide
  omega

theorem leadText_converted (m : PhitsMetadata) (h : m.isConverted = true) :
    leadText m = "The " ++ toString m.inputDepth ++ "-bit "
      ++ (if m.bitpix < 0 then "floating-point" else "integer")
      ++ " data from the original FITS file has been converted to 32-bit floating-point"
      ++ " data in the [0,1] range, and will be saved as a FITS FLOAT_IMG.\n\r" := by
  unfold leadText
  simp only [h, if_true, String.empty_append]

theorem leadText_normalized (m : PhitsMetadata) (hc : m.isConverted = false)
    (hn : m.isNormalized = true) :
    leadText m = "The floating-point data from the the original FITS file has been normalized to the [0,1] range.\n\r" := by
  unfold leadText
  simp only [hc, hn, if_true, String.empty_append, Bool.false_eq_true, if_false]

theorem leadText_neither (m : PhitsMetadata) (hc : m.isConverted = false)
    (hn : m.isNormalized = false) : leadText m = "" := by
  unfold leadText
  simp only [hc, hn, Bool.false_eq_true, if_false]

theorem warnText_of_lead (m : PhitsMetadata) (h : leadText m ≠ "") :
    warnText m = leadText m ++ (if m.extensionNames = [] then ""
      else "\n\rIn addition, the " ++ extensionText m.extensionNames) := by
  unfold warnText
  simp only []
  rw [if_neg h]
  by_cases he : m.extensionNames = []
  · rw [he, if_pos rfl, extensionText_nil, if_neg (by simp), String.append_empty]
  · rw [if_neg he, if_pos (extensionText_ne_empty _ he)]

theorem leadText_converted_ne (m : PhitsMetadata) (h : m.isConverted = true) :
    leadText m ≠ "" := by
  apply ne_empty_of_length_pos
  rw [leadText_converted m h, String.length_append]
  have : 0 < " data in the [0,1] range, and will be saved as a FITS FLOAT_IMG.\n\r".length := by
    decide
  omega

theorem tryRead_fields (p : Plugin) (f : FITS) (adv : Nat → Int) :
    (tryRead p f adv).1.bitpix = f.pHDU.bitpix ∧
    (tryRead p f adv).1.inputDepth = f.pHDU.bitpix.natAbs ∧
    (tryRead p f adv).1.extensionNames = f.extensionNames := by
  obtain ⟨c1, c2, c3, -, -⟩ := captureMetadata_fields f
  unfold tryRead
  simp only []
  split
  · split <;> exact ⟨c1, c3, c2⟩
  · exact ⟨c1, c3, c2⟩

theorem readContinue_pMeta_fields (p : Plugin) (f : FITS) (allocOk : Bool) (adv : Nat → Int)
    (m : PhitsMetadata) (h : (readContinue p f allocOk adv).pMeta = some m) :
    m.bitpix = f.pHDU.bitpix ∧ m.inputDepth = f.pHDU.bitpix.natAbs ∧
    m.extensionNames = f.extensionNames := by
  obtain ⟨t1, t2, t3⟩ := tryRead_fields p f adv
  cases allocOk with
  | false => simp [readContinue] at h
  | true =>
    have hro : readContinue p f true adv
        = afterRead p (tryRead p f adv).1 (tryRead p f adv).2 adv := by
      simp [readContinue]
    rw [hro] at h
    cases hth : (tryRead p f adv).2.thrown with
    | some msg =>
      simp only [afterRead, hth, Option.some.injEq] at h
      subst h
      exact ⟨t1, t2, t3⟩
    | none =>
      simp only [afterRead, hth, Option.some.injEq] at h
      subst h
      exact ⟨t1, t2, t3⟩

/-- C17: when `isConverted` is set the warning text is 'The N-bit K data from the
original FITS file has been converted to 32-bit floating-point data in the [0,1] range,
and will be saved as a FITS FLOAT_IMG.' with N the stored `inputDepth` and K
'floating-point' for a negative bitpix and 'integer' otherwise, followed only by the
extension part (if there are extensions); the text is then the same whatever
`isNormalized` is.  When `isConverted` is clear and `isNormalized` is set the text
begins with the normalisation sentence instead.  In the metadata a decode stores,
`inputDepth` is `|bitpix|` of the file. -/
theorem C17_warning_lead (m : PhitsMetadata) :
    (m.isConverted = true →
      warnText m = "The " ++ toString m.inputDepth ++ "-bit "
        ++ (if m.bitpix < 0 then "floating-point" else "integer")
        ++ " data from the original FITS file has been converted to 32-bit floating-point"
        ++ " data in the [0,1] range, and will be saved as a FITS FLOAT_IMG.\n\r"
        ++ (if m.extensionNames = [] then ""
            else "\n\rIn addition, the " ++ extensionText m.extensionNames) ∧
      ∀ b, warnText { m with isNormalized := b } = warnText m) ∧
    (m.isConverted = false → m.isNormalized = true →
      warnText m = "The floating-point data from the the original FITS file has been normalized to the [0,1] range.\n\r"
        ++ (if m.extensionNames = [] then ""
            else "\n\rIn addition, the " ++ extensionText m.extensionNames)) ∧
    (m.isConverted = true ∨ m.isNormalized = true →
      ∀ (p : Plugin) (IDSAVE : Int) (modal : String → Int),
        (optionsStart p (some m) IDSAVE modal).shown = some (warnText m)) ∧
    (∀ (p : Plugin) (f : FITS) (allocOk : Bool) (adv : Nat → Int),
      (readContinue p f allocOk adv).pMeta = some m →
      m.inputDepth = f.pHDU.bitpix.natAbs ∧ m.bitpix = f.pHDU.bitpix) := by
  refine ⟨fun hc => ⟨?_, fun b => ?_⟩, fun hc hn => ?_, fun h p IDSAVE modal => ?_,
    fun p f allocOk adv h => ?_⟩
  · rw [warnText_of_lead m (leadText_converted_ne m hc), leadText_converted m hc]
  · rw [warnText_of_lead m (leadText_converted_ne m hc),
      warnText_of_lead _ (leadText_converted_ne { m with isNormalized := b } hc),
      leadText_converted m hc, leadText_converted { m with isNormalized := b } hc]
  · have hne : leadText m ≠ "" := by
      rw [leadText_normalized m hc hn]
      decide
    rw [warnText_of_lead m hne, leadText_normalized m hc hn]
  · refine (optionsStart_lossy p m IDSAVE modal ?_).1
    rintro ⟨-, hn, hc⟩
    rcases h with h | h
    · exact hc h
    · exact hn h
  · obtain ⟨h1, h2, -⟩ := readContinue_pMeta_fields p f allocOk adv m h
    exact ⟨h2, h1⟩

/-- C17 at the metadata of a converted 64-bit float image and of a converted 16-bit
integer image. -/
theorem C17_warning_lead_witness :
    warnText (convertedMeta (-64) []) = "The 64-bit floating-point data from the original FITS file has been converted to 32-bit floating-point data in the [0,1] range, and will be saved as a FITS FLOAT_IMG.\n\r" ∧
    warnText (convertedMeta 16 []) = "The 16-bit integer data from the original FITS file has been converted to 32-bit floating-point data in the [0,1] range, and will be saved as a FITS FLOAT_IMG.\n\r" := by
  constructor
  · rw [((C17_warning_lead (convertedMeta (-64) [])).1 rfl).1]
    rfl
  · rw [((C17_warning_lead (convertedMeta 16 [])).1 rfl).1]
    rfl

theorem warnText_extensions (m : PhitsMetadata) (h : m.extensionNames ≠ []) :
    warnText m = (if leadText m = "" then "The " else leadText m ++ "\n\rIn addition, the ")
      ++ extensionText m.extensionNames := by
  by_cases hl : leadText m = ""
  · unfold warnText
    simp only []
    rw [if_pos hl, if_pos hl]
  · rw [warnText_of_lead m hl, if_neg h, if_neg hl, String.append_assoc]

/-- C18: for stored metadata with exactly one extension name X the warning text is a
head ('The ', or the lead sentence and 'In addition, the '), then ' original FITS file
contained extra data in an extension named 'X'', then '. This additional data will not
be saved.'; for two or more names X1..Xn the middle part is 'extensions named 'X1',
'X2', ..., 'Xn'' (each name in single quotes, in stored order, separated by ', ', no
separator after the last); this is the text `optionsStart` shows. -/
theorem C18_extension_warning (m : PhitsMetadata) :
    (∀ x, m.extensionNames = [x] →
      warnText m = (if leadText m = "" then "The " else leadText m ++ "\n\rIn addition, the ")
        ++ (" original FITS file contained extra data in "
          ++ ("an extension named '" ++ x ++ "'"
            ++ ". This additional data will not be saved."))) ∧
    (2 ≤ m.extensionNames.length →
      warnText m = (if leadText m = "" then "The " else leadText m ++ "\n\rIn addition, the ")
        ++ (" original FITS file contained extra data in "
          ++ ("extensions named " ++ quotedList m.extensionNames
            ++ ". This additional data will not be saved."))) ∧
    (m.extensionNames ≠ [] →
      ∀ (p : Plugin) (IDSAVE : Int) (modal : String → Int),
        (optionsStart p (some m) IDSAVE modal).shown = some (warnText m)) := by
  refine ⟨fun x hx => ?_, fun h2 => ?_, fun hne p IDSAVE modal => ?_⟩
  · rw [warnText_extensions m (by rw [hx]; simp), hx, extensionText_one]
  · have hne : m.extensionNames ≠ [] := by
      intro h0
      rw [h0] at h2
      simp at h2
    rw [warnText_extensions m hne, extensionText_many _ h2]
  · refine (optionsStart_lossy p m IDSAVE modal ?_).1
    rintro ⟨h0, -, -⟩
    exact hne (List.length_eq_zero.mp h0)

/-- C18 at the extension lists `['WEIGHTS']` and `['A', 'B']`. -/
theorem C18_extension_warning_witness :
    warnText (extensionMeta ["WEIGHTS"]) = "The  original FITS file contained extra data in an extension named 'WEIGHTS'. This additional data will not be saved." ∧
    warnText (extensionMeta ["A", "B"]) = "The  original FITS file contained extra data in extensions named 'A', 'B'. This additional data will not be saved." ∧
    quotedList ["A", "B"] = "'A', 'B'" := by
  refine ⟨?_, ?_, rfl⟩
  · rw [(C18_extension_warning (extensionMeta ["WEIGHTS"])).1 "WEIGHTS" rfl]
    rfl
  · rw [(C18_extension_warning (extensionMeta ["A", "B"])).2.1 (by decide)]
    rfl

/-! ## The input bit count of `readStart` -/

theorem classifyDepth_inDepth_fallthrough (fmt : Int) (isScaled : Bool)
    (h : fmt = FLOAT_IMG ∨ fmt = LONG_IMG) :
    classifyDepth fmt isScaled = some (Depths.mk 64 32) := by
  rcases h with h | h <;> subst h <;> rfl

/-- C22 fails for `FLOAT_IMG` and `LONG_IMG`: the statements `inDepth = 32; depth = 32;`
under `case FLOAT_IMG: case LONG_IMG:` are not followed by a `break`, so control runs
on into `case LONGLONG_IMG: case DOUBLE_IMG:` and the input bit count ends as 64 (with
working depth 32); that is the count `readStart` reports in its log line.  The other
rows of the table hold: 64 for `LONGLONG_IMG` and `DOUBLE_IMG`, 16 for `SHORT_IMG`,
8 for `BYTE_IMG`. -/
theorem C22_float_and_long_input_depth_64 :
    (∀ isScaled, classifyDepth FLOAT_IMG isScaled = some (Depths.mk 64 32)) ∧
    (∀ isScaled, classifyDepth LONG_IMG isScaled = some (Depths.mk 64 32)) ∧
    (readStart freshPlugin noErr (.opened (headerOnly 2 [4, 4] FLOAT_IMG 0 1))).result
      = noErr ∧
    (readStart freshPlugin noErr (.opened (headerOnly 2 [4, 4] FLOAT_IMG 0 1))).logged
      = ["readStart", "Resolution: 4x4x1, 2 axes",
         "Input depth: 64 bits per channel, editing depth: 32 bits per channel.",
         "readStart end."] ∧
    (readStart freshPlugin noErr (.opened (headerOnly 2 [4, 4] LONG_IMG 0 1))).logged
      = ["readStart", "Resolution: 4x4x1, 2 axes",
         "Input depth: 64 bits per channel, editing depth: 32 bits per channel.",
         "readStart end."] ∧
    (∀ isScaled, (classifyDepth LONGLONG_IMG isScaled).map Depths.inDepth = some 64) ∧
    (∀ isScaled, (classifyDepth DOUBLE_IMG isScaled).map Depths.inDepth = some 64) ∧
    (∀ isScaled, (classifyDepth SHORT_IMG isScaled).map Depths.inDepth = some 16) ∧
    (∀ isScaled, (classifyDepth BYTE_IMG isScaled).map Depths.inDepth = some 8) := by
  refine ⟨fun _ => rfl, fun _ => rfl, ?_, ?_, ?_, fun _ => rfl, fun _ => rfl, fun _ => rfl,
    fun _ => rfl⟩
  · with_unfolding_all decide
  · with_unfolding_all decide
  · with_unfolding_all decide

/-! ## Cancellation of `readContinue` -/

theorem readContinue_read_cancel_overwritten (p : Plugin) (f : FITS) (adv : Nat → Int)
    (hd : p.formatRecord.depth = 32) (hf : ∀ k, f.readFault k = none)
    (hn : 2 ≤ p.formatRecord.planes * p.formatRecord.imageSizeV)
    (hlater : ∀ k, 1 ≤ k → adv k = noErr) :
    (readContinue p f true adv).plugin.result = noErr ∧
    (readContinue p f true adv).calls
      = 2 * (p.formatRecord.planes * p.formatRecord.imageSizeV) ∧
    (readContinue p f true adv).deliveries.length
      = p.formatRecord.planes * p.formatRecord.imageSizeV := by
  obtain ⟨r1, r2, -, r4, r5, -, -, r8⟩ := readPass_spec f p.formatRecord.imageSizeH
    p.formatRecord.imageSizeV p.formatRecord.planes
    (2 * p.formatRecord.imageSizeV * p.formatRecord.planes) adv
    { result := p.result,
      progress := [(0, 2 * p.formatRecord.imageSizeV * p.formatRecord.planes)] } hf rfl rfl
  have hro : readContinue p f true adv
      = afterRead p (tryRead p f adv).1 (tryRead p f adv).2 adv := by
    simp [readContinue]
  rw [hro, tryRead_float p f adv hd]
  simp only []
  rw [afterRead_float p _ _ adv hd r1]
  simp only []
  generalize readPass f p.formatRecord.imageSizeH p.formatRecord.imageSizeV
    p.formatRecord.planes (2 * p.formatRecord.imageSizeV * p.formatRecord.planes) adv
    { result := p.result,
      progress := [(0, 2 * p.formatRecord.imageSizeV * p.formatRecord.planes)] } = s at *
  have hs : s.result = noErr := by
    rw [r8, if_neg (by omega)]
    exact hlater _ (by simp only []; omega)
  obtain ⟨-, K, -, k2, k3, k4, k5⟩ := copyPass_spec 32 p.formatRecord.imageSizeH
    p.formatRecord.imageSizeV p.formatRecord.planes
    (2 * p.formatRecord.imageSizeV * p.formatRecord.planes)
    (chooseNormalization (minMaxPass s.contents p.formatRecord.imageSizeH
      p.formatRecord.imageSizeV p.formatRecord.planes)) adv s r5 r4
  have hres : (copyPass 32 p.formatRecord.imageSizeH
      p.formatRecord.imageSizeV p.formatRecord.planes
      (2 * p.formatRecord.imageSizeV * p.formatRecord.planes)
      (chooseNormalization (minMaxPass s.contents p.formatRecord.imageSizeH
        p.formatRecord.imageSizeV p.formatRecord.planes)) adv s).result = noErr := by
    by_contra hne
    rcases k5 hne with ⟨-, h⟩ | ⟨hK, h⟩
    · exact hne (h.trans hs)
    · rw [h] at hne
      exact hne (hlater _ (by rw [r2]; simp only []; omega))
  have hK := k4 hres
  refine ⟨hres, ?_, ?_⟩
  · rw [k3, r2, hK]
    simp only []
    omega
  · rw [k2, List.length_map, List.length_range, hK]

/-- C21 fails in the scanline read pass: the read loop stores what `advanceState`
returns in `*m_result` after every scanline and neither tests it nor leaves the loop.
On a 1 x 2 float image whose host cancels at the first boundary (call 0) and returns
`noErr` afterwards, the second scanline is still read (call 1), the stored code is
overwritten with `noErr`, the copy pass then delivers both scanlines (calls 2 and 3),
and `readContinue` ends with `noErr`.  With a host that cancels at every call the
second scanline is read all the same (two calls, two progress reports after the
initial one) before the decode ends with the code.  Cancelled at the last read
boundary (call 1), or at a boundary of the copy pass (call 2), the decode stops and
ends with the code. -/
theorem C21_read_pass_cancellation_lost :
    cancelAt 0 0 = userCanceledErr ∧
    (readContinue (pluginFor 1 2 1 32) (floatFile 1 2 1 [1 / 4, 1 / 2]) true
      (cancelAt 0)).plugin.result = noErr ∧
    (readContinue (pluginFor 1 2 1 32) (floatFile 1 2 1 [1 / 4, 1 / 2]) true
      (cancelAt 0)).calls = 4 ∧
    (readContinue (pluginFor 1 2 1 32) (floatFile 1 2 1 [1 / 4, 1 / 2]) true
      (cancelAt 0)).progress = [(0, 4), (1, 4), (2, 4), (3, 4), (4, 4)] ∧
    (readContinue (pluginFor 1 2 1 32) (floatFile 1 2 1 [1 / 4, 1 / 2]) true
      (cancelAt 0)).deliveries.map (fun d => (d.plane, d.row, d.scanline))
      = [(0, 0, [some (1 / 4)]), (0, 1, [some (1 / 2)])] ∧
    (readContinue (pluginFor 1 2 1 32) (floatFile 1 2 1 [1 / 4, 1 / 2]) true
      (fun _ => userCanceledErr)).plugin.result = userCanceledErr ∧
    (readContinue (pluginFor 1 2 1 32) (floatFile 1 2 1 [1 / 4, 1 / 2]) true
      (fun _ => userCanceledErr)).calls = 2 ∧
    (readContinue (pluginFor 1 2 1 32) (floatFile 1 2 1 [1 / 4, 1 / 2]) true
      (fun _ => userCanceledErr)).progress = [(0, 4), (1, 4), (2, 4)] ∧
    (readContinue (pluginFor 1 2 1 32) (floatFile 1 2 1 [1 / 4, 1 / 2]) true
      (cancelAt 1)).plugin.result = userCanceledErr ∧
    (readContinue (pluginFor 1 2 1 32) (floatFile 1 2 1 [1 / 4, 1 / 2]) true
      (cancelAt 1)).calls = 2 ∧
    (readContinue (pluginFor 1 2 1 32) (floatFile 1 2 1 [1 / 4, 1 / 2]) true
      (cancelAt 2)).plugin.result = userCanceledErr ∧
    (readContinue (pluginFor 1 2 1 32) (floatFile 1 2 1 [1 / 4, 1 / 2]) true
      (cancelAt 2)).calls = 3 := by
  refine ⟨by decide, ?_, ?_, ?_, ?_, ?_, ?_, ?_, ?_, ?_, ?_, ?_⟩ <;>
    with_unfolding_all decide

/-! ## The error string -/

theorem copy_eq_stores (src : List Char) : ∀ (dst : Nat) (mem : List Char),
    copy src dst mem = (copyStores src dst).foldl (fun m s => m.set s.1 s.2) mem := by
  induction src with
  | nil => intro dst mem; rfl
  | cons c cs ih =>
    intro dst mem
    simp only [copy, copyStores, List.foldl_cons]
    exact ih (dst + 1) _

theorem setErrorString_eq_stores (p : Plugin) (str : String) (buf : List Char)
    (hslot : p.formatRecord.errorString = some buf) :
    (setErrorString p str).formatRecord.errorString
      = some ((setErrorStringStores true str).foldl (fun m s => m.set s.1 s.2) buf) := by
  unfold setErrorString setErrorStringStores
  simp only [hslot, Bool.not_true, Bool.false_or, decide_eq_true_eq]
  split
  · exact hslot
  · simp only [log, List.foldl_cons]
    rw [copy_eq_stores]

theorem copyStores_append (a b : List Char) : ∀ (dst : Nat),
    copyStores (a ++ b) dst = copyStores a dst ++ copyStores b (dst + a.length) := by
  induction a with
  | nil => intro dst; simp [copyStores]
  | cons c cs ih =>
    intro dst
    have h := ih (dst + 1)
    have hl : dst + 1 + cs.length = dst + (cs.length + 1) := by omega
    rw [hl] at h
    rw [List.cons_append, copyStores, copyStores, h, List.length_cons, List.cons_append]

theorem copyStores_positions (src : List Char) : ∀ (dst : Nat),
    (copyStores src dst).map Prod.fst = (List.range src.length).map (fun i => dst + i) := by
  induction src with
  | nil => intro dst; rfl
  | cons c cs ih =>
    intro dst
    simp only [copyStores, List.map_cons, ih, List.length_cons, List.range_succ_eq_map,
      List.map_map]
    congr 1
    · apply List.map_congr_left
      intro i _
      simp only [Function.comp]
      omega

theorem take_c_str (str : String) (h : str.length ≤ 255) :
    (c_str str).take (str.length % 256 + 1) = c_str str := by
  rw [Nat.mod_eq_of_lt (by omega)]
  apply List.take_of_length_le
  have hdata : str.data.length = str.length := rfl
  simp [c_str, hdata]

theorem setErrorStringStores_short (str : String) (h : str.length ≤ 255) :
    setErrorStringStores true str
      = (0, Char.ofNat str.length) :: (copyStores str.data 1
          ++ [(str.length + 1, Char.ofNat 0)]) := by
  have hdata : str.data.length = str.length := rfl
  unfold setErrorStringStores
  rw [if_neg (by simp; omega)]
  simp only []
  rw [take_c_str str h, Nat.mod_eq_of_lt (by omega), c_str, copyStores_append, hdata,
    Nat.add_comm 1 str.length]
  rfl

theorem setErrorStringStores_long (slot : Bool) (str : String) (h : 255 < str.length) :
    setErrorStringStores slot str = [] := by
  unfold setErrorStringStores
  rw [if_pos (by simp [h])]

theorem setErrorStringStores_positions (str : String) (h : str.length ≤ 255) :
    (setErrorStringStores true str).map Prod.fst = List.range (str.length + 2) := by
  have hdata : str.data.length = str.length := rfl
  rw [setErrorStringStores_short str h]
  simp only [List.map_cons, List.map_append, copyStores_positions, List.map_nil, hdata]
  rw [List.range_succ_eq_map (str.length + 1), List.range_succ, List.map_append]
  simp only [List.map_cons, List.map_nil, List.cons.injEq, true_and]
  congr 1
  · apply List.map_congr_left
    intro i _
    omega

theorem setErrorStringStores_in_bounds (str : String) (h : str.length < 255) :
    ∀ s, s ∈ setErrorStringStores true str → s.1 < Str255Size := by
  intro s hs
  have hmem : s.1 ∈ (setErrorStringStores true str).map Prod.fst := List.mem_map_of_mem _ hs
  rw [setErrorStringStores_positions str (by omega), List.mem_range] at hmem
  unfold Str255Size
  omega

theorem setErrorStringStores_last (str : String) (h : str.length ≤ 255) :
    (setErrorStringStores true str).getLast? = some (str.length + 1, Char.ofNat 0) := by
  rw [setErrorStringStores_short str h, ← List.cons_append, List.getLast?_append]
  rfl

/-- C24 fails for a message of exactly 255 bytes: the guard of `setErrorString` lets
sizes up to 255 through, and `copy` then stores `strLen + 1 = 256` bytes from
`errStr + 1` on, so `setErrorString` stores to the positions 0 .. 256 of `errStr` and
the terminator it copies goes to position 256, one past the last byte (255) of the
256-byte `Str255`. -/
theorem C24_terminator_stored_past_buffer :
    (String.mk (List.replicate 255 'a')).length = 255 ∧
    (setErrorStringStores true (String.mk (List.replicate 255 'a'))).map Prod.fst
      = List.range 257 ∧
    (setErrorStringStores true (String.mk (List.replicate 255 'a'))).getLast?
      = some (256, Char.ofNat 0) ∧
    ¬ 256 < Str255Size := by
  have hlen : (String.mk (List.replicate 255 'a')).length = 255 := List.length_replicate _ _
  refine ⟨hlen, ?_, ?_, by decide⟩
  · rw [setErrorStringStores_positions _ (le_of_eq hlen), hlen]
  · rw [setErrorStringStores_last _ (le_of_eq hlen), hlen]

theorem setErrorString_long (p : Plugin) (str : String) (h : 255 < str.length) :
    setErrorString p str = p := by
  unfold setErrorString
  split
  · rfl
  · rw [if_pos h]

theorem setErrorString_short (p : Plugin) (str : String) (buf : List Char)
    (hslot : p.formatRecord.errorString = some buf) (hbuf : buf.length = 256)
    (hstr : str.length ≤ 255) :
    ∃ out, (setErrorString p str).formatRecord.errorString = some out ∧
      out.length = 256 ∧ out.head? = some (Char.ofNat str.length) ∧
      (out.drop 1).take str.length = str.data ∧ pstring out = str := by
  cases buf with
  | nil => simp at hbuf
  | cons b rest =>
    have hrest : rest.length = 255 := by simpa using hbuf
    have hmod : str.length % 256 = str.length := Nat.mod_eq_of_lt (by omega)
    have hdata : str.data.length = str.length := rfl
    have hbody : (copy (c_str str) 0 rest).take str.length = str.data := by
      simp only [copy_zero, c_str]
      rw [List.take_take, Nat.min_eq_left (by omega), List.append_assoc,
        List.take_append_of_le_length (by omega), List.take_of_length_le (by omega)]
    refine ⟨Char.ofNat str.length :: copy (c_str str) 0 rest, ?_, ?_, rfl, ?_, ?_⟩
    · simp only [setErrorString, hslot]
      rw [if_neg (by omega)]
      simp only [log, hmod, take_c_str str hstr, List.set_cons_zero]
      rw [← hmod, take_c_str str hstr, hmod, copy_cons_succ]
    · simp [copy_zero, c_str, hdata]
      omega
    · simpa using hbody
    · simp only [pstring, toNat_ofNat_of_le _ hstr, hbody]

/-- C23 (as amended): while the host's error-string slot is non-null (a 256-byte
`Str255`), `setErrorString` surfaces a message `m` of at most 255 bytes whole: the slot
then holds the length byte `|m|` followed by the bytes of `m`.  A message of more than
255 bytes is not surfaced at all: `setErrorString` returns at its size guard and
leaves the slot (and everything else) as it was. -/
theorem C23_setErrorString_size_guard (p : Plugin) (m : String) (buf : List Char)
    (hslot : p.formatRecord.errorString = some buf) (hbuf : buf.length = 256) :
    (m.length ≤ 255 →
      ∃ out, (setErrorString p m).formatRecord.errorString = some out ∧
        out.length = 256 ∧ out.head? = some (Char.ofNat m.length) ∧
        (out.drop 1).take m.length = m.data ∧ pstring out = m) ∧
    (255 < m.length →
      setErrorString p m = p ∧
      (setErrorString p m).formatRecord.errorString = some buf) :=
  ⟨fun h => setErrorString_short p m buf hslot hbuf h,
   fun h => ⟨setErrorString_long p m h, by rw [setErrorString_long p m h, hslot]⟩⟩

/-- C23 at a 15-byte and at a 300-byte message. -/
theorem C23_setErrorString_size_guard_witness :
    freshPlugin.formatRecord.errorString = some (List.replicate 256 (Char.ofNat 0)) ∧
    (List.replicate 256 (Char.ofNat 0)).length = 256 ∧
    (∃ out, (setErrorString freshPlugin "not a FITS file").formatRecord.errorString
        = some out ∧
      out.length = 256 ∧ out.head? = some (Char.ofNat 15) ∧
      (out.drop 1).take 15 = "not a FITS file".data ∧ pstring out = "not a FITS file") ∧
    setErrorString freshPlugin (String.mk (List.replicate 300 'x')) = freshPlugin :=
  ⟨rfl, List.length_replicate _ _,
   (C23_setErrorString_size_guard freshPlugin "not a FITS file" _ rfl
      (List.length_replicate _ _)).1 (by decide),
   ((C23_setErrorString_size_guard freshPlugin (String.mk (List.replicate 300 'x')) _ rfl
      (List.length_replicate _ _)).2
      (by rw [String.length, List.length_replicate]; decide)).1⟩

/-- C23 fails for a message of 256 bytes: `setErrorString` returns at its guard
`str.size() > 255`, so the slot still holds what it held before (here 256 zero bytes);
its length byte is 0, not `min(256, 255) = 255`, and no byte of the message follows. -/
theorem C23_counterexample_long_message :
    (String.mk (List.replicate 256 'a')).length = 256 ∧
    (setErrorString freshPlugin
        (String.mk (List.replicate 256 'a'))).formatRecord.errorString
      = some (List.replicate 256 (Char.ofNat 0)) ∧
    ¬ ∃ out, (setErrorString freshPlugin
          (String.mk (List.replicate 256 'a'))).formatRecord.errorString = some out ∧
        out.head? = some (Char.ofNat (min (String.mk (List.replicate 256 'a')).length 255)) ∧
        (out.drop 1).take (min (String.mk (List.replicate 256 'a')).length 255)
          = (String.mk (List.replicate 256 'a')).data.take
              (min (String.mk (List.replicate 256 'a')).length 255) := by
  have hlen : (String.mk (List.replicate 256 'a')).length = 256 := List.length_replicate _ _
  have hsame : setErrorString freshPlugin (String.mk (List.replicate 256 'a')) = freshPlugin :=
    setErrorString_long _ _ (by rw [hlen]; decide)
  refine ⟨hlen, by rw [hsame]; rfl, ?_⟩
  rintro ⟨out, h1, h2, -⟩
  rw [hsame] at h1
  have hout : out = List.replicate 256 (Char.ofNat 0) := (Option.some.inj h1).symm
  rw [hout, hlen] at h2
  revert h2
  decide

/-! ## The divisor of the normalisation -/

theorem chooseNormalization_equal (m : MinMax) (heq : m.maxFloatVal = m.minFloatVal)
    (hout : m.minFloatVal < 0 ∨ m.maxFloatVal > 1) :
    chooseNormalization m = Normalization.mk true (-m.minFloatVal) none := by
  unfold chooseNormalization
  rw [if_pos hout, heq, sub_self]
  rfl

theorem readContinue_constant_image (p : Plugin) (f : FITS) (adv : Nat → Int) (c : ℚ)
    (hd : p.formatRecord.depth = 32) (hf : ∀ k, f.readFault k = none)
    (hN : 0 < p.formatRecord.imageSizeH * p.formatRecord.imageSizeV * p.formatRecord.planes)
    (hc : ∀ i, i < p.formatRecord.imageSizeH * p.formatRecord.imageSizeV *
      p.formatRecord.planes → f.pixels i = c)
    (hrange : -FLT_MAX ≤ c ∧ c ≤ FLT_MAX) (hout : c < 0 ∨ 1 < c) :
    (readContinue p f true adv).minFloatVal = c ∧
    (readContinue p f true adv).maxFloatVal = c ∧
    (readContinue p f true adv).pMeta.map PhitsMetadata.isNormalized = some true ∧
    (readContinue p f true adv).normScale = none := by
  obtain ⟨pMeta, m, K, h1, -, -, h4, h5, h6, -, h8, ⟨hb, -, -, hmn, hmx⟩, -⟩ :=
    readContinue_float p f adv hd hf
  have hb0 := hb 0 hN
  rw [hc 0 hN] at hb0
  have hmin : m.minFloatVal = c := by
    rcases hmn with h | ⟨i, hi, h⟩
    · exact le_antisymm hb0.1 (by rw [h]; exact hrange.2)
    · rw [h, hc i hi]
  have hmax : m.maxFloatVal = c := by
    rcases hmx with h | ⟨i, hi, h⟩
    · exact le_antisymm (by rw [h]; exact hrange.1) hb0.2
    · rw [h, hc i hi]
  have hch := chooseNormalization_equal m (by rw [hmin, hmax])
    (by rw [hmin, hmax]; exact hout)
  refine ⟨by rw [h5, hmin], by rw [h6, hmax], ?_, ?_⟩
  · rw [h1, Option.map_some', h4, hch]
  · rw [h8, hch]

/-- C25 fails on a constant image outside [0,1]: a 2 x 1 float image holding the
sample -3 twice has min = max = -3, which is below 0, so normalisation is activated
with the divisor `max - min = 0`, and the scale `1 / (max - min)` is a division by zero
(not a finite number).  The same happens above 1, on a 1 x 1 image holding 2. -/
theorem C25_constant_image_zero_divisor :
    (readContinue (pluginFor 2 1 1 32) (floatFile 2 1 1 [-3, -3]) true
      neverCancel).plugin.result = noErr ∧
    (readContinue (pluginFor 2 1 1 32) (floatFile 2 1 1 [-3, -3]) true
      neverCancel).pMeta.map PhitsMetadata.isNormalized = some true ∧
    (readContinue (pluginFor 2 1 1 32) (floatFile 2 1 1 [-3, -3]) true
      neverCancel).minFloatVal = -3 ∧
    (readContinue (pluginFor 2 1 1 32) (floatFile 2 1 1 [-3, -3]) true
      neverCancel).maxFloatVal = -3 ∧
    (readContinue (pluginFor 2 1 1 32) (floatFile 2 1 1 [-3, -3]) true
      neverCancel).maxFloatVal
      - (readContinue (pluginFor 2 1 1 32) (floatFile 2 1 1 [-3, -3]) true
          neverCancel).minFloatVal = 0 ∧
    (readContinue (pluginFor 2 1 1 32) (floatFile 2 1 1 [-3, -3]) true
      neverCancel).normScale = none ∧
    (readContinue (pluginFor 1 1 1 32) (floatFile 1 1 1 [2]) true
      neverCancel).maxFloatVal
      - (readContinue (pluginFor 1 1 1 32) (floatFile 1 1 1 [2]) true
          neverCancel).minFloatVal = 0 ∧
    (readContinue (pluginFor 1 1 1 32) (floatFile 1 1 1 [2]) true
      neverCancel).normScale = none := by
  refine ⟨?_, ?_, ?_, ?_, ?_, ?_, ?_, ?_⟩ <;> with_unfolding_all decide

end Phits
